import Mathlib

/-!
# Academia portal: the flat-file record store

A shallow embedding of the C sources under `src/server` (`utils.h`,
`student_actions.h`, `faculty_actions.h`, `admin_actions.h`, `auth.h`).

Conventions of the embedding.

* A file, a C string and a socket message are lists of bytes (`List Char`); C
  strings carry no terminating NUL and the tables contain no NUL byte.
* `open` fails exactly when the file is absent (`none`); `fcntl`, `fdopen`,
  `fopen` of a temporary file, `rename` and `write` do not fail.
* The operations run alone: the advisory locks are not part of the state.
  The order of the system calls on the table files, the locks among them, is
  modelled apart, as the list of calls a function makes (`Call`).
* `int` values are mathematical integers; conversions follow glibc
  (`strtol` saturates at the bounds of `long`, the store into an `int` wraps
  to 32 bits) and `+ 1` / `- 1` on an `int` wrap to 32 bits.
* A fixed-size buffer written by an unchecked `strcat`, `strcpy` or `%[`
  conversion that would overrun makes the operation undefined: the model
  returns `none`.
* A local array or `int` read before it was written holds what the previous
  loop iteration left in it; what it holds on the first iteration is a
  parameter of the model.
-/

namespace Academia

/-! ## Status codes (`utils.h`, `auth.h`) -/

def SUCCESS : Int := 0
def FAILURE : Int := -1
def FILE_ERROR : Int := -1
def USER_NOT_FOUND : Int := -2
def NOT_FOUND : Int := -2
def COURSE_NOT_FOUND : Int := -3
def DUPLICATE_ID : Int := -3
def ALREADY_ENROLLED : Int := -4
def NOT_ENROLLED : Int := -5
def DEACTIVATED : Int := -3
def INCORRECT_ROLE : Int := -4
def WRONG_PASS : Int := -1
def WRONG_USER : Int := -2
def LOGIN_SUCCESS : Int := 1

/-- Role identifiers of `enum Role` (`types.h`). -/
def ADMIN : Int := 1
def STUDENT : Int := 2
def FACULTY : Int := 3

/-- Buffer sizes: `MAX_LINE` (`admin_actions.h`), `MAX_LINE_LEN`
(`faculty_actions.h`), `MAX_BUFFER` (`student_actions.h`), `types.h`. -/
def MAX_LINE : Nat := 256
def MAX_LINE_LEN : Nat := 512
def MAX_BUFFER : Nat := 2048
def MAX_STUDENT_BUFFER : Nat := 2048
def MAX_COURSE_BUFFER : Nat := 2048
def MAX_NAME_LEN : Nat := 100
def MAX_EMAIL_LEN : Nat := 100
def MAX_PASS_LEN : Nat := 64

/-! ## The C library -/

/-- The value of `(int) v`: wrap to 32 bits, two's complement. -/
def wrap32 (v : Int) : Int := (v + 2147483648) % 4294967296 - 2147483648

/-- Saturation of `strtol` at `LONG_MIN` / `LONG_MAX` (64-bit `long`). -/
def clamp_long (v : Int) : Int :=
  if v < -9223372036854775808 then -9223372036854775808
  else if 9223372036854775807 < v then 9223372036854775807
  else v

/-- C `isspace` in the "C" locale. -/
def isspace (c : Char) : Bool :=
  c = ' ' || c = '\t' || c = '\n' || c = '\x0b' || c = '\x0c' || c = '\r'

/-- C `isdigit`. -/
def isdigit (c : Char) : Bool := decide ('0' ≤ c ∧ c ≤ '9')

/-- Value of a decimal digit character. -/
def digit_val (c : Char) : Nat := c.toNat - 48

/-- Value of a run of decimal digits, most significant first. -/
def dec_value (ds : List Char) : Nat := ds.foldl (fun acc c => acc * 10 + digit_val c) 0

/-- The sign `strtol` reads: true for a leading `-`. -/
def sign_neg : List Char → Bool
  | '-' :: _ => true
  | _ => false

/-- The input of `strtol` after the optional sign. -/
def skip_sign : List Char → List Char
  | '-' :: t => t
  | '+' :: t => t
  | s => s

/-- `strtol(s, &end, 10)`: skip white space, an optional sign, at least one
digit; `none` when no digit is there. Returns the value and the unread rest. -/
def strtol (s : List Char) : Option (Int × List Char) :=
  if (skip_sign (s.dropWhile isspace)).takeWhile isdigit = [] then none
  else some
    (clamp_long (if sign_neg (s.dropWhile isspace)
      then -(dec_value ((skip_sign (s.dropWhile isspace)).takeWhile isdigit) : Int)
      else (dec_value ((skip_sign (s.dropWhile isspace)).takeWhile isdigit) : Int)),
     (skip_sign (s.dropWhile isspace)).dropWhile isdigit)

/-- C `atoi`: `(int) strtol(s, NULL, 10)`, 0 when there is no number. -/
def atoi (s : List Char) : Int :=
  match strtol s with
  | none => 0
  | some (v, _) => wrap32 v

/-- The digit character of `n < 10`. -/
def digit_char (n : Nat) : Char := Char.ofNat (48 + n)

/-- Decimal digits of a natural number; the first argument bounds the number
of digits. -/
def fmt_nat_fuel : Nat → Nat → List Char
  | 0, _ => []
  | fuel + 1, n =>
    if n < 10 then [digit_char n]
    else fmt_nat_fuel fuel (n / 10) ++ [digit_char (n % 10)]

/-- Decimal digits of a natural number. -/
def fmt_nat (n : Nat) : List Char := fmt_nat_fuel (n + 1) n

/-- The `printf` conversion `%d`. -/
def fmt_d (v : Int) : List Char :=
  if v < 0 then '-' :: fmt_nat v.natAbs else fmt_nat v.natAbs

/-- `strstr(haystack, needle) != NULL`: `needle` occurs in `haystack` (the
empty needle always does). -/
def strstr : List Char → List Char → Bool
  | [], needle => needle.isPrefixOf []
  | h :: hs, needle => needle.isPrefixOf (h :: hs) || strstr hs needle

/-- `s[strcspn(s, reject)] = 0`: the string cut before the first byte that
occurs in `reject`. -/
def cut_at (reject : List Char) (s : List Char) : List Char :=
  s.takeWhile (fun c => !reject.contains c)

/-- Successive results of `strtok(s, delims)`, `strtok(NULL, delims)`, ...
until it returns NULL; the first argument bounds the number of tokens. -/
def strtok_fuel (delims : List Char) : Nat → List Char → List (List Char)
  | 0, _ => []
  | fuel + 1, s =>
    let s1 := s.dropWhile (fun c => delims.contains c)
    if s1 = [] then []
    else s1.takeWhile (fun c => !delims.contains c) ::
         strtok_fuel delims fuel ((s1.dropWhile (fun c => !delims.contains c)).drop 1)

/-- All tokens `strtok` yields on `s`. -/
def strtok_all (delims : List Char) (s : List Char) : List (List Char) :=
  strtok_fuel delims s.length s

/-- What the buffer reads as a C string once `strtok` has walked it: `strtok`
overwrites the delimiter that ends the first token with NUL (and nothing when
there is no token). -/
def strtok_residue (delims : List Char) (s : List Char) : List Char :=
  let lead := s.takeWhile (fun c => delims.contains c)
  let s1 := s.dropWhile (fun c => delims.contains c)
  lead ++ s1.takeWhile (fun c => !delims.contains c)

/-- The kept tokens written one after the other with a comma before every
token but the first. -/
def join_commas : List (List Char) → List Char
  | [] => []
  | [tok] => tok
  | tok :: rest => tok ++ ',' :: join_commas rest

/-- The loop `first = 1; while (tok) { if (keep tok) { if (!first) strcat(out, ",");
strcat(out, tok); first = 0; } tok = strtok(NULL, ","); }`. -/
def join_kept (keep : List Char → Bool) (toks : List (List Char)) : List Char :=
  join_commas (toks.filter keep)

/-! ## `read_line` (`utils.h`) and `fgets` -/

/-- The loop of `read_line`: `n` is `max_len - 1 - i`. Returns the bytes
stored in the buffer and the unread rest of the file. -/
def read_line_loop : Nat → List Char → List Char × List Char
  | 0, inp => ([], inp)
  | _ + 1, [] => ([], [])
  | n + 1, c :: cs =>
    if c = '\n' then ([c], cs)
    else ((c :: (read_line_loop n cs).1), (read_line_loop n cs).2)

/-- `read_line(fd, buffer, max_len)` on the unread part `inp` of the file;
`max_len - 1` is computed in `size_t`. The return value is the length of the
first component. -/
def read_line (inp : List Char) (max_len : Nat) : List Char × List Char :=
  read_line_loop ((max_len + 18446744073709551616 - 1) % 18446744073709551616) inp

/-- The chunks a loop `while (read_line(fd, line, max_len) > 0)` sees; the
first argument bounds the number of iterations. -/
def read_lines_fuel (max_len : Nat) : Nat → List Char → List (List Char)
  | 0, _ => []
  | fuel + 1, inp =>
    if (read_line inp max_len).1 = [] then []
    else (read_line inp max_len).1 :: read_lines_fuel max_len fuel (read_line inp max_len).2

/-- The chunks a loop `while (read_line(fd, line, max_len) > 0)` sees when it
starts at the beginning of `file`: every successful call consumes a byte, so
`file.length` iterations exhaust the file. `fgets(line, max_len, f)` cuts the
file in the same way. -/
def read_lines (file : List Char) (max_len : Nat) : List (List Char) :=
  read_lines_fuel max_len file.length file

/-! ## `sscanf` -/

/-- A value stored by a conversion of `sscanf`. -/
inductive Val
  | int (v : Int)
  | str (s : List Char)
  deriving DecidableEq, Repr

/-- The directives of the format strings the sources use. -/
inductive Conv
  /-- `%d`, or `%*d` when `assign` is false. -/
  | d (assign : Bool)
  /-- `%[^stop]` with an optional maximum field width, `%*[^stop]` when
  `assign` is false. -/
  | set (stop : List Char) (width : Option Nat) (assign : Bool)
  /-- An ordinary character of the format. -/
  | lit (c : Char)
  deriving DecidableEq, Repr

/-- The bytes a `%[^stop]` conversion takes: the longest run of bytes outside
`stop`, at most `width` of them. -/
def scan_set (stop : List Char) (width : Option Nat) (s : List Char) : List Char :=
  match width with
  | none => s.takeWhile (fun c => !stop.contains c)
  | some w => (s.takeWhile (fun c => !stop.contains c)).take w

/-- `sscanf(s, fmt, ...)`: the values stored, in order; the return value of
`sscanf` is their number (the source compares it with positive numbers only,
so `EOF` counts as 0). Conversion stops at the first directive that fails. -/
def sscanf : List Conv → List Char → List Val
  | [], _ => []
  | Conv.lit c :: fmt, s =>
    match s with
    | x :: rest => if x = c then sscanf fmt rest else []
    | [] => []
  | Conv.d assign :: fmt, s =>
    match strtol s with
    | none => []
    | some (v, rest) =>
      if assign then Val.int (wrap32 v) :: sscanf fmt rest else sscanf fmt rest
  | Conv.set stop width assign :: fmt, s =>
    if scan_set stop width s = [] then []
    else if assign then
      Val.str (scan_set stop width s) :: sscanf fmt (s.drop (scan_set stop width s).length)
    else sscanf fmt (s.drop (scan_set stop width s).length)

/-- The `int` argument number `i` after the call: written when conversion `i`
was stored, otherwise still `old`. -/
def arg_int (vals : List Val) (i : Nat) (old : Int) : Int :=
  match vals.get? i with
  | some (Val.int v) => v
  | _ => old

/-- The `char[]` argument number `i` after the call: written when conversion
`i` was stored, otherwise still `old`. -/
def arg_str (vals : List Val) (i : Nat) (old : List Char) : List Char :=
  match vals.get? i with
  | some (Val.str s) => s
  | _ => old

/-- `strcat(dst, src)` into a buffer of `size` bytes: `none` when the result
with its terminating NUL does not fit. -/
def strcat (size : Nat) (dst src : List Char) : Option (List Char) :=
  if dst.length + src.length < size then some (dst ++ src) else none

/-- `pwrite(fd, data, strlen(data), offset)`: overwrite in place, extending
the file when the data reach beyond its end. -/
def pwrite (file : List Char) (data : List Char) (offset : Nat) : List Char :=
  file.take offset ++ data ++ file.drop (offset + data.length)

/-! ## The store and the shape of the loops -/

/-- The table files; `none` is a file that cannot be opened. -/
structure Store where
  courses : Option (List Char)
  students : Option (List Char)
  faculty : Option (List Char)
  admins : Option (List Char)
  deriving DecidableEq, Repr

/-- How a lookup loop ends: by a `return status` inside the loop, or by
leaving the loop with the `found` flag and the locals. -/
inductive Lookup (σ : Type)
  | ret (status : Int)
  | done (found : Bool) (locals : σ)
  deriving DecidableEq, Repr

/-- How a loop that builds the new content of a table ends: with the content,
by a `return status` inside the loop, or undefined (a buffer overrun). -/
inductive Rewrite
  | ok (content : List Char)
  | ret (status : Int)
  | undefined
  deriving DecidableEq, Repr

/-- The header test of `enroll_course` / `unenroll_course`:
`if ((bytes_read = read_line(fd, line, sizeof(line))) > 0 && strncmp(line, "id,", 3) == 0)`
copies the line (with a newline added when it has none) into the output
buffer, otherwise `lseek(fd, 0, SEEK_SET)`. Returns the initial content of
the output buffer and the chunks the following loop reads. -/
def split_header (file : List Char) : List Char × List (List Char) :=
  match read_lines file MAX_LINE with
  | [] => ([], [])
  | first :: rest =>
    if first.take 3 = ['i', 'd', ','] then
      (if first.getLast? = some '\n' then first else first ++ ['\n'], rest)
    else ([], first :: rest)

/-! ## `enroll_course` and `unenroll_course` (`student_actions.h`) -/

/-- The locals the course scan fills. -/
structure CourseVars where
  cid : Int
  course_code : List Char
  name_c : List Char
  cap : Int
  enrolled : Int
  credits : Int
  fid : Int
  students_list : List Char
  deriving DecidableEq, Repr

/-- Format `"%d,%63[^,],%127[^,],%d,%d,%d,%d,\"%511[^\"]\""`. -/
def course_fmt : List Conv :=
  [Conv.d true, Conv.lit ',', Conv.set [','] (some 63) true, Conv.lit ',',
   Conv.set [','] (some 127) true, Conv.lit ',', Conv.d true, Conv.lit ',',
   Conv.d true, Conv.lit ',', Conv.d true, Conv.lit ',', Conv.d true, Conv.lit ',',
   Conv.lit '"', Conv.set ['"'] (some 511) true, Conv.lit '"']

/-- Format `"%d,%*[^,],%*[^,],%*[^,],%*d,%[^\n]"`. -/
def student_probe_fmt : List Conv :=
  [Conv.d true, Conv.lit ',', Conv.set [','] none false, Conv.lit ',',
   Conv.set [','] none false, Conv.lit ',', Conv.set [','] none false, Conv.lit ',',
   Conv.d false, Conv.lit ',', Conv.set ['\n'] none true]

/-- Format `"%d,%[^,],%[^,],%[^,],%d,%[^\n]"`. -/
def student_fmt : List Conv :=
  [Conv.d true, Conv.lit ',', Conv.set [','] none true, Conv.lit ',',
   Conv.set [','] none true, Conv.lit ',', Conv.set [','] none true, Conv.lit ',',
   Conv.d true, Conv.lit ',', Conv.set ['\n'] none true]

/-- The call `sscanf(line, course_fmt, &cid, course_code, name_c, &cap,
&enrolled, &credits, &fid, students_list)`: the locals afterwards. -/
def scan_course (line : List Char) (v : CourseVars) : CourseVars :=
  { cid := arg_int (sscanf course_fmt line) 0 v.cid
    course_code := arg_str (sscanf course_fmt line) 1 v.course_code
    name_c := arg_str (sscanf course_fmt line) 2 v.name_c
    cap := arg_int (sscanf course_fmt line) 3 v.cap
    enrolled := arg_int (sscanf course_fmt line) 4 v.enrolled
    credits := arg_int (sscanf course_fmt line) 5 v.credits
    fid := arg_int (sscanf course_fmt line) 6 v.fid
    students_list := arg_str (sscanf course_fmt line) 7 v.students_list }

/-- The loop `tok = strtok(temp_list, ","); while (tok) { if (atoi(tok) ==
student_id) ...` finds the student. -/
def list_has_id (students_list : List Char) (student_id : Int) : Bool :=
  (strtok_all [','] students_list).any (fun tok => decide (atoi tok = student_id))

/-- Step 1 of `enroll_course` (lines 269-299): find the course, return
`ALREADY_ENROLLED` when the student is in its list. -/
def enroll_lookup_course (student_id course_id : Int) :
    List (List Char) → CourseVars → Lookup CourseVars
  | [], v => Lookup.done false v
  | chunk :: rest, v =>
    if (scan_course (cut_at ['\r', '\n'] chunk) { v with students_list := [] }).cid = course_id then
      if (sscanf course_fmt (cut_at ['\r', '\n'] chunk)).length = 8
          ∧ (scan_course (cut_at ['\r', '\n'] chunk) { v with students_list := [] }).students_list ≠ []
          ∧ list_has_id (scan_course (cut_at ['\r', '\n'] chunk)
              { v with students_list := [] }).students_list student_id = true then
        Lookup.ret ALREADY_ENROLLED
      else Lookup.done true (scan_course (cut_at ['\r', '\n'] chunk) { v with students_list := [] })
    else enroll_lookup_course student_id course_id rest
      (scan_course (cut_at ['\r', '\n'] chunk) { v with students_list := [] })

/-- Step 2 of `enroll_course` (lines 329-345): find the student, return
`ALREADY_ENROLLED` when `strstr(student_enrolled, course_code)`. The buffer
`student_enrolled` is set to "" once, before the loop. -/
def enroll_lookup_student (student_id : Int) (course_code : List Char) :
    List (List Char) → List Char → Lookup Unit
  | [], _ => Lookup.done false ()
  | line :: rest, student_enrolled =>
    if 1 ≤ (sscanf student_probe_fmt line).length
        ∧ arg_int (sscanf student_probe_fmt line) 0 0 = student_id then
      if strstr (arg_str (sscanf student_probe_fmt line) 1 student_enrolled) course_code then
        Lookup.ret ALREADY_ENROLLED
      else Lookup.done true ()
    else enroll_lookup_student student_id course_code rest
      (arg_str (sscanf student_probe_fmt line) 1 student_enrolled)

/-- The course record `snprintf(buf, sizeof(buf), "%d,%s,%s,%d,%d,%d,%d,\"%s\"\n", ...)`. -/
def course_record (cid : Int) (code name : List Char) (cap enrolled credits fid : Int)
    (students : List Char) : List Char :=
  fmt_d cid ++ [','] ++ code ++ [','] ++ name ++ [','] ++ fmt_d cap ++ [','] ++
    fmt_d enrolled ++ [','] ++ fmt_d credits ++ [','] ++ fmt_d fid ++ [',', '"'] ++
    students ++ ['"', '\n']

/-- The student record `snprintf(buf, sizeof(buf), "%d,%s,%s,%s,%d,%s\n", ...)`. -/
def student_record (sid : Int) (name email pass : List Char) (active : Int)
    (courses : List Char) : List Char :=
  fmt_d sid ++ [','] ++ name ++ [','] ++ email ++ [','] ++ pass ++ [','] ++
    fmt_d active ++ [','] ++ courses ++ ['\n']

/-- Append `piece` to the output buffer of `size` bytes and go on with `k`. -/
def append_then (size : Nat) (acc piece : List Char) (k : List Char → Rewrite) : Rewrite :=
  match strcat size acc piece with
  | none => Rewrite.undefined
  | some acc1 => k acc1

/-- The list `snprintf(new_students, sizeof(new_students), "%s,%d",
students_list, student_id)`, or `"%d"` alone when `students_list` is empty. -/
def enroll_new_students (students_list : List Char) (student_id : Int) : List Char :=
  if students_list ≠ [] then students_list ++ [','] ++ fmt_d student_id else fmt_d student_id

/-- The line `enroll_course` writes for the course (lines 411-413). -/
def enroll_course_line (student_id course_id : Int) (v : CourseVars) : List Char :=
  course_record course_id v.course_code v.name_c v.cap (wrap32 (v.enrolled + 1)) v.credits v.fid
    (enroll_new_students v.students_list student_id)

/-- Step 3 of `enroll_course` (lines 385-426): build `updated_courses`. -/
def enroll_rewrite_courses (student_id course_id : Int) (v : CourseVars) :
    List (List Char) → List Char → Rewrite
  | [], acc => Rewrite.ok acc
  | chunk :: rest, acc =>
    if (sscanf [Conv.d true] (cut_at ['\r', '\n'] chunk)).length = 1 then
      if arg_int (sscanf [Conv.d true] (cut_at ['\r', '\n'] chunk)) 0 0 = course_id then
        if MAX_BUFFER ≤ (enroll_new_students v.students_list student_id).length then
          Rewrite.ret FILE_ERROR
        else if MAX_COURSE_BUFFER ≤ (enroll_course_line student_id course_id v).length then
          Rewrite.ret FILE_ERROR
        else append_then MAX_COURSE_BUFFER acc (enroll_course_line student_id course_id v)
          (enroll_rewrite_courses student_id course_id v rest)
      else append_then MAX_COURSE_BUFFER acc (cut_at ['\r', '\n'] chunk) (fun acc1 =>
        append_then MAX_COURSE_BUFFER acc1 ['\n']
          (enroll_rewrite_courses student_id course_id v rest))
    else enroll_rewrite_courses student_id course_id v rest acc

/-- The `%[^,]` conversions of `student_fmt` overrun `name_s[64]`,
`email_s[64]` or `pass[64]`. -/
def student_fields_overrun (vals : List Val) : Bool :=
  decide (64 ≤ (arg_str vals 1 []).length) || decide (64 ≤ (arg_str vals 2 []).length)
    || decide (64 ≤ (arg_str vals 3 []).length)

/-- The list `snprintf(new_ec, sizeof(new_ec), "%s,%s", enrolled_s,
course_code)`, or `"%s"` of the code alone when `enrolled_s` is empty. -/
def enroll_new_ec (enrolled_s course_code : List Char) : List Char :=
  if enrolled_s ≠ [] then enrolled_s ++ [','] ++ course_code else course_code

/-- The line `enroll_course` writes for the student (lines 516-518), from
the values `sscanf` stored. -/
def enroll_student_line (student_id : Int) (course_code : List Char) (vals : List Val) :
    List Char :=
  student_record student_id (arg_str vals 1 []) (arg_str vals 2 []) (arg_str vals 3 [])
    (arg_int vals 4 0) (enroll_new_ec (arg_str vals 5 []) course_code)

/-- Step 4 of `enroll_course` (lines 489-531): build `updated_students`.
`enrolled_s` is set to "" in every iteration. -/
def enroll_rewrite_students (student_id : Int) (course_code : List Char) :
    List (List Char) → List Char → Rewrite
  | [], acc => Rewrite.ok acc
  | chunk :: rest, acc =>
    if student_fields_overrun (sscanf student_fmt (cut_at ['\r', '\n'] chunk)) = true then
      Rewrite.undefined
    else if 5 ≤ (sscanf student_fmt (cut_at ['\r', '\n'] chunk)).length then
      if arg_int (sscanf student_fmt (cut_at ['\r', '\n'] chunk)) 0 0 = student_id then
        if MAX_BUFFER ≤ (enroll_new_ec
            (arg_str (sscanf student_fmt (cut_at ['\r', '\n'] chunk)) 5 []) course_code).length then
          Rewrite.ret FILE_ERROR
        else if MAX_STUDENT_BUFFER ≤ (enroll_student_line student_id course_code
            (sscanf student_fmt (cut_at ['\r', '\n'] chunk))).length then Rewrite.ret FILE_ERROR
        else append_then MAX_STUDENT_BUFFER acc
          (enroll_student_line student_id course_code
            (sscanf student_fmt (cut_at ['\r', '\n'] chunk)))
          (enroll_rewrite_students student_id course_code rest)
      else append_then MAX_STUDENT_BUFFER acc (cut_at ['\r', '\n'] chunk) (fun acc1 =>
        append_then MAX_STUDENT_BUFFER acc1 ['\n']
          (enroll_rewrite_students student_id course_code rest))
    else enroll_rewrite_students student_id course_code rest acc

/-- The locals of `enroll_course` before the course scan: all initialised
except `cid`, declared in the loop body, whose first content is `cid0`. -/
def enroll_vars0 (cid0 : Int) : CourseVars :=
  { cid := cid0, course_code := [], name_c := [], cap := 0, enrolled := 0, credits := 0,
    fid := 0, students_list := [] }

/-- The function `enroll_course(student_id, course_id)`: the status returned
and the store afterwards; `none` when a buffer overruns. -/
def enroll_course (st : Store) (student_id course_id : Int) (cid0 : Int) :
    Option (Int × Store) :=
  match st.courses with
  | none => some (FILE_ERROR, st)
  | some cfile =>
    match enroll_lookup_course student_id course_id (split_header cfile).2 (enroll_vars0 cid0) with
    | Lookup.ret status => some (status, st)
    | Lookup.done false _ => some (COURSE_NOT_FOUND, st)
    | Lookup.done true v =>
      match st.students with
      | none => some (FILE_ERROR, st)
      | some sfile =>
        match enroll_lookup_student student_id v.course_code (read_lines sfile MAX_LINE) [] with
        | Lookup.ret status => some (status, st)
        | Lookup.done false _ => some (USER_NOT_FOUND, st)
        | Lookup.done true _ =>
          match enroll_rewrite_courses student_id course_id v (split_header cfile).2
              (split_header cfile).1 with
          | Rewrite.undefined => none
          | Rewrite.ret status => some (status, st)
          | Rewrite.ok updated_courses =>
            match enroll_rewrite_students student_id v.course_code (split_header sfile).2
                (split_header sfile).1 with
            | Rewrite.undefined => none
            | Rewrite.ret status => some (status, { st with courses := some updated_courses })
            | Rewrite.ok updated_students =>
              some (SUCCESS, { st with courses := some updated_courses,
                                       students := some updated_students })

/-- Step 1 of `unenroll_course` (lines 617-651): find the course, return
`NOT_ENROLLED` when the student is not in its list. `students_list` is not
reset between lines here. -/
def unenroll_lookup_course (student_id course_id : Int) :
    List (List Char) → CourseVars → Lookup CourseVars
  | [], v => Lookup.done false v
  | chunk :: rest, v =>
    if (scan_course (cut_at ['\r', '\n'] chunk) v).cid = course_id then
      if (sscanf course_fmt (cut_at ['\r', '\n'] chunk)).length = 8
          ∧ (scan_course (cut_at ['\r', '\n'] chunk) v).students_list ≠ []
          ∧ list_has_id (scan_course (cut_at ['\r', '\n'] chunk) v).students_list student_id = true then
        Lookup.done true (scan_course (cut_at ['\r', '\n'] chunk) v)
      else Lookup.ret NOT_ENROLLED
    else unenroll_lookup_course student_id course_id rest (scan_course (cut_at ['\r', '\n'] chunk) v)

/-- Step 2 of `unenroll_course` (lines 680-696): find the student, return
`NOT_ENROLLED` unless `strstr(student_enrolled, course_code)`. -/
def unenroll_lookup_student (student_id : Int) (course_code : List Char) :
    List (List Char) → List Char → Lookup Unit
  | [], _ => Lookup.done false ()
  | line :: rest, student_enrolled =>
    if 1 ≤ (sscanf student_probe_fmt line).length
        ∧ arg_int (sscanf student_probe_fmt line) 0 0 = student_id then
      if strstr (arg_str (sscanf student_probe_fmt line) 1 student_enrolled) course_code then
        Lookup.done true ()
      else Lookup.ret NOT_ENROLLED
    else unenroll_lookup_student student_id course_code rest
      (arg_str (sscanf student_probe_fmt line) 1 student_enrolled)

/-- The line `unenroll_course` writes for the course (lines 742-762): the
tokens of `students_list` other than the student, the count less one. -/
def unenroll_course_line (student_id course_id : Int) (v : CourseVars) : List Char :=
  course_record course_id v.course_code v.name_c v.cap (wrap32 (v.enrolled - 1)) v.credits v.fid
    (join_kept (fun tok => decide (atoi tok ≠ student_id)) (strtok_all [','] v.students_list))

/-- Step 3 of `unenroll_course` (lines 735-775): build `updated_courses`. -/
def unenroll_rewrite_courses (student_id course_id : Int) (v : CourseVars) :
    List (List Char) → List Char → Rewrite
  | [], acc => Rewrite.ok acc
  | chunk :: rest, acc =>
    if (sscanf [Conv.d true] (cut_at ['\r', '\n'] chunk)).length = 1 then
      if arg_int (sscanf [Conv.d true] (cut_at ['\r', '\n'] chunk)) 0 0 = course_id then
        if MAX_COURSE_BUFFER ≤ (unenroll_course_line student_id course_id v).length then
          Rewrite.ret FILE_ERROR
        else append_then MAX_COURSE_BUFFER acc (unenroll_course_line student_id course_id v)
          (unenroll_rewrite_courses student_id course_id v rest)
      else append_then MAX_COURSE_BUFFER acc (cut_at ['\r', '\n'] chunk) (fun acc1 =>
        append_then MAX_COURSE_BUFFER acc1 ['\n']
          (unenroll_rewrite_courses student_id course_id v rest))
    else unenroll_rewrite_courses student_id course_id v rest acc

/-- The line `unenroll_course` writes for the student (lines 844-864), from
the values `sscanf` stored: the tokens of `enrolled_s` other than the code. -/
def unenroll_student_line (student_id : Int) (course_code : List Char) (vals : List Val) :
    List Char :=
  student_record student_id (arg_str vals 1 []) (arg_str vals 2 []) (arg_str vals 3 [])
    (arg_int vals 4 0)
    (join_kept (fun tok => decide (tok ≠ course_code)) (strtok_all [','] (arg_str vals 5 [])))

/-- Step 4 of `unenroll_course` (lines 836-877): build `updated_students`. -/
def unenroll_rewrite_students (student_id : Int) (course_code : List Char) :
    List (List Char) → List Char → Rewrite
  | [], acc => Rewrite.ok acc
  | chunk :: rest, acc =>
    if student_fields_overrun (sscanf student_fmt (cut_at ['\r', '\n'] chunk)) = true then
      Rewrite.undefined
    else if 5 ≤ (sscanf student_fmt (cut_at ['\r', '\n'] chunk)).length then
      if arg_int (sscanf student_fmt (cut_at ['\r', '\n'] chunk)) 0 0 = student_id then
        if MAX_STUDENT_BUFFER ≤ (unenroll_student_line student_id course_code
            (sscanf student_fmt (cut_at ['\r', '\n'] chunk))).length then Rewrite.ret FILE_ERROR
        else append_then MAX_STUDENT_BUFFER acc
          (unenroll_student_line student_id course_code
            (sscanf student_fmt (cut_at ['\r', '\n'] chunk)))
          (unenroll_rewrite_students student_id course_code rest)
      else append_then MAX_STUDENT_BUFFER acc (cut_at ['\r', '\n'] chunk) (fun acc1 =>
        append_then MAX_STUDENT_BUFFER acc1 ['\n']
          (unenroll_rewrite_students student_id course_code rest))
    else unenroll_rewrite_students student_id course_code rest acc

/-- The locals of `unenroll_course` before the course scan: `course_code` and
`students_list` are initialised to "", the others hold what `stack` says. -/
def unenroll_vars0 (stack : CourseVars) : CourseVars :=
  { stack with course_code := [], students_list := [] }

/-- The function `unenroll_course(student_id, course_id)`: the status
returned and the store afterwards; `none` when a buffer overruns. -/
def unenroll_course (st : Store) (student_id course_id : Int) (stack : CourseVars) :
    Option (Int × Store) :=
  match st.courses with
  | none => some (FILE_ERROR, st)
  | some cfile =>
    match unenroll_lookup_course student_id course_id (split_header cfile).2
        (unenroll_vars0 stack) with
    | Lookup.ret status => some (status, st)
    | Lookup.done false _ => some (COURSE_NOT_FOUND, st)
    | Lookup.done true v =>
      match st.students with
      | none => some (FILE_ERROR, st)
      | some sfile =>
        match unenroll_lookup_student student_id v.course_code (read_lines sfile MAX_LINE) [] with
        | Lookup.ret status => some (status, st)
        | Lookup.done false _ => some (USER_NOT_FOUND, st)
        | Lookup.done true _ =>
          match unenroll_rewrite_courses student_id course_id v (split_header cfile).2
              (split_header cfile).1 with
          | Rewrite.undefined => none
          | Rewrite.ret status => some (status, st)
          | Rewrite.ok updated_courses =>
            match unenroll_rewrite_students student_id v.course_code (split_header sfile).2
                (split_header sfile).1 with
            | Rewrite.undefined => none
            | Rewrite.ret status => some (status, { st with courses := some updated_courses })
            | Rewrite.ok updated_students =>
              some (SUCCESS, { st with courses := some updated_courses,
                                       students := some updated_students })

/-! ## `change_student_password` (`student_actions.h`) -/

/-- The `%[^,]` conversions of `student_fmt` overrun `name[MAX_LINE]`,
`email[MAX_LINE]` or `pass[MAX_LINE]`, or `%[^\n]` overruns `courses[MAX_BUFFER]`. -/
def password_fields_overrun (vals : List Val) : Bool :=
  decide (MAX_LINE ≤ (arg_str vals 1 []).length) || decide (MAX_LINE ≤ (arg_str vals 2 []).length)
    || decide (MAX_LINE ≤ (arg_str vals 3 []).length)
    || decide (MAX_BUFFER ≤ (arg_str vals 5 []).length)

/-- `linelen = nl ? (nl - line + 1) : n` for the bytes `line` that `pread`
returned. -/
def linelen (line : List Char) : Nat :=
  if '\n' ∈ line then (line.takeWhile (fun c => c ≠ '\n')).length + 1 else line.length

/-- The loop of `change_student_password` (lines 1085-1128). `courses` is
what the uninitialised buffer `courses[MAX_BUFFER]` holds; the first argument
bounds the number of iterations. Returns the status and the file. -/
def change_student_password_loop (student_id : Int) (new_password : List Char)
    (file : List Char) : Nat → Nat → List Char → Option (Int × List Char)
  | 0, _, _ => some (USER_NOT_FOUND, file)
  | fuel + 1, offset, courses =>
    if (file.drop offset).take (MAX_BUFFER - 1) = [] then some (USER_NOT_FOUND, file)
    else if password_fields_overrun
        (sscanf student_fmt ((file.drop offset).take (MAX_BUFFER - 1))) = true then none
    else if 5 ≤ (sscanf student_fmt ((file.drop offset).take (MAX_BUFFER - 1))).length
        ∧ arg_int (sscanf student_fmt ((file.drop offset).take (MAX_BUFFER - 1))) 0 0 = student_id then
      if MAX_BUFFER ≤ (student_record student_id
          (arg_str (sscanf student_fmt ((file.drop offset).take (MAX_BUFFER - 1))) 1 [])
          (arg_str (sscanf student_fmt ((file.drop offset).take (MAX_BUFFER - 1))) 2 [])
          new_password
          (arg_int (sscanf student_fmt ((file.drop offset).take (MAX_BUFFER - 1))) 4 0)
          (arg_str (sscanf student_fmt ((file.drop offset).take (MAX_BUFFER - 1))) 5 courses)).length
      then some (FILE_ERROR, file)
      else some (SUCCESS, pwrite file
        (student_record student_id
          (arg_str (sscanf student_fmt ((file.drop offset).take (MAX_BUFFER - 1))) 1 [])
          (arg_str (sscanf student_fmt ((file.drop offset).take (MAX_BUFFER - 1))) 2 [])
          new_password
          (arg_int (sscanf student_fmt ((file.drop offset).take (MAX_BUFFER - 1))) 4 0)
          (arg_str (sscanf student_fmt ((file.drop offset).take (MAX_BUFFER - 1))) 5 courses))
        offset)
    else change_student_password_loop student_id new_password file fuel
      (offset + linelen ((file.drop offset).take (MAX_BUFFER - 1)))
      (arg_str (sscanf student_fmt ((file.drop offset).take (MAX_BUFFER - 1))) 5 courses)

/-- The function `change_student_password(student_id, new_password)`: the
status returned and the store afterwards; `none` when a buffer overruns.
Every iteration advances `offset` by at least one byte, so `file.length + 1`
iterations reach the end of the file. `courses0` is the first content of the
uninitialised buffer `courses`. -/
def change_student_password (st : Store) (student_id : Int) (new_password : List Char)
    (courses0 : List Char) : Option (Int × Store) :=
  match st.students with
  | none => some (FILE_ERROR, st)
  | some file =>
    match change_student_password_loop student_id new_password file (file.length + 1) 0 courses0 with
    | none => none
    | some (status, file1) => some (status, { st with students := some file1 })

/-! ## `update_faculty_courses`, `add_course`, `remove_course` (`faculty_actions.h`) -/

/-- Format `"%d,%99[^,],%99[^,],%99[^,],%255[^\n]"`. -/
def faculty_fmt : List Conv :=
  [Conv.d true, Conv.lit ',', Conv.set [','] (some 99) true, Conv.lit ',',
   Conv.set [','] (some 99) true, Conv.lit ',', Conv.set [','] (some 99) true, Conv.lit ',',
   Conv.set ['\n'] (some 255) true]

/-- `strncat(dst, src, sizeof(courses) - strlen(dst) - 1)` for `courses[256]`. -/
def strncat_courses (dst src : List Char) : List Char :=
  dst ++ src.take (256 - dst.length - 1)

/-- The new content of `courses` for the faculty that is updated (lines 120-144). -/
def faculty_new_courses (courses course_code : List Char) (add : Bool) : List Char :=
  if add then
    if courses = [] then course_code.take 255
    else strncat_courses (strncat_courses courses [',']) course_code
  else join_kept (fun tok => decide (tok ≠ course_code)) (strtok_all [','] courses)

/-- The faculty record `fprintf(temp, "%d,%s,%s,%s,%s\n", ...)`. -/
def faculty_record (id : Int) (name email password courses : List Char) : List Char :=
  fmt_d id ++ [','] ++ name ++ [','] ++ email ++ [','] ++ password ++ [','] ++ courses ++ ['\n']

/-- The loop of `update_faculty_courses` (lines 108-153): the lines written
to the temporary file and the flag `updated`. -/
def update_faculty_loop (faculty_id : Int) (course_code : List Char) (add : Bool) :
    List (List Char) → List Char × Bool
  | [] => ([], false)
  | chunk :: rest =>
    if 4 ≤ (sscanf faculty_fmt (cut_at ['\n'] chunk)).length then
      if arg_int (sscanf faculty_fmt (cut_at ['\n'] chunk)) 0 0 = faculty_id then
        (faculty_record faculty_id
            (arg_str (sscanf faculty_fmt (cut_at ['\n'] chunk)) 1 [])
            (arg_str (sscanf faculty_fmt (cut_at ['\n'] chunk)) 2 [])
            (arg_str (sscanf faculty_fmt (cut_at ['\n'] chunk)) 3 [])
            (faculty_new_courses (arg_str (sscanf faculty_fmt (cut_at ['\n'] chunk)) 4 [])
              course_code add)
          ++ (update_faculty_loop faculty_id course_code add rest).1, true)
      else
        (faculty_record (arg_int (sscanf faculty_fmt (cut_at ['\n'] chunk)) 0 0)
            (arg_str (sscanf faculty_fmt (cut_at ['\n'] chunk)) 1 [])
            (arg_str (sscanf faculty_fmt (cut_at ['\n'] chunk)) 2 [])
            (arg_str (sscanf faculty_fmt (cut_at ['\n'] chunk)) 3 [])
            (arg_str (sscanf faculty_fmt (cut_at ['\n'] chunk)) 4 [])
          ++ (update_faculty_loop faculty_id course_code add rest).1,
         (update_faculty_loop faculty_id course_code add rest).2)
    else
      (cut_at ['\n'] chunk ++ ['\n'] ++ (update_faculty_loop faculty_id course_code add rest).1,
       (update_faculty_loop faculty_id course_code add rest).2)

/-- The function `update_faculty_courses(faculty_id, course_code, add)` on the
faculty table: status and faculty table afterwards. The first line is copied
as the header without a test. -/
def update_faculty_courses (faculty : Option (List Char)) (faculty_id : Int)
    (course_code : List Char) (add : Bool) : Int × Option (List Char) :=
  match faculty with
  | none => (FILE_ERROR, none)
  | some file =>
    if (update_faculty_loop faculty_id course_code add (read_lines file MAX_LINE_LEN).tail).2 = true then
      (SUCCESS, some ((read_lines file MAX_LINE_LEN).headD [] ++
        (update_faculty_loop faculty_id course_code add (read_lines file MAX_LINE_LEN).tail).1))
    else (USER_NOT_FOUND, some file)

/-- The loop `while (read_line(fd, line, sizeof(line)) > 0) { if (sscanf(line,
"%d,", &existing_id) == 1 && existing_id == id) ...` shared by
`check_course_id_exists`, `check_student_id_exists`, `check_faculty_id_exists`. -/
def id_in_chunks (id : Int) (chunks : List (List Char)) : Bool :=
  chunks.any (fun line => decide ((sscanf [Conv.d true, Conv.lit ','] line).length = 1
    ∧ arg_int (sscanf [Conv.d true, Conv.lit ','] line) 0 0 = id))

/-- The function `check_course_id_exists(id)`: 1 if a line has the id, else 0
(also when the file cannot be opened). -/
def check_course_id_exists (courses : Option (List Char)) (id : Int) : Int :=
  match courses with
  | none => 0
  | some file => if id_in_chunks id (read_lines file MAX_LINE_LEN) = true then 1 else 0

/-- The course record `fprintf(course_file, "%d,%s,%s,%d,0,%d,%d,\"\"\n", ...)`. -/
def new_course_record (id : Int) (code name : List Char) (capacity credits faculty_id : Int) :
    List Char :=
  fmt_d id ++ [','] ++ code ++ [','] ++ name ++ [','] ++ fmt_d capacity ++ [',', '0', ','] ++
    fmt_d credits ++ [','] ++ fmt_d faculty_id ++ [',', '"', '"', '\n']

/-- The header `add_course` writes into an empty courses file. -/
def course_header : List Char :=
  "id,code,course_name,capacity,enrolled,credits,f_id,students\n".toList

/-- `open(path, ... | O_CREAT ...)` followed by "write the header when the
file is empty, then the record". -/
def append_record (file : Option (List Char)) (header record : List Char) : List Char :=
  match file with
  | none => header ++ record
  | some content => if content = [] then header ++ record else content ++ record

/-- The function `add_course(id, code, name, capacity, credits, faculty_id)`:
status and store afterwards. -/
def add_course (st : Store) (id : Int) (code name : List Char)
    (capacity credits faculty_id : Int) : Int × Store :=
  if check_course_id_exists st.courses id ≠ 0 then (DUPLICATE_ID, st)
  else
    ((update_faculty_courses st.faculty faculty_id code true).1,
     { st with
       courses := some (append_record st.courses course_header
         (new_course_record id code name capacity credits faculty_id)),
       faculty := (update_faculty_courses st.faculty faculty_id code true).2 })

/-- The first loop of `remove_course` (lines 260-285): the course code and
the students list of the course, or the `return NOT_FOUND` of an unauthorised
caller. `course_code` is written by every line whose two first fields parse. -/
def remove_lookup_course (id faculty_id : Int) :
    List (List Char) → List Char → Lookup (List Char × List Char)
  | [], course_code => Lookup.done false (course_code, [])
  | line :: rest, course_code =>
    if (sscanf [Conv.d true, Conv.lit ',', Conv.set [','] (some 31) true, Conv.lit ','] line).length = 2
        ∧ arg_int (sscanf [Conv.d true, Conv.lit ',', Conv.set [','] (some 31) true,
            Conv.lit ','] line) 0 0 = id then
      if (sscanf [Conv.d false, Conv.lit ',', Conv.set [','] none false, Conv.lit ',',
            Conv.set [','] none false, Conv.lit ',', Conv.d false, Conv.lit ',', Conv.d false,
            Conv.lit ',', Conv.d false, Conv.lit ',', Conv.d true] line).length = 1
          ∧ arg_int (sscanf [Conv.d false, Conv.lit ',', Conv.set [','] none false, Conv.lit ',',
            Conv.set [','] none false, Conv.lit ',', Conv.d false, Conv.lit ',', Conv.d false,
            Conv.lit ',', Conv.d false, Conv.lit ',', Conv.d true] line) 0 0 ≠ faculty_id then
        Lookup.ret NOT_FOUND
      else
        Lookup.done true
          (arg_str (sscanf [Conv.d true, Conv.lit ',', Conv.set [','] (some 31) true,
             Conv.lit ','] line) 1 course_code,
           if '"' ∈ line ∧ '"' ∈ (line.dropWhile (fun c => c ≠ '"')).drop 1 then
             ((line.dropWhile (fun c => c ≠ '"')).drop 1).takeWhile (fun c => c ≠ '"')
           else [])
    else remove_lookup_course id faculty_id rest
      (arg_str (sscanf [Conv.d true, Conv.lit ',', Conv.set [','] (some 31) true,
         Conv.lit ','] line) 1 course_code)

/-- The `%[^,]` conversions of `student_fmt` overrun `name[100]`, `email[100]`
or `password[100]`. -/
def cascade_fields_overrun (vals : List Val) : Bool :=
  decide (100 ≤ (arg_str vals 1 []).length) || decide (100 ≤ (arg_str vals 2 []).length)
    || decide (100 ≤ (arg_str vals 3 []).length)

/-- The loop over the students table in `remove_course` (lines 314-352).
`enrolled_courses` is what the uninitialised buffer `enrolled_courses[512]`
holds when the iteration starts; `none` when a buffer overruns. -/
def remove_cascade_loop (course_code : List Char) :
    List (List Char) → List Char → Option (List Char)
  | [], _ => some []
  | chunk :: rest, enrolled_courses =>
    if cascade_fields_overrun (sscanf student_fmt (cut_at ['\n'] chunk)) = true then none
    else if 5 ≤ (sscanf student_fmt (cut_at ['\n'] chunk)).length then
      if strstr (arg_str (sscanf student_fmt (cut_at ['\n'] chunk)) 5 enrolled_courses)
          course_code = true then
        (remove_cascade_loop course_code rest
          (strtok_residue [','] (arg_str (sscanf student_fmt (cut_at ['\n'] chunk)) 5
            enrolled_courses))).map
          (fun out => student_record
            (arg_int (sscanf student_fmt (cut_at ['\n'] chunk)) 0 0)
            (arg_str (sscanf student_fmt (cut_at ['\n'] chunk)) 1 [])
            (arg_str (sscanf student_fmt (cut_at ['\n'] chunk)) 2 [])
            (arg_str (sscanf student_fmt (cut_at ['\n'] chunk)) 3 [])
            (arg_int (sscanf student_fmt (cut_at ['\n'] chunk)) 4 0)
            (join_kept (fun tok => decide (tok ≠ course_code))
              (strtok_all [','] (arg_str (sscanf student_fmt (cut_at ['\n'] chunk)) 5
                enrolled_courses))) ++ out)
      else
        (remove_cascade_loop course_code rest
          (arg_str (sscanf student_fmt (cut_at ['\n'] chunk)) 5 enrolled_courses)).map
          (fun out => cut_at ['\n'] chunk ++ ['\n'] ++ out)
    else
      (remove_cascade_loop course_code rest
        (arg_str (sscanf student_fmt (cut_at ['\n'] chunk)) 5 enrolled_courses)).map
        (fun out => cut_at ['\n'] chunk ++ ['\n'] ++ out)

/-- The students table after the cascade of `remove_course` (lines 296-369):
untouched when the students list of the course is empty or the table cannot
be opened. -/
def remove_cascade (students : Option (List Char)) (course_code students_list : List Char)
    (enrolled0 : List Char) : Option (Option (List Char)) :=
  if students_list = [] then some students
  else
    match students with
    | none => some none
    | some file =>
      (remove_cascade_loop course_code (read_lines file MAX_LINE_LEN).tail enrolled0).map
        (fun out => some ((read_lines file MAX_LINE_LEN).headD [] ++ out))

/-- The second pass of `remove_course` over the courses table (lines 381-393). -/
def remove_course_lines (id : Int) (file : List Char) : List Char :=
  (read_lines file MAX_LINE_LEN).headD [] ++
    ((read_lines file MAX_LINE_LEN).tail.filter (fun line =>
      !decide ((sscanf [Conv.d true, Conv.lit ','] line).length = 1
        ∧ arg_int (sscanf [Conv.d true, Conv.lit ','] line) 0 0 = id))).flatten

/-- The function `remove_course(id, faculty_id)`: status and store afterwards;
`none` when a buffer overruns. `enrolled0` is the first content of the
uninitialised buffer `enrolled_courses` of the cascade. -/
def remove_course (st : Store) (id faculty_id : Int) (enrolled0 : List Char) :
    Option (Int × Store) :=
  match st.courses with
  | none => some (FILE_ERROR, st)
  | some cfile =>
    match remove_lookup_course id faculty_id (read_lines cfile MAX_LINE_LEN).tail [] with
    | Lookup.ret status => some (status, st)
    | Lookup.done false _ => some (NOT_FOUND, st)
    | Lookup.done true (course_code, students_list) =>
      match remove_cascade st.students course_code students_list enrolled0 with
      | none => none
      | some students1 =>
        some ((update_faculty_courses st.faculty faculty_id course_code false).1,
          { st with
            courses := some (remove_course_lines id cfile),
            students := students1,
            faculty := (update_faculty_courses st.faculty faculty_id course_code false).2 })

/-! ## `add_student`, `add_faculty` (`admin_actions.h`) -/

/-- The functions `check_student_id_exists(filename, id)` and
`check_faculty_id_exists(filename, id)`: 1 if a line has the id, 0 if none
has, `FILE_ERROR` when the file cannot be opened. -/
def check_user_id_exists (file : Option (List Char)) (id : Int) : Int :=
  match file with
  | none => FILE_ERROR
  | some content => if id_in_chunks id (read_lines content MAX_LINE) = true then 1 else 0

/-- The header `add_student` writes into an empty file. -/
def student_header : List Char := "id,name,email,password,active,enrolled_courses\n".toList

/-- The header `add_faculty` writes into an empty file. -/
def faculty_header : List Char := "id,name,email,password,offered_courses\n".toList

/-- The function `add_student(filename, id, name, email, password, active)`:
status and file afterwards. -/
def add_student (file : Option (List Char)) (id : Int) (name email password : List Char)
    (active : Int) : Int × Option (List Char) :=
  if check_user_id_exists file id ≠ 0 then (DUPLICATE_ID, file)
  else (SUCCESS, some (append_record file student_header
    (fmt_d id ++ [','] ++ name ++ [','] ++ email ++ [','] ++ password ++ [','] ++
      fmt_d active ++ [',', '\n'])))

/-- The function `add_faculty(filename, id, name, email, password)`: status
and file afterwards. -/
def add_faculty (file : Option (List Char)) (id : Int) (name email password : List Char) :
    Int × Option (List Char) :=
  if check_user_id_exists file id ≠ 0 then (DUPLICATE_ID, file)
  else (SUCCESS, some (append_record file faculty_header
    (fmt_d id ++ [','] ++ name ++ [','] ++ email ++ [','] ++ password ++ [',', '\n'])))

/-! ## `authenticate_user` (`auth.h`) -/

/-- One `write(client_fd, ...)`: a run of bytes, or an `int` sent as
`sizeof(int)` bytes. -/
inductive Sent
  | bytes (data : List Char)
  | int (v : Int)
  deriving DecidableEq, Repr

/-- Format `"%d,%[^,],%[^,],%[^,],%d"`. -/
def auth_student_fmt : List Conv :=
  [Conv.d true, Conv.lit ',', Conv.set [','] none true, Conv.lit ',',
   Conv.set [','] none true, Conv.lit ',', Conv.set [','] none true, Conv.lit ',', Conv.d true]

/-- Format `"%d,%[^,],%[^,],%[^,\n]"`. -/
def auth_user_fmt : List Conv :=
  [Conv.d true, Conv.lit ',', Conv.set [','] none true, Conv.lit ',',
   Conv.set [','] none true, Conv.lit ',', Conv.set [',', '\n'] none true]

/-- The `%[` conversions overrun `name[MAX_NAME_LEN]`, `mail[MAX_EMAIL_LEN]`
or `pass[MAX_PASS_LEN]`. -/
def auth_fields_overrun (vals : List Val) : Bool :=
  decide (MAX_NAME_LEN ≤ (arg_str vals 1 []).length)
    || decide (MAX_EMAIL_LEN ≤ (arg_str vals 2 []).length)
    || decide (MAX_PASS_LEN ≤ (arg_str vals 3 []).length)

/-- The message `snprintf(welcome_msg, sizeof(welcome_msg), " Welcome %s! You
are logged in as <role>.                ║\n", name)`; the box character is
three bytes. -/
def welcome_msg (name role_str : List Char) : List Char :=
  (" Welcome ".toList ++ name ++ "! You are logged in as ".toList ++ role_str ++
    ".                ".toList ++ ['\xe2', '\x95', '\x91', '\n']).take 255

/-- The loop of `authenticate_user` for `role == STUDENT` (lines 102-140):
what is written to the client; `none` when a buffer overruns. -/
def auth_student_loop (email password : List Char) : List (List Char) → Option (List Sent)
  | [] => some [Sent.int WRONG_USER]
  | line :: rest =>
    if auth_fields_overrun (sscanf auth_student_fmt line) = true then none
    else if (sscanf auth_student_fmt line).length < 5 then auth_student_loop email password rest
    else if cut_at ['\r', '\n'] (arg_str (sscanf auth_student_fmt line) 2 []) = email then
      if cut_at ['\r', '\n'] (arg_str (sscanf auth_student_fmt line) 3 []) = password then
        if arg_int (sscanf auth_student_fmt line) 4 0 = 0 then some [Sent.int DEACTIVATED]
        else some [Sent.int LOGIN_SUCCESS, Sent.int (arg_int (sscanf auth_student_fmt line) 0 0),
          Sent.bytes (welcome_msg (arg_str (sscanf auth_student_fmt line) 1 []) "Student".toList)]
      else some [Sent.int WRONG_PASS]
    else auth_student_loop email password rest

/-- The loop of `authenticate_user` for the other roles (lines 102-167). -/
def auth_user_loop (role : Int) (email password : List Char) :
    List (List Char) → Option (List Sent)
  | [] => some [Sent.int WRONG_USER]
  | line :: rest =>
    if auth_fields_overrun (sscanf auth_user_fmt line) = true then none
    else if (sscanf auth_user_fmt line).length < 4 then auth_user_loop role email password rest
    else if cut_at ['\r', '\n'] (arg_str (sscanf auth_user_fmt line) 2 []) = email then
      if cut_at ['\r', '\n'] (arg_str (sscanf auth_user_fmt line) 3 []) = password then
        some [Sent.int LOGIN_SUCCESS, Sent.int (arg_int (sscanf auth_user_fmt line) 0 0),
          Sent.bytes (welcome_msg (arg_str (sscanf auth_user_fmt line) 1 [])
            (if role = ADMIN then "Administrator".toList else "Faculty".toList))]
      else some [Sent.int WRONG_PASS]
    else auth_user_loop role email password rest

/-- The table `authenticate_user` opens for a role, `none` for a role that is
none of the three. -/
def role_table (st : Store) (role : Int) : Option (Option (List Char)) :=
  if role = STUDENT then some st.students
  else if role = ADMIN then some st.admins
  else if role = FACULTY then some st.faculty
  else none

/-- What `read(client_fd, buf, size - 1)` followed by `buf[strcspn(buf,
"\r\n")] = 0` leaves in a buffer of `size` bytes when `read` returns `input`. -/
def read_credential (size : Nat) (input : List Char) : List Char :=
  cut_at ['\r', '\n'] (input.take (size - 1))

/-- The two prompts `authenticate_user` writes, each with its terminating NUL. -/
def auth_prompts : List Sent :=
  [Sent.bytes "Enter email: \x00".toList, Sent.bytes "Enter password: \x00".toList]

/-- The function `authenticate_user(client_fd, role)`. `email_in` and
`password_in` are the bytes the two `read` calls return (empty: end of stream
or error). Result: the return value and what is written to the client, in
order; `none` when a buffer overruns. -/
def authenticate_user (st : Store) (role : Int) (email_in password_in : List Char) :
    Option (Int × List Sent) :=
  if email_in.take (MAX_EMAIL_LEN - 1) = [] then
    some (WRONG_USER, [Sent.bytes "Enter email: \x00".toList])
  else if password_in.take (MAX_PASS_LEN - 1) = [] then some (WRONG_USER, auth_prompts)
  else
    match role_table st role with
    | none => some (INCORRECT_ROLE, auth_prompts)
    | some none => some (WRONG_USER, auth_prompts ++ [Sent.int WRONG_USER])
    | some (some file) =>
      match (if role = STUDENT then
          auth_student_loop (read_credential MAX_EMAIL_LEN email_in)
            (read_credential MAX_PASS_LEN password_in) (split_header file).2
        else
          auth_user_loop role (read_credential MAX_EMAIL_LEN email_in)
            (read_credential MAX_PASS_LEN password_in) (split_header file).2) with
      | none => none
      | some sent => some (0, auth_prompts ++ sent)

/-! ## Well-formed tables

The records of a table as values, and the text the code writes for them. -/

/-- A course: the fields of a line of the courses table. -/
structure Course where
  id : Int
  code : List Char
  name : List Char
  capacity : Int
  enrolled : Int
  credits : Int
  faculty_id : Int
  students : List Int
  deriving DecidableEq, Repr

/-- A student: the fields of a line of the students table. -/
structure Student where
  id : Int
  name : List Char
  email : List Char
  password : List Char
  active : Int
  courses : List (List Char)
  deriving DecidableEq, Repr

/-- The quoted list of student ids of a course line. -/
def Course.students_str (c : Course) : List Char := join_commas (c.students.map fmt_d)

/-- The line of a course, in the format `enroll_course` writes. -/
def Course.line (c : Course) : List Char :=
  course_record c.id c.code c.name c.capacity c.enrolled c.credits c.faculty_id c.students_str

/-- The list of course codes of a student line. -/
def Student.courses_str (s : Student) : List Char := join_commas s.courses

/-- The line of a student, in the format `enroll_course` writes. -/
def Student.line (s : Student) : List Char :=
  student_record s.id s.name s.email s.password s.active s.courses_str

/-- The courses table with the header `add_course` writes. -/
def courses_table (cs : List Course) : List Char :=
  course_header ++ (cs.map Course.line).flatten

/-- The students table with the header `add_student` writes. -/
def students_table (ss : List Student) : List Char :=
  student_header ++ (ss.map Student.line).flatten

/-- The locals of the course scan after the line of `c` was read. -/
def Course.vars (c : Course) : CourseVars :=
  { cid := c.id, course_code := c.code, name_c := c.name, cap := c.capacity,
    enrolled := c.enrolled, credits := c.credits, fid := c.faculty_id,
    students_list := c.students_str }

/-- Enrollment as the specification describes it: the student joins the list
of the course and the count grows by one. -/
def Course.enroll (c : Course) (student_id : Int) : Course :=
  { c with enrolled := wrap32 (c.enrolled + 1), students := c.students ++ [student_id] }

/-- Enrollment as the specification describes it: the code joins the list of
the student. -/
def Student.enroll (s : Student) (code : List Char) : Student :=
  { s with courses := s.courses ++ [code] }

/-- The courses after `student_id` enrolled in course `course_id`. -/
def enroll_courses (cs : List Course) (student_id course_id : Int) : List Course :=
  cs.map (fun c => if c.id = course_id then c.enroll student_id else c)

/-- The students after `student_id` enrolled in the course with code `code`. -/
def enroll_students (ss : List Student) (student_id : Int) (code : List Char) : List Student :=
  ss.map (fun s => if s.id = student_id then s.enroll code else s)

/-- Referential symmetry: a student is in the list of a course exactly when
the code of the course is in the list of the student. -/
def Symmetric (cs : List Course) (ss : List Student) : Prop :=
  ∀ s ∈ ss, ∀ c ∈ cs, s.id ∈ c.students ↔ c.code ∈ s.courses

/-- The store with the given courses and students tables. -/
def store_of (cs : List Course) (ss : List Student) (faculty admins : Option (List Char)) :
    Store :=
  { courses := some (courses_table cs), students := some (students_table ss),
    faculty := faculty, admins := admins }

/-! ## Predicates on fields, records and tables -/

/-- The range of `int`. -/
def InInt (v : Int) : Prop := -2147483648 ≤ v ∧ v ≤ 2147483647

instance (v : Int) : Decidable (InInt v) := by unfold InInt; infer_instance

/-- The next byte of `rest`, if any, is not a digit. -/
def NoDigitAhead (rest : List Char) : Prop := ∀ c, rest.head? = some c → isdigit c = false

/-- No byte of `f` is in `stop`. -/
def Avoids (stop : List Char) (f : List Char) : Prop := ∀ c ∈ f, c ∉ stop

instance (stop f : List Char) : Decidable (Avoids stop f) := by unfold Avoids; infer_instance

/-- The next byte of `rest`, if any, is in `stop`. -/
def StopAhead (stop : List Char) (rest : List Char) : Prop :=
  ∀ c, rest.head? = some c → c ∈ stop

/-- The field `f` is not longer than the width of the conversion. -/
def Fits (width : Option Nat) (f : List Char) : Prop :=
  match width with
  | none => True
  | some w => f.length ≤ w

/-- The text of the lines with the given bodies. -/
def lines_text (bodies : List (List Char)) : List Char :=
  (bodies.map (fun b => b ++ ['\n'])).flatten

/-- A non-empty field without a comma, a newline or a carriage return. -/
def Field (f : List Char) : Prop := f ≠ [] ∧ Avoids [',', '\n', '\r'] f

instance (f : List Char) : Decidable (Field f) := by unfold Field; infer_instance

/-- A course record the code reads back as written: numbers in the range of
`int`, fields that fit the widths of the format, a line that fits the line
buffer. -/
def CourseOK (c : Course) : Prop :=
  InInt c.id ∧ Field c.code ∧ c.code.length ≤ 63 ∧ Field c.name ∧ c.name.length ≤ 127
    ∧ InInt c.capacity ∧ InInt c.enrolled ∧ InInt c.credits ∧ InInt c.faculty_id
    ∧ (∀ i ∈ c.students, InInt i) ∧ c.line.length ≤ 255

instance (c : Course) : Decidable (CourseOK c) := by unfold CourseOK; infer_instance

/-- A student record the code reads back as written. -/
def StudentOK (s : Student) : Prop :=
  InInt s.id ∧ Field s.name ∧ Field s.email ∧ Field s.password ∧ InInt s.active
    ∧ (∀ t ∈ s.courses, Field t) ∧ s.line.length ≤ 255

instance (s : Student) : Decidable (StudentOK s) := by unfold StudentOK; infer_instance

/-- The body of a course line: the line without its newline. -/
def Course.body (c : Course) : List Char :=
  fmt_d c.id ++ ',' :: (c.code ++ ',' :: (c.name ++ ',' :: (fmt_d c.capacity ++ ',' ::
    (fmt_d c.enrolled ++ ',' :: (fmt_d c.credits ++ ',' :: (fmt_d c.faculty_id ++ ',' :: '"' ::
      (c.students_str ++ ['"'])))))))

/-- The body of a student line: the line without its newline. -/
def Student.body (s : Student) : List Char :=
  fmt_d s.id ++ ',' :: (s.name ++ ',' :: (s.email ++ ',' :: (s.password ++ ',' ::
    (fmt_d s.active ++ ',' :: s.courses_str))))

/-- The values `sscanf` stores from the body of a course line with `course_fmt`. -/
def Course.vals (c : Course) : List Val :=
  [Val.int c.id, Val.str c.code, Val.str c.name, Val.int c.capacity, Val.int c.enrolled,
   Val.int c.credits, Val.int c.faculty_id] ++
    (if c.students = [] then [] else [Val.str c.students_str])

/-- The values `sscanf` stores from the body of a student line with `student_fmt`. -/
def Student.vals (s : Student) : List Val :=
  [Val.int s.id, Val.str s.name, Val.str s.email, Val.str s.password, Val.int s.active] ++
    (if s.courses = [] then [] else [Val.str s.courses_str])

/-- The values `sscanf` stores from a student line with `student_probe_fmt`. -/
def Student.probe_vals (s : Student) : List Val :=
  [Val.int s.id] ++ (if s.courses = [] then [] else [Val.str s.courses_str])

/-- The body of the header line of the courses table. -/
def course_header_body : List Char :=
  "id,code,course_name,capacity,enrolled,credits,f_id,students".toList

/-- The body of the header line of the students table. -/
def student_header_body : List Char :=
  "id,name,email,password,active,enrolled_courses".toList

/-- A well-formed store: records the code reads back as written, ids unique
within each table, course codes unique. -/
def WellFormed (cs : List Course) (ss : List Student) : Prop :=
  (∀ c ∈ cs, CourseOK c) ∧ (∀ s ∈ ss, StudentOK s) ∧ (cs.map (fun c => c.id)).Nodup
    ∧ (cs.map (fun c => c.code)).Nodup ∧ (ss.map (fun s => s.id)).Nodup

instance (cs : List Course) (ss : List Student) : Decidable (WellFormed cs ss) := by
  unfold WellFormed; infer_instance

instance (cs : List Course) (ss : List Student) : Decidable (Symmetric cs ss) := by
  unfold Symmetric; infer_instance

/-- Two courses and two students, referentially symmetric: Bob is in CS101,
Amy is in MA1. -/
def demo_courses : List Course :=
  [{ id := 41, code := "CS101".toList, name := "Algo".toList, capacity := 30, enrolled := 1,
     credits := 4, faculty_id := 5, students := [3] },
   { id := 42, code := "MA1".toList, name := "Calc".toList, capacity := 10, enrolled := 1,
     credits := 3, faculty_id := 5, students := [9] }]

/-- The students of the demonstration store. -/
def demo_students : List Student :=
  [{ id := 3, name := "Bob".toList, email := "bob@x.com".toList, password := "pw".toList,
     active := 1, courses := ["CS101".toList] },
   { id := 9, name := "Amy".toList, email := "amy@x.com".toList, password := "pw1".toList,
     active := 1, courses := ["MA1".toList] }]

/-! ## Concrete stores -/

/-- Course 41 is full (`enrolled = capacity = 1`); student 9 is enrolled in
course 42 only. -/
def full_store : Store :=
  { courses := some ("id,code,course_name,capacity,enrolled,credits,f_id,students\n" ++
      "41,CS101,Algo,1,1,4,5,\"3\"\n" ++
      "42,MA1,Calc,10,1,3,5,\"9\"\n").toList
    students := some ("id,name,email,password,active,enrolled_courses\n" ++
      "3,Bob,bob@x.com,pw,1,CS101\n" ++
      "9,Amy,amy@x.com,pw1,1,MA1\n").toList
    faculty := some ("id,name,email,password,offered_courses\n" ++
      "5,Eve,eve@x.com,pw5,CS101,MA1\n").toList
    admins := none }

/-- The store `enroll_course(9, 41)` leaves behind on `full_store`: course 41
has two students for a capacity of one. -/
def full_store_after : Store :=
  { courses := some ("id,code,course_name,capacity,enrolled,credits,f_id,students\n" ++
      "41,CS101,Algo,1,2,4,5,\"3,9\"\n" ++
      "42,MA1,Calc,10,1,3,5,\"9\"\n").toList
    students := some ("id,name,email,password,active,enrolled_courses\n" ++
      "3,Bob,bob@x.com,pw,1,CS101\n" ++
      "9,Amy,amy@x.com,pw1,1,MA1,CS101\n").toList
    faculty := some ("id,name,email,password,offered_courses\n" ++
      "5,Eve,eve@x.com,pw5,CS101,MA1\n").toList
    admins := none }

/-- The table of the scenario of the specification, followed by one more row. -/
def password_store : Store :=
  { courses := none
    students := some ("id,name,email,password,active,enrolled_courses\n" ++
      "7,Amy,amy@x.com,pw1,1,CS101\n" ++
      "8,Bob,bob@x.com,pw2,1,MA1\n").toList
    faculty := none
    admins := none }

/-- What `change_student_password(7, "longerpassword")` leaves of
`password_store`: the head of the row of student 8 is overwritten. -/
def password_store_after : Store :=
  { courses := none
    students := some ("id,name,email,password,active,enrolled_courses\n" ++
      "7,Amy,amy@x.com,longerpassword,1,CS101\n" ++
      ".com,pw2,1,MA1\n").toList
    faculty := none
    admins := none }

/-- What `change_student_password(7, "p")` leaves of `password_store`: the
tail of the old row of student 7 stays behind as a row of its own. -/
def password_store_after_short : Store :=
  { courses := none
    students := some ("id,name,email,password,active,enrolled_courses\n" ++
      "7,Amy,amy@x.com,p,1,CS101\n" ++
      "1\n" ++
      "8,Bob,bob@x.com,pw2,1,MA1\n").toList
    faculty := none
    admins := none }

/-- Student 7 has no course; the row before it belongs to a student enrolled
in CS101. -/
def stale_store : Store :=
  { courses := some ("id,code,course_name,capacity,enrolled,credits,f_id,students\n" ++
      "41,CS101,Algo,30,1,4,5,\"3\"\n").toList
    students := some ("id,name,email,password,active,enrolled_courses\n" ++
      "3,Bob,bob@x.com,pw,1,CS101\n" ++
      "7,Amy,amy@x.com,pw1,1,\n").toList
    faculty := some ("id,name,email,password,offered_courses\n" ++
      "5,Eve,eve@x.com,pw5,CS101\n").toList
    admins := none }

/-- What `change_student_password(7, "new")` leaves of `stale_store`: the row
of student 7 now lists CS101. -/
def stale_store_after : Store :=
  { stale_store with
    students := some ("id,name,email,password,active,enrolled_courses\n" ++
      "3,Bob,bob@x.com,pw,1,CS101\n" ++
      "7,Amy,amy@x.com,new,1,CS101\n").toList }

/-- Student 3 is enrolled in CS101 only; course 40 has the code CS10, a
substring of CS101, and no student. -/
def substring_store : Store :=
  { courses := some ("id,code,course_name,capacity,enrolled,credits,f_id,students\n" ++
      "40,CS10,Intro,30,0,4,5,\"\"\n" ++
      "41,CS101,Algo,30,1,4,5,\"3\"\n").toList
    students := some ("id,name,email,password,active,enrolled_courses\n" ++
      "3,Bob,bob@x.com,pw,1,CS101\n").toList
    faculty := some ("id,name,email,password,offered_courses\n" ++
      "5,Eve,eve@x.com,pw5,CS10,CS101\n").toList
    admins := none }

/-- Student 3 is enrolled in CS10 and CS1, student 9 in nothing; faculty 5
owns both courses. -/
def cascade_store : Store :=
  { courses := some ("id,code,course_name,capacity,enrolled,credits,f_id,students\n" ++
      "41,CS1,Algo,5,1,4,5,\"3\"\n" ++
      "42,CS10,Calc,10,1,3,5,\"3\"\n").toList
    students := some ("id,name,email,password,active,enrolled_courses\n" ++
      "3,Bob,bob@x.com,pw,1,CS10,CS1\n" ++
      "9,Amy,amy@x.com,pw1,1,\n").toList
    faculty := some ("id,name,email,password,offered_courses\n" ++
      "5,Eve,eve@x.com,pw5,CS1,CS10\n").toList
    admins := none }

/-- What `remove_course(41, 5)` leaves of `cascade_store`: student 9, who held
no course, now lists CS10. -/
def cascade_store_after : Store :=
  { courses := some ("id,code,course_name,capacity,enrolled,credits,f_id,students\n" ++
      "42,CS10,Calc,10,1,3,5,\"3\"\n").toList
    students := some ("id,name,email,password,active,enrolled_courses\n" ++
      "3,Bob,bob@x.com,pw,1,CS10\n" ++
      "9,Amy,amy@x.com,pw1,1,CS10\n").toList
    faculty := some ("id,name,email,password,offered_courses\n" ++
      "5,Eve,eve@x.com,pw5,CS10\n").toList
    admins := none }

/-- The first line the course scan of `enroll_course` reads starts with a
number, so that `cid` is written before it is read. -/
def first_course_line_numbered (st : Store) : Bool :=
  match st.courses with
  | none => true
  | some cfile =>
    match (split_header cfile).2 with
    | [] => true
    | chunk :: _ => decide (sscanf course_fmt (cut_at ['\r', '\n'] chunk) ≠ [])

/-- On the way to the record of `student_id`, `change_student_password` reads
a line whose sixth field is stored, so that the buffer `courses` is written
before the record of `student_id` can read it. The arguments are those of
`change_student_password_loop`. -/
def courses_written_first (student_id : Int) (file : List Char) : Nat → Nat → Bool
  | 0, _ => true
  | fuel + 1, offset =>
    if (file.drop offset).take (MAX_BUFFER - 1) = [] then true
    else
      match (sscanf student_fmt ((file.drop offset).take (MAX_BUFFER - 1))).get? 5 with
      | some (Val.str _) => true
      | _ =>
        if 5 ≤ (sscanf student_fmt ((file.drop offset).take (MAX_BUFFER - 1))).length
            ∧ arg_int (sscanf student_fmt ((file.drop offset).take (MAX_BUFFER - 1))) 0 0
              = student_id then false
        else courses_written_first student_id file fuel
          (offset + linelen ((file.drop offset).take (MAX_BUFFER - 1)))

/-- The first student row the cascade of `remove_course` reads has its sixth
field stored, so that the buffer `enrolled_courses` is written before it is
read. -/
def first_student_row_lists_courses (st : Store) : Bool :=
  match st.students with
  | none => true
  | some file =>
    match (read_lines file MAX_LINE_LEN).tail with
    | [] => true
    | chunk :: _ =>
      match (sscanf student_fmt (cut_at ['\n'] chunk)).get? 5 with
      | some (Val.str _) => true
      | _ => false

/-- A course whose line takes the 255 bytes that a line buffer of `MAX_LINE`
bytes holds: 44 students with the ids 1000 to 1043. -/
def guard_courses : List Course :=
  [{ id := 41, code := "CS101".toList, name := "Algorithmics".toList, capacity := 100,
     enrolled := 44, credits := 4, faculty_id := 5,
     students := (List.range 44).map (fun i => (1000 + i : Int)) }]

/-- A student whose line has 252 bytes: a name, an email and a password of 63
bytes each and nine courses. -/
def guard_students : List Student :=
  [{ id := 777, name := List.replicate 63 'n', email := List.replicate 63 'e',
     password := List.replicate 63 'p', active := 1,
     courses := ["MA100", "MA101", "MA102", "MA103", "MA104", "MA105", "MA106", "MA107",
       "MA108"].map String.toList }]

/-- The store of `guard_courses` and `guard_students`. -/
def guard_store : Store := store_of guard_courses guard_students none none

/-- The store after `enroll_course(777, 41)` on `guard_store`: student 777 is
in the list of course 41 and CS101 is in the list of student 777. The line of
the course now has 259 bytes, the line of the student 258. -/
def guard_store_once : Store :=
  store_of (enroll_courses guard_courses 777 41)
    (enroll_students guard_students 777 "CS101".toList) none none

/-- The store after a second `enroll_course(777, 41)`: the count of course 41
is 46, its list ends with `7,777`, the end of its old line is a line of its
own, and student 777 lists `CS1` and `CS101`. -/
def guard_store_twice : Store :=
  { courses := some (course_header ++
      "41,CS101,Algorithmics,100,46,4,5,\"".toList ++
      join_commas (((List.range 44).map (fun i => (1000 + i : Int))).map fmt_d) ++
      ",7,777\"\n77\"\n".toList)
    students := some (student_header ++
      "777,".toList ++ List.replicate 63 'n' ++ [','] ++ List.replicate 63 'e' ++ [','] ++
      List.replicate 63 'p' ++
      ",1,MA100,MA101,MA102,MA103,MA104,MA105,MA106,MA107,MA108,CS1,CS101\n".toList)
    faculty := none
    admins := none }

/-- The courses of `cascade_store` as records. -/
def cascade_courses : List Course :=
  [{ id := 41, code := "CS1".toList, name := "Algo".toList, capacity := 5, enrolled := 1,
     credits := 4, faculty_id := 5, students := [3] },
   { id := 42, code := "CS10".toList, name := "Calc".toList, capacity := 10, enrolled := 1,
     credits := 3, faculty_id := 5, students := [3] }]

/-- The students of `cascade_store` as records. -/
def cascade_students : List Student :=
  [{ id := 3, name := "Bob".toList, email := "bob@x.com".toList, password := "pw".toList,
     active := 1, courses := ["CS10".toList, "CS1".toList] },
   { id := 9, name := "Amy".toList, email := "amy@x.com".toList, password := "pw1".toList,
     active := 1, courses := [] }]

/-- Course 41 has a code of 38 bytes, more than the 31 that `remove_course`
reads with `%31[^,]` and fewer than the 63 that `enroll_course` reads with
`%63[^,]`; student 3 is enrolled in it and faculty 5 owns it. -/
def long_code_store : Store :=
  { courses := some ("id,code,course_name,capacity,enrolled,credits,f_id,students\n" ++
      "41,ADVANCED-TOPICS-IN-DISTRIBUTED-SYSTEMS,Algo,5,1,4,5,\"3\"\n").toList
    students := some ("id,name,email,password,active,enrolled_courses\n" ++
      "3,Bob,bob@x.com,pw,1,ADVANCED-TOPICS-IN-DISTRIBUTED-SYSTEMS\n").toList
    faculty := some ("id,name,email,password,offered_courses\n" ++
      "5,Eve,eve@x.com,pw5,ADVANCED-TOPICS-IN-DISTRIBUTED-SYSTEMS\n").toList
    admins := none }

/-- What `remove_course(41, 5)` leaves of `long_code_store`: the course is
gone, student 3 and faculty 5 still list its code. -/
def long_code_store_after : Store :=
  { long_code_store with
    courses := some "id,code,course_name,capacity,enrolled,credits,f_id,students\n".toList }

/-- The courses of `long_code_store` as records. -/
def long_code_courses : List Course :=
  [{ id := 41, code := "ADVANCED-TOPICS-IN-DISTRIBUTED-SYSTEMS".toList, name := "Algo".toList,
     capacity := 5, enrolled := 1, credits := 4, faculty_id := 5, students := [3] }]

/-- The students of `long_code_store` as records. -/
def long_code_students : List Student :=
  [{ id := 3, name := "Bob".toList, email := "bob@x.com".toList, password := "pw".toList,
     active := 1, courses := ["ADVANCED-TOPICS-IN-DISTRIBUTED-SYSTEMS".toList] }]

/-- The courses of `full_store` as records. -/
def full_courses : List Course :=
  [{ id := 41, code := "CS101".toList, name := "Algo".toList, capacity := 1, enrolled := 1,
     credits := 4, faculty_id := 5, students := [3] },
   { id := 42, code := "MA1".toList, name := "Calc".toList, capacity := 10, enrolled := 1,
     credits := 3, faculty_id := 5, students := [9] }]

/-- The students of `full_store` as records. -/
def full_students : List Student :=
  [{ id := 3, name := "Bob".toList, email := "bob@x.com".toList, password := "pw".toList,
     active := 1, courses := ["CS101".toList] },
   { id := 9, name := "Amy".toList, email := "amy@x.com".toList, password := "pw1".toList,
     active := 1, courses := ["MA1".toList] }]

/-- The courses of `stale_store` as records. -/
def stale_courses : List Course :=
  [{ id := 41, code := "CS101".toList, name := "Algo".toList, capacity := 30, enrolled := 1,
     credits := 4, faculty_id := 5, students := [3] }]

/-- The students of `stale_store` as records. -/
def stale_students : List Student :=
  [{ id := 3, name := "Bob".toList, email := "bob@x.com".toList, password := "pw".toList,
     active := 1, courses := ["CS101".toList] },
   { id := 7, name := "Amy".toList, email := "amy@x.com".toList, password := "pw1".toList,
     active := 1, courses := [] }]

/-- The courses of `substring_store` as records. -/
def substring_courses : List Course :=
  [{ id := 40, code := "CS10".toList, name := "Intro".toList, capacity := 30, enrolled := 0,
     credits := 4, faculty_id := 5, students := [] },
   { id := 41, code := "CS101".toList, name := "Algo".toList, capacity := 30, enrolled := 1,
     credits := 4, faculty_id := 5, students := [3] }]

/-- The students of `substring_store` as records. -/
def substring_students : List Student :=
  [{ id := 3, name := "Bob".toList, email := "bob@x.com".toList, password := "pw".toList,
     active := 1, courses := ["CS101".toList] }]

/-- The students of `password_store` as records. -/
def password_students : List Student :=
  [{ id := 7, name := "Amy".toList, email := "amy@x.com".toList, password := "pw1".toList,
     active := 1, courses := ["CS101".toList] },
   { id := 8, name := "Bob".toList, email := "bob@x.com".toList, password := "pw2".toList,
     active := 1, courses := ["MA1".toList] }]

/-! ## Tables as lists of rows (for the `add_*` operations) -/

/-- A row of any of the tables: its id and the rest of the line after the
first comma. -/
structure Row where
  id : Int
  rest : List Char
  deriving DecidableEq, Repr

/-- The line of a row. -/
def Row.line (r : Row) : List Char := fmt_d r.id ++ ',' :: (r.rest ++ ['\n'])

/-- The text of the rows, one line each. -/
def rows_text (rows : List Row) : List Char := (rows.map Row.line).flatten

/-- Rows with an id in the range of `int` and a single line each. -/
def RowsOK (rows : List Row) : Prop := ∀ r ∈ rows, InInt r.id ∧ '\n' ∉ r.rest

instance (rows : List Row) : Decidable (RowsOK rows) := by unfold RowsOK; infer_instance

/-- The file is the table of the rows: absent or empty without rows, or the
rows with or without the header line in front. -/
def IsTable (header : List Char) (rows : List Row) (file : Option (List Char)) : Prop :=
  (file = none ∧ rows = []) ∨ file = some (rows_text rows)
    ∨ file = some (header ++ rows_text rows)

instance (header : List Char) (rows : List Row) (file : Option (List Char)) :
    Decidable (IsTable header rows file) := by unfold IsTable; infer_instance

/-- The text is empty or ends with a newline: what follows it starts a line. -/
def EndsLines (pre : List Char) : Prop := pre = [] ∨ ∃ p, pre = p ++ ['\n']

/-- A line of the file starts with the decimal id and a comma: the table
contains a record with this id. -/
def HasRecord (file : List Char) (id : Int) : Prop :=
  ∃ pre tail, file = pre ++ (fmt_d id ++ ',' :: tail) ∧ EndsLines pre

/-- The arguments of a call of `add_student`. -/
structure StudentArgs where
  id : Int
  name : List Char
  email : List Char
  password : List Char
  active : Int
  deriving DecidableEq, Repr

/-- The arguments of a call of `add_faculty`. -/
structure FacultyArgs where
  id : Int
  name : List Char
  email : List Char
  password : List Char
  deriving DecidableEq, Repr

/-- The arguments of a call of `add_course`. -/
structure CourseArgs where
  id : Int
  code : List Char
  name : List Char
  capacity : Int
  credits : Int
  faculty_id : Int
  deriving DecidableEq, Repr

/-- The file after a sequence of `add_student` calls. -/
def add_students : Option (List Char) → List StudentArgs → Option (List Char)
  | file, [] => file
  | file, a :: rest =>
    add_students (add_student file a.id a.name a.email a.password a.active).2 rest

/-- The file after a sequence of `add_faculty` calls. -/
def add_faculties : Option (List Char) → List FacultyArgs → Option (List Char)
  | file, [] => file
  | file, a :: rest => add_faculties (add_faculty file a.id a.name a.email a.password).2 rest

/-- The store after a sequence of `add_course` calls. -/
def add_courses : Store → List CourseArgs → Store
  | st, [] => st
  | st, a :: rest =>
    add_courses (add_course st a.id a.code a.name a.capacity a.credits a.faculty_id).2 rest

/-- A field value without a comma or a newline. -/
def PlainField (f : List Char) : Prop := Avoids [',', '\n'] f

instance (f : List Char) : Decidable (PlainField f) := by unfold PlainField; infer_instance

/-- Plain arguments of `add_student`: an id that is an `int`,
field values without a comma or a newline. -/
def StudentArgsOK (a : StudentArgs) : Prop :=
  InInt a.id ∧ PlainField a.name ∧ PlainField a.email ∧ PlainField a.password

instance (a : StudentArgs) : Decidable (StudentArgsOK a) := by
  unfold StudentArgsOK; infer_instance

/-- Plain arguments of `add_faculty`. -/
def FacultyArgsOK (a : FacultyArgs) : Prop :=
  InInt a.id ∧ PlainField a.name ∧ PlainField a.email ∧ PlainField a.password

instance (a : FacultyArgs) : Decidable (FacultyArgsOK a) := by
  unfold FacultyArgsOK; infer_instance

/-- Plain arguments of `add_course`. -/
def CourseArgsOK (a : CourseArgs) : Prop :=
  InInt a.id ∧ PlainField a.code ∧ PlainField a.name

instance (a : CourseArgs) : Decidable (CourseArgsOK a) := by
  unfold CourseArgsOK; infer_instance

/-- The row `add_student` appends. -/
def StudentArgs.row (a : StudentArgs) : Row :=
  { id := a.id
    rest := a.name ++ ',' :: (a.email ++ ',' :: (a.password ++ ',' :: (fmt_d a.active ++ [',']))) }

/-- The row `add_faculty` appends. -/
def FacultyArgs.row (a : FacultyArgs) : Row :=
  { id := a.id
    rest := a.name ++ ',' :: (a.email ++ ',' :: (a.password ++ [','])) }

/-- The row `add_course` appends. -/
def CourseArgs.row (a : CourseArgs) : Row :=
  { id := a.id
    rest := a.code ++ ',' :: (a.name ++ ',' :: (fmt_d a.capacity ++ ',' :: '0' :: ',' ::
      (fmt_d a.credits ++ ',' :: (fmt_d a.faculty_id ++ [',', '"', '"'])))) }

/-! ## Tables of users (for `authenticate_user`) -/

/-- A record of one of the three user tables; `active` is used by the
students table only, `extra` is the list of course codes (students, faculty). -/
structure User where
  id : Int
  name : List Char
  email : List Char
  password : List Char
  active : Int
  extra : List Char
  deriving DecidableEq, Repr

/-- The line of a user in the table of a role: `id,name,email,password,active,
courses` for a student, `id,name,email,password,courses` for a faculty,
`id,name,email,password` for an admin. -/
def user_line (role : Int) (u : User) : List Char :=
  if role = STUDENT then student_record u.id u.name u.email u.password u.active u.extra
  else if role = FACULTY then faculty_record u.id u.name u.email u.password u.extra
  else fmt_d u.id ++ [','] ++ u.name ++ [','] ++ u.email ++ [','] ++ u.password ++ ['\n']

/-- A well-formed user record: numbers in the range of `int`, non-empty
fields without separators that fit the buffers of `authenticate_user`, a line
under 256 bytes. -/
def UserOK (role : Int) (u : User) : Prop :=
  InInt u.id ∧ Field u.name ∧ u.name.length < MAX_NAME_LEN ∧ Field u.email
    ∧ u.email.length < MAX_EMAIL_LEN ∧ Field u.password ∧ u.password.length < MAX_PASS_LEN
    ∧ InInt u.active ∧ '\n' ∉ u.extra ∧ (user_line role u).length < 256

instance (role : Int) (u : User) : Decidable (UserOK role u) := by
  unfold UserOK; infer_instance

/-- A header: nothing, or one line under 256 bytes that starts with `id,`. -/
def HeaderOK (hdr : List Char) : Prop :=
  hdr = [] ∨ (∃ body, hdr = body ++ ['\n'] ∧ '\n' ∉ body) ∧ hdr.take 3 = ['i', 'd', ',']
    ∧ hdr.length < 256

/-- The text of a table of users. -/
def users_table (role : Int) (hdr : List Char) (users : List User) : List Char :=
  hdr ++ (users.map (user_line role)).flatten

/-- The name of the role in the welcome message. -/
def role_str (role : Int) : List Char :=
  if role = STUDENT then "Student".toList
  else if role = ADMIN then "Administrator".toList
  else "Faculty".toList

/-- A store for the login scenarios: student 9 is deactivated. -/
def login_store : Store :=
  { courses := none
    students := some (users_table STUDENT student_header
      [{ id := 3, name := "Bob".toList, email := "bob@x.com".toList, password := "pw".toList,
         active := 1, extra := "CS101".toList },
       { id := 9, name := "Amy".toList, email := "amy@x.com".toList, password := "pw1".toList,
         active := 0, extra := [] }])
    faculty := none
    admins := none }

/-! ## `handle_client` (`server.c`) -/

/-- What `handle_client` does on the socket of the client, in order: a
`write`, a `read` of the idle loop that returned data, the `close`. -/
inductive Event
  | write (s : Sent)
  | read (data : List Char)
  | close
  deriving DecidableEq, Repr

/-- How `handle_client` ends: by `return v`, or by `exit(code)`. -/
inductive Ending
  | returned (v : Int)
  | exited (code : Int)
  deriving DecidableEq, Repr

/-- `EXIT_FAILURE` of `stdlib.h`. -/
def EXIT_FAILURE : Int := 1

/-- The 45 bytes `write(client_fd, "Enter role (1-Admin, 2-Student,
3-Faculty): ", 45)` sends: the text and its terminating NUL. -/
def role_prompt : List Char := "Enter role (1-Admin, 2-Student, 3-Faculty): \x00".toList

/-- The loop `while (read(client_fd, buffer, sizeof(buffer)) > 0) { }`;
`idle_in` lists what the successive `read` calls return, an empty element or
the end of the list being the disconnection of the client. -/
def idle_loop : List (List Char) → List Event
  | [] => []
  | chunk :: rest => if chunk = [] then [] else Event.read chunk :: idle_loop rest

/-- The function `handle_client(client_fd)`. `role_in` is the value of `role`
after `read(client_fd, &role, sizeof(role))`, `none` when that `read` returns
nothing; `email_in` and `password_in` are what the two `read` calls of
`authenticate_user` return; `idle_in` is what the reads of the idle loop
return. Result: how the function ends and what it does on the socket; `none`
when a buffer of `authenticate_user` overruns. -/
def handle_client (st : Store) (role_in : Option Int) (email_in password_in : List Char)
    (idle_in : List (List Char)) : Option (Ending × List Event) :=
  match role_in with
  | none => some (Ending.returned (-1), [Event.write (Sent.bytes role_prompt)])
  | some role =>
    if role < 1 ∨ role > 3 then
      some (Ending.exited EXIT_FAILURE,
        [Event.write (Sent.bytes role_prompt), Event.write (Sent.int INCORRECT_ROLE),
         Event.close])
    else
      match authenticate_user st role email_in password_in with
      | none => none
      | some (auth_result, sent) =>
        if auth_result ≤ 0 then
          some (Ending.returned (-1),
            Event.write (Sent.bytes role_prompt) :: (sent.map Event.write ++ [Event.close]))
        else
          some (Ending.returned 0,
            Event.write (Sent.bytes role_prompt) :: (sent.map Event.write ++ idle_loop idle_in))

/-! ## `update_user_details` (`admin_actions.h`) -/

/-- Format `"%d,%255[^,],%255[^,],%255[^,],%d"`. -/
def update_fmt : List Conv :=
  [Conv.d true, Conv.lit ',', Conv.set [','] (some 255) true, Conv.lit ',',
   Conv.set [','] (some 255) true, Conv.lit ',', Conv.set [','] (some 255) true, Conv.lit ',',
   Conv.d true]

/-- The offset of the first line `update_user_details` scans (lines 276-282):
when the first four bytes can be read and the file starts with `id,`, the
bytes after the fourth are read up to and including the next newline. -/
def update_start (file : List Char) : Nat :=
  if 4 ≤ file.length ∧ file.take 3 = ['i', 'd', ','] then 4 + linelen (file.drop 4) else 0

/-- `strncpy(field, new_value, sizeof(field) - 1)` into a field of `MAX_LINE`
bytes that `sscanf` filled from a line of at most 255 bytes: the field is
`new_value` when `new_value` is shorter than 255 bytes; otherwise no NUL is
written and the last byte of the field was never set (`none`). -/
def strncpy_field (new_value : List Char) : Option (List Char) :=
  if new_value.length < MAX_LINE - 1 then some new_value else none

/-- The line `snprintf(updated, sizeof(updated), ...)` formats (lines
316-317): `"%d,%s,%s,%s,%d,\n"` when five fields were read, `"%d,%s,%s,%s\n"`
when four were. -/
def update_record (fields : Nat) (id : Int) (name email pass : List Char) (active : Int) :
    List Char :=
  if fields = 5 then
    fmt_d id ++ [','] ++ name ++ [','] ++ email ++ [','] ++ pass ++ [','] ++ fmt_d active ++
      [',', '\n']
  else fmt_d id ++ [','] ++ name ++ [','] ++ email ++ [','] ++ pass ++ ['\n']

/-- The `w` bytes `pwrite(fd, updated, w, offset)` takes from `updated`, `w`
being the length `snprintf` returns: the line when it fits, its first 255 bytes
and the NUL when `w` is 256, beyond the buffer (`none`) when `w` is larger. -/
def update_bytes (record : List Char) : Option (List Char) :=
  if record.length < MAX_LINE then some record
  else if record.length = MAX_LINE then some (record.take (MAX_LINE - 1) ++ ['\x00'])
  else none

/-- The update of the record found (lines 309-320): the file afterwards. -/
def update_write (file : List Char) (offset : Nat) (vals : List Val) (field_choice : Int)
    (new_value : List Char) : Option (List Char) :=
  (if field_choice = 1 then
      (strncpy_field new_value).map (fun name =>
        update_record vals.length (arg_int vals 0 0) name (arg_str vals 2 []) (arg_str vals 3 [])
          (arg_int vals 4 (-1)))
    else if field_choice = 2 then
      (strncpy_field new_value).map (fun email =>
        update_record vals.length (arg_int vals 0 0) (arg_str vals 1 []) email (arg_str vals 3 [])
          (arg_int vals 4 (-1)))
    else if field_choice = 3 then
      (strncpy_field new_value).map (fun pass =>
        update_record vals.length (arg_int vals 0 0) (arg_str vals 1 []) (arg_str vals 2 []) pass
          (arg_int vals 4 (-1)))
    else if field_choice = 4 ∧ vals.length = 5 then
      some (update_record vals.length (arg_int vals 0 0) (arg_str vals 1 []) (arg_str vals 2 [])
        (arg_str vals 3 []) (if arg_int vals 4 (-1) = 0 then 1 else 0))
    else
      some (update_record vals.length (arg_int vals 0 0) (arg_str vals 1 []) (arg_str vals 2 [])
        (arg_str vals 3 []) (arg_int vals 4 (-1)))).bind
    (fun record => (update_bytes record).map (fun data => pwrite file data offset))

/-- The loop of `update_user_details` (lines 285-333); the first argument
bounds the number of iterations. Returns the status and the file; `none` when
the update is undefined. -/
def update_user_loop (user_id field_choice : Int) (new_value file : List Char) :
    Nat → Nat → Option (Int × List Char)
  | 0, _ => some (USER_NOT_FOUND, file)
  | fuel + 1, offset =>
    if (file.drop offset).take (MAX_LINE - 1) = [] then some (USER_NOT_FOUND, file)
    else if ((sscanf update_fmt ((file.drop offset).take (MAX_LINE - 1))).length = 4
          ∨ (sscanf update_fmt ((file.drop offset).take (MAX_LINE - 1))).length = 5)
        ∧ arg_int (sscanf update_fmt ((file.drop offset).take (MAX_LINE - 1))) 0 0 = user_id then
      (update_write file offset (sscanf update_fmt ((file.drop offset).take (MAX_LINE - 1)))
        field_choice new_value).map (fun file1 => (SUCCESS, file1))
    else update_user_loop user_id field_choice new_value file fuel
      (offset + linelen ((file.drop offset).take (MAX_LINE - 1)))

/-- The function `update_user_details(filename, user_id, field_choice,
new_value)`: the status returned and the file afterwards. Every iteration
advances `offset` by at least one byte, so `file.length + 1` iterations reach
the end of the file. -/
def update_user_details (file : Option (List Char)) (user_id field_choice : Int)
    (new_value : List Char) : Option (Int × Option (List Char)) :=
  match file with
  | none => some (FILE_ERROR, none)
  | some content =>
    (update_user_loop user_id field_choice new_value content (content.length + 1)
      (update_start content)).map (fun r => (r.1, some r.2))

/-- Two students without courses, as `add_student` writes them. -/
def plain_students : List Char :=
  ("id,name,email,password,active,enrolled_courses\n" ++
    "7,Amy,amy@x.com,pw1,1,\n" ++
    "8,Bob,bob@x.com,pw2,1,\n").toList

/-- Two faculty members who offer one course each. -/
def plain_faculty : List Char :=
  ("id,name,email,password,offered_courses\n" ++
    "5,Eve,eve@x.com,pw5,MA1\n" ++
    "6,Dan,dan@x.com,pw6,CS101\n").toList

/-- The students of `plain_students` as records. -/
def plain_student_records : List Student :=
  [{ id := 7, name := "Amy".toList, email := "amy@x.com".toList, password := "pw1".toList,
     active := 1, courses := [] },
   { id := 8, name := "Bob".toList, email := "bob@x.com".toList, password := "pw2".toList,
     active := 1, courses := [] }]

/-! ## Concrete stores for `add_course` -/

/-- What `add_course(43, "CS101", "Algo2", 30, 4, 5)` leaves of `full_store`:
a second course with the code CS101, and CS101 twice in the list of faculty 5. -/
def full_store_second_code : Store :=
  { full_store with
    courses := some ("id,code,course_name,capacity,enrolled,credits,f_id,students\n" ++
      "41,CS101,Algo,1,1,4,5,\"3\"\n" ++
      "42,MA1,Calc,10,1,3,5,\"9\"\n" ++
      "43,CS101,Algo2,30,0,4,5,\"\"\n").toList
    faculty := some ("id,name,email,password,offered_courses\n" ++
      "5,Eve,eve@x.com,pw5,CS101,MA1,CS101\n").toList }

/-- The courses of `full_store_second_code` as records. -/
def full_courses_second_code : List Course :=
  full_courses ++
    [{ id := 43, code := "CS101".toList, name := "Algo2".toList, capacity := 30, enrolled := 0,
       credits := 4, faculty_id := 5, students := [] }]

/-- What `add_course(43, "PH1", "Physics", 20, 3, 9)` leaves of `full_store`,
whose faculty table has no faculty 9: the course record is there, the faculty
table is as before. -/
def full_store_orphan : Store :=
  { full_store with
    courses := some ("id,code,course_name,capacity,enrolled,credits,f_id,students\n" ++
      "41,CS101,Algo,1,1,4,5,\"3\"\n" ++
      "42,MA1,Calc,10,1,3,5,\"9\"\n" ++
      "43,PH1,Physics,20,0,3,9,\"\"\n").toList }

/-! ## Stores for the toggle, the long record, the missing header and the round trip -/

/-- The values `sscanf` returned for `course_fmt` fill all eight locals. -/
def course_vals_complete (vals : List Val) : Bool :=
  match vals with
  | [Val.int _, Val.str _, Val.str _, Val.int _, Val.int _, Val.int _, Val.int _, Val.str _] =>
    true
  | _ => false

/-- The first line the course scan of `unenroll_course` reads fills all eight
locals, so that each of them is written before it is read. -/
def first_course_line_complete (st : Store) : Bool :=
  match st.courses with
  | none => true
  | some file =>
    match (split_header file).2 with
    | [] => true
    | chunk :: _ => course_vals_complete (sscanf course_fmt (cut_at ['\r', '\n'] chunk))

/-- Course 40 has 50 students with the ids 1000 to 1049, its line has 279
bytes; course 41 has no student. -/
def long_courses : List Course :=
  [{ id := 40, code := "MA1".toList, name := "Calculus".toList, capacity := 100, enrolled := 50,
     credits := 3, faculty_id := 5, students := (List.range 50).map (fun i => (1000 + i : Int)) },
   { id := 41, code := "CS101".toList, name := "Algo".toList, capacity := 30, enrolled := 0,
     credits := 4, faculty_id := 5, students := [] }]

/-- The record of course 40 of `long_courses`. -/
def long_course : Course :=
  { id := 40, code := "MA1".toList, name := "Calculus".toList, capacity := 100, enrolled := 50,
    credits := 3, faculty_id := 5, students := (List.range 50).map (fun i => (1000 + i : Int)) }

/-- One student without courses. -/
def long_students : List Student :=
  [{ id := 9, name := "Amy".toList, email := "amy@x.com".toList, password := "pw1".toList,
     active := 1, courses := [] }]

/-- The store of `long_courses` and `long_students`. -/
def long_store : Store := store_of long_courses long_students none none

/-- What `enroll_course(9, 41)` leaves of `long_store`: the record of course
40 comes back as two lines, its first 255 bytes and the 24 bytes after them. -/
def long_store_after : Store :=
  { courses := some (course_header ++ long_course.line.take 255 ++ ['\n'] ++
      long_course.line.drop 255 ++ "41,CS101,Algo,30,1,4,5,\"9\"\n".toList)
    students := some ("id,name,email,password,active,enrolled_courses\n" ++
      "9,Amy,amy@x.com,pw1,1,CS101\n").toList
    faculty := none
    admins := none }

/-- A courses table without header line; the students and the faculty tables
have theirs. Faculty 5 owns both courses, student 3 is enrolled in both. -/
def headerless_store : Store :=
  { courses := some ("41,CS1,Algo,5,1,4,5,\"3\"\n" ++
      "42,CS10,Calc,10,1,3,5,\"3\"\n").toList
    students := some ("id,name,email,password,active,enrolled_courses\n" ++
      "3,Bob,bob@x.com,pw,1,CS10,CS1\n" ++
      "9,Amy,amy@x.com,pw1,1,\n").toList
    faculty := some ("id,name,email,password,offered_courses\n" ++
      "5,Eve,eve@x.com,pw5,CS1,CS10\n").toList
    admins := none }

/-- What `remove_course(42, 5)` leaves of `headerless_store`. -/
def headerless_store_after : Store :=
  { courses := some "41,CS1,Algo,5,1,4,5,\"3\"\n".toList
    students := some ("id,name,email,password,active,enrolled_courses\n" ++
      "3,Bob,bob@x.com,pw,1,CS1\n" ++
      "9,Amy,amy@x.com,pw1,1,\n").toList
    faculty := some ("id,name,email,password,offered_courses\n" ++
      "5,Eve,eve@x.com,pw5,CS1\n").toList
    admins := none }

/-! ## The contract of `read_line` -/

/-- The prefix the contract of `read_line` names: of the first `n` bytes of
`inp`, those up to and including the first newline when there is one among
them, all of them otherwise. -/
def longest_line_prefix (inp : List Char) (n : Nat) : List Char :=
  if '\n' ∈ inp.take n then inp.takeWhile (fun c => c ≠ '\n') ++ ['\n'] else inp.take n

/-! ## `change_password` (`faculty_actions.h`) -/

/-- One call `strtok(s, delims)` or `strtok(NULL, delims)` on the unread part
`s` of the buffer: the token (`none` for NULL) and the part left for the next
call. -/
def strtok_step (delims : List Char) (s : List Char) : Option (List Char) × List Char :=
  if s.dropWhile (fun c => delims.contains c) = [] then (none, [])
  else ((s.dropWhile (fun c => delims.contains c)).takeWhile (fun c => !delims.contains c),
    (((s.dropWhile (fun c => delims.contains c)).dropWhile
      (fun c => !delims.contains c)).drop 1))

/-- The line `snprintf(new_line, sizeof(new_line), ...)` formats for the
record found (lines 449-451): `"%s,%s,%s,%s,%s\n"` when `rest` is not NULL,
`"%s,%s,%s,%s\n"` when it is; `none` when `%s` is given a NULL pointer. -/
def change_password_record (id : List Char) (name email : Option (List Char))
    (newpass : List Char) (rest : Option (List Char)) : Option (List Char) :=
  match name, email, rest with
  | some name, some email, some rest =>
    some (id ++ [','] ++ name ++ [','] ++ email ++ [','] ++ newpass ++ [','] ++ rest ++ ['\n'])
  | some name, some email, none =>
    some (id ++ [','] ++ name ++ [','] ++ email ++ [','] ++ newpass ++ ['\n'])
  | _, _, _ => none

/-- The `len` bytes `write(temp_fd, new_line, len)` takes from
`new_line[MAX_LINE_LEN]`, `len` being the length `snprintf` returns: the line
when it fits, its first 511 bytes and the NUL when `len` is 512, bytes beyond
the buffer (`none`) when `len` is larger. -/
def change_password_bytes (record : List Char) : Option (List Char) :=
  if record.length < MAX_LINE_LEN then some record
  else if record.length = MAX_LINE_LEN then some (record.take (MAX_LINE_LEN - 1) ++ ['\x00'])
  else none

/-- The bytes written for a line that is not a header (lines 441-457) and
whether the line is the record of `faculty_id`; `none` when `atoi` is given the
NULL pointer of a line without token or the write is undefined. -/
def change_password_line (faculty_id : Int) (newpass line : List Char) :
    Option (List Char × Bool) :=
  match (strtok_step [','] line).1 with
  | none => none
  | some id =>
    if atoi id = faculty_id then
      ((change_password_record id
          (strtok_step [','] (strtok_step [','] line).2).1
          (strtok_step [','] (strtok_step [','] (strtok_step [','] line).2).2).1
          newpass
          (strtok_step ['\n'] (strtok_step [','] (strtok_step [','] (strtok_step [',']
            (strtok_step [','] line).2).2).2).2).1).bind change_password_bytes).map
        (fun data => (data, true))
    else some (line, false)

/-- The loop of `change_password` (lines 435-458): the content of the
temporary file and the flag `found`. -/
def change_password_loop (faculty_id : Int) (newpass : List Char) :
    List (List Char) → Option (List Char × Bool)
  | [] => some ([], false)
  | line :: rest =>
    if line.take 3 = ['i', 'd', ','] then
      (change_password_loop faculty_id newpass rest).map (fun r => (line ++ r.1, r.2))
    else
      match change_password_line faculty_id newpass line with
      | none => none
      | some (data, hit) =>
        (change_password_loop faculty_id newpass rest).map (fun r => (data ++ r.1, hit || r.2))

/-- The function `change_password(faculty_file, faculty_id, newpass)`: the
status returned and the file afterwards; `none` when the call is undefined.
The temporary file replaces the table when the record was found and is
removed when it was not. -/
def change_password (file : Option (List Char)) (faculty_id : Int) (newpass : List Char) :
    Option (Int × Option (List Char)) :=
  match file with
  | none => some (FAILURE, none)
  | some content =>
    match change_password_loop faculty_id newpass (read_lines content MAX_LINE_LEN) with
    | none => none
    | some (out, found) =>
      if found = true then some (SUCCESS, some out) else some (NOT_FOUND, some content)

/-- The record of `u` with the password `p` as a line of the faculty table;
the comma that precedes the list of courses is there when the list is not
empty. -/
def password_line (u : User) (p : List Char) : List Char :=
  if u.extra = [] then
    fmt_d u.id ++ [','] ++ u.name ++ [','] ++ u.email ++ [','] ++ p ++ ['\n']
  else faculty_record u.id u.name u.email p u.extra

/-- The records of `plain_faculty`. -/
def plain_faculty_records : List User :=
  [{ id := 5, name := "Eve".toList, email := "eve@x.com".toList, password := "pw5".toList,
     active := 0, extra := "MA1".toList },
   { id := 6, name := "Dan".toList, email := "dan@x.com".toList, password := "pw6".toList,
     active := 0, extra := "CS101".toList }]

/-- A password of 491 bytes: with it the record of faculty 5 of
`plain_faculty` takes 512 bytes. -/
def long_password : List Char := List.replicate 491 'x'

/-- What `change_password(5, long_password)` leaves of `plain_faculty`: the
record of faculty 5 ends with a NUL in place of its newline, and the record of
faculty 6 follows on the same line. -/
def plain_faculty_long : List Char :=
  "id,name,email,password,offered_courses\n".toList ++ "5,Eve,eve@x.com,".toList ++
    long_password ++ ",MA1\x006,Dan,dan@x.com,pw6,CS101\n".toList

/-! ## The system calls on the table files

The functions that rewrite a table are modelled a second time as the list of
the calls they make on the table files, in program order, along the path the
store takes them: the calls that succeed, up to the return of the function (or
up to the point where its behaviour is undefined). Temporary files appear only
when they are renamed onto a table. -/

/-- The table files. -/
inductive Table
  | courses
  | students
  | faculty
  deriving DecidableEq, Repr

/-- A system call on a table file. -/
inductive Call
  /-- `open(path, O_RDONLY)`. -/
  | open_read (t : Table)
  /-- `open(path, O_RDWR)`, with `O_CREAT` in `add_course`. -/
  | open_rdwr (t : Table)
  /-- `open(path, O_WRONLY | O_TRUNC)`: the file is emptied by the call. -/
  | open_trunc (t : Table)
  /-- `fcntl(fd, F_SETLKW, &lock)` with `l_type = F_RDLCK`. -/
  | lock_shared (t : Table)
  /-- `fcntl(fd, F_SETLKW, &lock)` with `l_type = F_WRLCK`. -/
  | lock_exclusive (t : Table)
  /-- `fcntl(fd, F_SETLK, &lock)` with `l_type = F_UNLCK`. -/
  | unlock (t : Table)
  /-- `close(fd)` or `fclose(stream)`: the locks of the process on the file
  are released with the descriptor. -/
  | close (t : Table)
  /-- `write(fd, data, len)` at the end of the file. -/
  | write (t : Table) (data : List Char)
  /-- `unlink(path)`. -/
  | unlink (t : Table)
  /-- `rename(temp, path)`: the temporary file, holding `data`, replaces the
  table. -/
  | rename (t : Table) (data : List Char)
  deriving DecidableEq, Repr

/-- A read-only pass over a table as `enroll_course` and `unenroll_course`
make it: open, shared lock, the reads, unlock, close; the last two come
before every `return` of the pass as well as after its loop. -/
def scan_calls (t : Table) : List Call :=
  [Call.open_read t, Call.lock_shared t, Call.unlock t, Call.close t]

/-- The write-back of `enroll_course` and `unenroll_course`
(`student_actions.h`, lines 434-456, 539-561, 783-804, 885-906):
`open(path, O_WRONLY | O_TRUNC)`, exclusive lock, `write`, unlock, close. -/
def write_back_calls (t : Table) (data : List Char) : List Call :=
  [Call.open_trunc t, Call.lock_exclusive t, Call.write t data, Call.unlock t, Call.close t]

/-- The calls of `enroll_course(student_id, course_id)`. -/
def enroll_course_calls (st : Store) (student_id course_id : Int) (cid0 : Int) : List Call :=
  match st.courses with
  | none => []
  | some cfile =>
    scan_calls Table.courses ++
    match enroll_lookup_course student_id course_id (split_header cfile).2 (enroll_vars0 cid0) with
    | Lookup.ret _ => []
    | Lookup.done false _ => []
    | Lookup.done true v =>
      match st.students with
      | none => []
      | some sfile =>
        scan_calls Table.students ++
        match enroll_lookup_student student_id v.course_code (read_lines sfile MAX_LINE) [] with
        | Lookup.ret _ => []
        | Lookup.done false _ => []
        | Lookup.done true _ =>
          [Call.open_read Table.courses, Call.lock_shared Table.courses] ++
          match enroll_rewrite_courses student_id course_id v (split_header cfile).2
              (split_header cfile).1 with
          | Rewrite.undefined => []
          | Rewrite.ret _ => [Call.unlock Table.courses, Call.close Table.courses]
          | Rewrite.ok updated_courses =>
            [Call.unlock Table.courses, Call.close Table.courses] ++
            write_back_calls Table.courses updated_courses ++
            [Call.open_read Table.students, Call.lock_shared Table.students] ++
            match enroll_rewrite_students student_id v.course_code (split_header sfile).2
                (split_header sfile).1 with
            | Rewrite.undefined => []
            | Rewrite.ret _ => [Call.unlock Table.students, Call.close Table.students]
            | Rewrite.ok updated_students =>
              [Call.unlock Table.students, Call.close Table.students] ++
              write_back_calls Table.students updated_students

/-- The calls of `unenroll_course(student_id, course_id)`. -/
def unenroll_course_calls (st : Store) (student_id course_id : Int) (stack : CourseVars) :
    List Call :=
  match st.courses with
  | none => []
  | some cfile =>
    scan_calls Table.courses ++
    match unenroll_lookup_course student_id course_id (split_header cfile).2
        (unenroll_vars0 stack) with
    | Lookup.ret _ => []
    | Lookup.done false _ => []
    | Lookup.done true v =>
      match st.students with
      | none => []
      | some sfile =>
        scan_calls Table.students ++
        match unenroll_lookup_student student_id v.course_code (read_lines sfile MAX_LINE) [] with
        | Lookup.ret _ => []
        | Lookup.done false _ => []
        | Lookup.done true _ =>
          [Call.open_read Table.courses, Call.lock_shared Table.courses] ++
          match unenroll_rewrite_courses student_id course_id v (split_header cfile).2
              (split_header cfile).1 with
          | Rewrite.undefined => []
          | Rewrite.ret _ => [Call.unlock Table.courses, Call.close Table.courses]
          | Rewrite.ok updated_courses =>
            [Call.unlock Table.courses, Call.close Table.courses] ++
            write_back_calls Table.courses updated_courses ++
            [Call.open_read Table.students, Call.lock_shared Table.students] ++
            match unenroll_rewrite_students student_id v.course_code (split_header sfile).2
                (split_header sfile).1 with
            | Rewrite.undefined => []
            | Rewrite.ret _ => [Call.unlock Table.students, Call.close Table.students]
            | Rewrite.ok updated_students =>
              [Call.unlock Table.students, Call.close Table.students] ++
              write_back_calls Table.students updated_students

/-- The calls of `update_faculty_courses(faculty_id, course_code, add)`
(`faculty_actions.h`, lines 78-173): `fclose(faculty)` closes the descriptor
that holds the lock, so the `fcntl` and the `close` after it fail, and
`rename` comes last. -/
def update_faculty_courses_calls (faculty : Option (List Char)) (faculty_id : Int)
    (course_code : List Char) (add : Bool) : List Call :=
  match faculty with
  | none => []
  | some file =>
    [Call.open_rdwr Table.faculty, Call.lock_exclusive Table.faculty, Call.close Table.faculty] ++
    if (update_faculty_loop faculty_id course_code add (read_lines file MAX_LINE_LEN).tail).2
        = true then
      [Call.rename Table.faculty ((read_lines file MAX_LINE_LEN).headD [] ++
        (update_faculty_loop faculty_id course_code add (read_lines file MAX_LINE_LEN).tail).1)]
    else []

/-- The calls of `add_course` (`faculty_actions.h`, lines 186-219): the pass
of `check_course_id_exists`, then the append. The header and the record go
through the buffer of the stream and are written by `fclose`, after the
`fcntl` that unlocks. -/
def add_course_calls (st : Store) (id : Int) (code name : List Char)
    (capacity credits faculty_id : Int) : List Call :=
  (match st.courses with
    | none => []
    | some _ => scan_calls Table.courses) ++
  if check_course_id_exists st.courses id ≠ 0 then []
  else
    [Call.open_rdwr Table.courses, Call.lock_exclusive Table.courses,
      Call.unlock Table.courses,
      Call.write Table.courses
        (if st.courses.getD [] = [] then
          course_header ++ new_course_record id code name capacity credits faculty_id
        else new_course_record id code name capacity credits faculty_id),
      Call.close Table.courses] ++
    update_faculty_courses_calls st.faculty faculty_id code true

/-- The calls of the cascade of `remove_course` (lines 296-369) and whether
the cascade is defined: `fclose(students_file)` closes the descriptor that
holds the lock, then `rename` replaces the table. -/
def remove_cascade_calls (students : Option (List Char)) (course_code students_list : List Char)
    (enrolled0 : List Char) : List Call × Bool :=
  if students_list = [] then ([], true)
  else
    match students with
    | none => ([], true)
    | some file =>
      match remove_cascade_loop course_code (read_lines file MAX_LINE_LEN).tail enrolled0 with
      | none => ([Call.open_rdwr Table.students, Call.lock_exclusive Table.students], false)
      | some out =>
        ([Call.open_rdwr Table.students, Call.lock_exclusive Table.students,
          Call.close Table.students,
          Call.rename Table.students ((read_lines file MAX_LINE_LEN).headD [] ++ out)], true)

/-- The calls of `remove_course(id, faculty_id)` (`faculty_actions.h`, lines
229-406): the cascade over the students table, the rewrite of the courses
table (`fclose(course_file)` before `rename`), then `update_faculty_courses`. -/
def remove_course_calls (st : Store) (id faculty_id : Int) (enrolled0 : List Char) :
    List Call :=
  match st.courses with
  | none => []
  | some cfile =>
    [Call.open_rdwr Table.courses, Call.lock_exclusive Table.courses] ++
    match remove_lookup_course id faculty_id (read_lines cfile MAX_LINE_LEN).tail [] with
    | Lookup.ret _ => [Call.unlock Table.courses, Call.close Table.courses]
    | Lookup.done false _ => [Call.unlock Table.courses, Call.close Table.courses]
    | Lookup.done true (course_code, students_list) =>
      (remove_cascade_calls st.students course_code students_list enrolled0).1 ++
      if (remove_cascade_calls st.students course_code students_list enrolled0).2 = true then
        [Call.close Table.courses, Call.rename Table.courses (remove_course_lines id cfile)] ++
        update_faculty_courses_calls st.faculty faculty_id course_code false
      else []

/-- The calls of `change_password(faculty_file, faculty_id, newpass)`
(`faculty_actions.h`, lines 416-475) on the faculty table. -/
def change_password_calls (file : Option (List Char)) (faculty_id : Int)
    (newpass : List Char) : List Call :=
  match file with
  | none => []
  | some content =>
    [Call.open_read Table.faculty, Call.lock_shared Table.faculty] ++
    match change_password_loop faculty_id newpass (read_lines content MAX_LINE_LEN) with
    | none => []
    | some (out, found) =>
      [Call.unlock Table.faculty, Call.close Table.faculty] ++
      if found = true then [Call.unlink Table.faculty, Call.rename Table.faculty out] else []

/-- The content of a table file of the store. -/
def table_of (st : Store) : Table → Option (List Char)
  | Table.courses => st.courses
  | Table.students => st.students
  | Table.faculty => st.faculty

/-- The store with the content of one table file replaced. -/
def set_table (st : Store) (t : Table) (content : Option (List Char)) : Store :=
  match t with
  | Table.courses => { st with courses := content }
  | Table.students => { st with students := content }
  | Table.faculty => { st with faculty := content }

/-- The effect of a call on the files. -/
def apply_call (st : Store) : Call → Store
  | Call.open_trunc t => set_table st t (some [])
  | Call.write t data => set_table st t (some ((table_of st t).getD [] ++ data))
  | Call.unlink t => set_table st t none
  | Call.rename t data => set_table st t (some data)
  | _ => st

/-- The files after a list of calls. -/
def replay (st : Store) (calls : List Call) : Store := calls.foldl apply_call st

/-- The lock the process holds on `t` after one more call: none, shared
(`some false`) or exclusive (`some true`). -/
def lock_step (t : Table) (h : Option Bool) : Call → Option Bool
  | Call.lock_shared u => if u = t then some false else h
  | Call.lock_exclusive u => if u = t then some true else h
  | Call.unlock u => if u = t then none else h
  | Call.close u => if u = t then none else h
  | _ => h

/-- The lock the process holds on `t` after `calls`. -/
def held (t : Table) (calls : List Call) : Option Bool := calls.foldl (lock_step t) none

/-- The table a call changes: emptied, written, removed or replaced. -/
def changed_table : Call → Option Table
  | Call.open_trunc t => some t
  | Call.write t _ => some t
  | Call.unlink t => some t
  | Call.rename t _ => some t
  | _ => none

/-- The calls of `calls` that change a table at a moment when the process
holds no exclusive lock on it; `before` are the calls made earlier. -/
def unlocked_changes_from (before : List Call) : List Call → List Call
  | [] => []
  | c :: rest =>
    (match changed_table c with
      | some t => if held t before = some true then [] else [c]
      | none => []) ++ unlocked_changes_from (before ++ [c]) rest

/-- The calls that change a table while no exclusive lock on it is held. -/
def unlocked_changes (calls : List Call) : List Call := unlocked_changes_from [] calls

/-- The table a call commits new content to: by a `write` or by a `rename`. -/
def committed : Call → Option Table
  | Call.write t _ => some t
  | Call.rename t _ => some t
  | _ => none

/-- The tables rewritten by `calls`, in the order of their rewrites. -/
def commits (calls : List Call) : List Table := calls.filterMap committed

/-- What a process that opens `t` between two calls of `calls` finds in it
when the writer holds no exclusive lock on `t` at that moment: the content of
`t` after each such prefix of `calls`. -/
def reader_views (st : Store) (calls : List Call) (t : Table) : List (Option (List Char)) :=
  ((List.range (calls.length + 1)).filter
    (fun n => decide (held t (calls.take n) ≠ some true))).map
    (fun n => table_of (replay st (calls.take n)) t)

/-! # Theorems -/

/-! ## Facts about the C library model -/

theorem wrap32_clamp_long (v : Int) (h : InInt v) : wrap32 (clamp_long v) = v := by
  unfold InInt at h
  unfold wrap32 clamp_long
  split_ifs <;> omega

theorem isdigit_digit_char (n : Nat) (h : n < 10) : isdigit (digit_char n) = true := by
  have key : ∀ k : Fin 10, isdigit (digit_char k.val) = true := by decide
  exact key ⟨n, h⟩

theorem digit_val_digit_char (n : Nat) (h : n < 10) : digit_val (digit_char n) = n := by
  have key : ∀ k : Fin 10, digit_val (digit_char k.val) = k.val := by decide
  exact key ⟨n, h⟩

theorem dec_value_snoc (ds : List Char) (d : Char) :
    dec_value (ds ++ [d]) = dec_value ds * 10 + digit_val d := by
  simp [dec_value, List.foldl_append]

theorem fmt_nat_fuel_spec (fuel : Nat) : ∀ n, n < fuel →
    (∀ c ∈ fmt_nat_fuel fuel n, isdigit c = true) ∧ fmt_nat_fuel fuel n ≠ []
      ∧ dec_value (fmt_nat_fuel fuel n) = n := by
  induction fuel with
  | zero => intro n h; omega
  | succ fuel ih =>
    intro n h
    unfold fmt_nat_fuel
    by_cases h10 : n < 10
    · simp only [h10, if_true]
      refine ⟨?_, by simp, ?_⟩
      · intro c hc
        simp only [List.mem_singleton] at hc
        subst hc
        exact isdigit_digit_char n h10
      · simp [dec_value, digit_val_digit_char n h10]
    · simp only [h10, if_false]
      have hlt : n / 10 < fuel := by omega
      obtain ⟨h1, h2, h3⟩ := ih (n / 10) hlt
      refine ⟨?_, by simp, ?_⟩
      · intro c hc
        rcases List.mem_append.mp hc with hc | hc
        · exact h1 c hc
        · simp only [List.mem_singleton] at hc
          subst hc
          exact isdigit_digit_char _ (Nat.mod_lt _ (by decide))
      · rw [dec_value_snoc, h3, digit_val_digit_char _ (Nat.mod_lt _ (by decide))]
        omega

theorem fmt_nat_digits (n : Nat) : ∀ c ∈ fmt_nat n, isdigit c = true :=
  (fmt_nat_fuel_spec (n + 1) n (by omega)).1

theorem fmt_nat_ne_nil (n : Nat) : fmt_nat n ≠ [] :=
  (fmt_nat_fuel_spec (n + 1) n (by omega)).2.1

theorem dec_value_fmt_nat (n : Nat) : dec_value (fmt_nat n) = n :=
  (fmt_nat_fuel_spec (n + 1) n (by omega)).2.2

theorem isdigit_not_space (c : Char) (h : isdigit c = true) : isspace c = false := by
  unfold isspace
  simp only [Bool.or_eq_false_iff, decide_eq_false_iff_not]
  refine ⟨⟨⟨⟨⟨?_, ?_⟩, ?_⟩, ?_⟩, ?_⟩, ?_⟩ <;> (rintro rfl; exact absurd h (by decide))

theorem isdigit_ne_minus (c : Char) (h : isdigit c = true) : c ≠ '-' := by
  rintro rfl; exact absurd h (by decide)

theorem isdigit_ne_plus (c : Char) (h : isdigit c = true) : c ≠ '+' := by
  rintro rfl; exact absurd h (by decide)

theorem sign_neg_cons_of_ne (c : Char) (t : List Char) (h : c ≠ '-') :
    sign_neg (c :: t) = false := by
  unfold sign_neg
  split
  · rename_i heq
    simp only [List.cons.injEq] at heq
    exact absurd heq.1 h
  · rfl

theorem skip_sign_cons_of_ne (c : Char) (t : List Char) (h1 : c ≠ '-') (h2 : c ≠ '+') :
    skip_sign (c :: t) = c :: t := by
  unfold skip_sign
  split
  · rename_i heq
    simp only [List.cons.injEq] at heq
    exact absurd heq.1 h1
  · rename_i heq
    simp only [List.cons.injEq] at heq
    exact absurd heq.1 h2
  · rfl

theorem takeWhile_isdigit_append (ds rest : List Char) (hds : ∀ c ∈ ds, isdigit c = true)
    (hrest : NoDigitAhead rest) : (ds ++ rest).takeWhile isdigit = ds := by
  rw [List.takeWhile_append_of_pos hds]
  cases rest with
  | nil => simp
  | cons r rs =>
    have : isdigit r = false := hrest r rfl
    simp [List.takeWhile_cons, this]

theorem dropWhile_isdigit_append (ds rest : List Char) (hds : ∀ c ∈ ds, isdigit c = true)
    (hrest : NoDigitAhead rest) : (ds ++ rest).dropWhile isdigit = rest := by
  rw [List.dropWhile_append_of_pos hds]
  cases rest with
  | nil => simp
  | cons r rs =>
    have : isdigit r = false := hrest r rfl
    simp [List.dropWhile_cons, this]

theorem strtol_digits (ds rest : List Char) (hds : ∀ c ∈ ds, isdigit c = true) (hne : ds ≠ [])
    (hrest : NoDigitAhead rest) :
    strtol (ds ++ rest) = some (clamp_long (dec_value ds), rest) := by
  cases ds with
  | nil => exact absurd rfl hne
  | cons d ds' =>
    have hd : isdigit d = true := hds d (List.mem_cons_self _ _)
    have hsp : (d :: ds' ++ rest).dropWhile isspace = d :: ds' ++ rest := by
      simp [List.dropWhile_cons, isdigit_not_space d hd]
    have hskip : skip_sign (d :: ds' ++ rest) = d :: ds' ++ rest :=
      skip_sign_cons_of_ne d _ (isdigit_ne_minus d hd) (isdigit_ne_plus d hd)
    have hneg : sign_neg (d :: ds' ++ rest) = false :=
      sign_neg_cons_of_ne d _ (isdigit_ne_minus d hd)
    unfold strtol
    rw [hsp, hskip, hneg, takeWhile_isdigit_append _ _ hds hrest,
      dropWhile_isdigit_append _ _ hds hrest]
    simp

theorem strtol_minus_digits (ds rest : List Char) (hds : ∀ c ∈ ds, isdigit c = true)
    (hne : ds ≠ []) (hrest : NoDigitAhead rest) :
    strtol ('-' :: (ds ++ rest)) = some (clamp_long (-(dec_value ds : Int)), rest) := by
  have hsp : ('-' :: (ds ++ rest)).dropWhile isspace = '-' :: (ds ++ rest) := by
    simp [List.dropWhile_cons, isspace]
  unfold strtol
  rw [hsp]
  have hskip : skip_sign ('-' :: (ds ++ rest)) = ds ++ rest := rfl
  have hneg : sign_neg ('-' :: (ds ++ rest)) = true := rfl
  rw [hskip, hneg, takeWhile_isdigit_append _ _ hds hrest,
    dropWhile_isdigit_append _ _ hds hrest]
  simp [hne]

theorem strtol_fmt_d (v : Int) (rest : List Char) (hrest : NoDigitAhead rest) :
    strtol (fmt_d v ++ rest) = some (clamp_long v, rest) := by
  unfold fmt_d
  by_cases hv : v < 0
  · simp only [hv, if_true, List.cons_append]
    rw [strtol_minus_digits _ _ (fmt_nat_digits _) (fmt_nat_ne_nil _) hrest, dec_value_fmt_nat]
    have : -(v.natAbs : Int) = v := by omega
    rw [this]
  · simp only [hv, if_false]
    rw [strtol_digits _ _ (fmt_nat_digits _) (fmt_nat_ne_nil _) hrest, dec_value_fmt_nat]
    have : (v.natAbs : Int) = v := by omega
    rw [this]

theorem atoi_fmt_d (v : Int) (h : InInt v) : atoi (fmt_d v) = v := by
  have := strtol_fmt_d v [] (by intro c hc; simp at hc)
  rw [List.append_nil] at this
  unfold atoi
  rw [this]
  exact wrap32_clamp_long v h

theorem fmt_d_ne_nil (v : Int) : fmt_d v ≠ [] := by
  unfold fmt_d
  split
  · simp
  · exact fmt_nat_ne_nil _

/-- No byte of `fmt_d v` is a comma, a newline, a carriage return or a quote. -/
theorem fmt_d_chars (v : Int) : ∀ c ∈ fmt_d v, c = '-' ∨ isdigit c = true := by
  intro c hc
  unfold fmt_d at hc
  split at hc
  · rcases List.mem_cons.mp hc with h | h
    · exact Or.inl h
    · exact Or.inr (fmt_nat_digits _ c h)
  · exact Or.inr (fmt_nat_digits _ c hc)

/-! ## Facts about `sscanf` -/

theorem NoDigitAhead_nil : NoDigitAhead [] := by intro c hc; simp at hc

theorem NoDigitAhead_cons (c : Char) (rest : List Char) (h : isdigit c = false) :
    NoDigitAhead (c :: rest) := by
  intro d hd
  simp only [List.head?_cons, Option.some.injEq] at hd
  subst hd
  exact h

theorem StopAhead_nil (stop : List Char) : StopAhead stop [] := by intro c hc; simp at hc

theorem StopAhead_cons (stop : List Char) (c : Char) (rest : List Char)
    (h : c ∈ stop) : StopAhead stop (c :: rest) := by
  intro d hd
  simp only [List.head?_cons, Option.some.injEq] at hd
  subst hd
  exact h

theorem takeWhile_avoid_append (stop f rest : List Char) (hf : Avoids stop f)
    (hrest : StopAhead stop rest) :
    (f ++ rest).takeWhile (fun c => !stop.contains c) = f := by
  rw [List.takeWhile_append_of_pos (by intro c hc; simp [hf c hc])]
  cases rest with
  | nil => simp
  | cons r rs =>
    have : r ∈ stop := hrest r rfl
    simp [List.takeWhile_cons, this]

theorem dropWhile_avoid_append (stop f rest : List Char) (hf : Avoids stop f)
    (hrest : StopAhead stop rest) :
    (f ++ rest).dropWhile (fun c => !stop.contains c) = rest := by
  rw [List.dropWhile_append_of_pos (by intro c hc; simp [hf c hc])]
  cases rest with
  | nil => simp
  | cons r rs =>
    have : r ∈ stop := hrest r rfl
    simp [List.dropWhile_cons, this]

theorem scan_set_field (stop : List Char) (width : Option Nat) (f rest : List Char)
    (hf : Avoids stop f) (hw : Fits width f) (hrest : StopAhead stop rest) :
    scan_set stop width (f ++ rest) = f := by
  unfold scan_set
  cases width with
  | none => exact takeWhile_avoid_append stop f rest hf hrest
  | some w =>
    simp only [takeWhile_avoid_append stop f rest hf hrest]
    exact List.take_of_length_le hw

theorem scan_set_stop (stop : List Char) (width : Option Nat) (rest : List Char)
    (hrest : StopAhead stop rest) : scan_set stop width rest = [] := by
  have := scan_set_field stop width [] rest (by intro c hc; simp at hc)
    (by cases width <;> simp [Fits]) hrest
  simpa using this

theorem sscanf_nil (s : List Char) : sscanf [] s = [] := by
  unfold sscanf; rfl

theorem sscanf_lit (c : Char) (fmt : List Conv) (rest : List Char) :
    sscanf (Conv.lit c :: fmt) (c :: rest) = sscanf fmt rest := by
  simp [sscanf]

theorem sscanf_lit_ne (c x : Char) (fmt : List Conv) (rest : List Char) (h : x ≠ c) :
    sscanf (Conv.lit c :: fmt) (x :: rest) = [] := by
  simp [sscanf, h]

theorem sscanf_lit_nil (c : Char) (fmt : List Conv) : sscanf (Conv.lit c :: fmt) [] = [] := by
  simp [sscanf]

theorem sscanf_d (fmt : List Conv) (v : Int) (rest : List Char) (hv : InInt v)
    (hrest : NoDigitAhead rest) :
    sscanf (Conv.d true :: fmt) (fmt_d v ++ rest) = Val.int v :: sscanf fmt rest := by
  simp [sscanf, strtol_fmt_d v rest hrest, wrap32_clamp_long v hv]

theorem sscanf_d_skip (fmt : List Conv) (v : Int) (rest : List Char)
    (hrest : NoDigitAhead rest) :
    sscanf (Conv.d false :: fmt) (fmt_d v ++ rest) = sscanf fmt rest := by
  simp [sscanf, strtol_fmt_d v rest hrest]

theorem sscanf_set (stop : List Char) (width : Option Nat) (fmt : List Conv)
    (f rest : List Char) (hne : f ≠ []) (hf : Avoids stop f) (hw : Fits width f)
    (hrest : StopAhead stop rest) :
    sscanf (Conv.set stop width true :: fmt) (f ++ rest) = Val.str f :: sscanf fmt rest := by
  simp [sscanf, scan_set_field stop width f rest hf hw hrest, hne]

theorem sscanf_set_skip (stop : List Char) (width : Option Nat) (fmt : List Conv)
    (f rest : List Char) (hne : f ≠ []) (hf : Avoids stop f) (hw : Fits width f)
    (hrest : StopAhead stop rest) :
    sscanf (Conv.set stop width false :: fmt) (f ++ rest) = sscanf fmt rest := by
  simp [sscanf, scan_set_field stop width f rest hf hw hrest, hne]

theorem sscanf_set_stop (stop : List Char) (width : Option Nat) (assign : Bool)
    (fmt : List Conv) (rest : List Char) (hrest : StopAhead stop rest) :
    sscanf (Conv.set stop width assign :: fmt) rest = [] := by
  simp [sscanf, scan_set_stop stop width rest hrest]

/-! ## Facts about `read_line` and the line loops -/

theorem read_line_loop_line (body rest : List Char) (hb : '\n' ∉ body) :
    ∀ n, body.length < n →
      read_line_loop n (body ++ '\n' :: rest) = (body ++ ['\n'], rest) := by
  induction body with
  | nil =>
    intro n hn
    cases n with
    | zero => simp at hn
    | succ n => simp [read_line_loop]
  | cons b bs ih =>
    intro n hn
    cases n with
    | zero => simp at hn
    | succ n =>
      have hb1 : b ≠ '\n' := by
        intro h; exact hb (by simp [h])
      have hb2 : '\n' ∉ bs := by
        intro h; exact hb (by simp [h])
      have hlen : bs.length < n := by simp at hn; omega
      simp [read_line_loop, hb1, ih hb2 n hlen]

theorem read_line_line (max_len : Nat) (hmax : 1 ≤ max_len ∧ max_len < 18446744073709551616)
    (body rest : List Char) (hb : '\n' ∉ body) (hlen : body.length + 1 < max_len) :
    read_line (body ++ '\n' :: rest) max_len = (body ++ ['\n'], rest) := by
  unfold read_line
  have : (max_len + 18446744073709551616 - 1) % 18446744073709551616 = max_len - 1 := by omega
  rw [this]
  exact read_line_loop_line body rest hb _ (by omega)

theorem read_line_nil (max_len : Nat) : read_line [] max_len = ([], []) := by
  unfold read_line
  cases (max_len + 18446744073709551616 - 1) % 18446744073709551616 <;> simp [read_line_loop]

theorem lines_text_cons (b : List Char) (bodies : List (List Char)) :
    lines_text (b :: bodies) = b ++ '\n' :: lines_text bodies := by
  simp [lines_text]

theorem lines_text_nil : lines_text [] = [] := rfl

theorem read_lines_fuel_bodies (max_len : Nat)
    (hmax : 1 ≤ max_len ∧ max_len < 18446744073709551616) (bodies : List (List Char))
    (h : ∀ b ∈ bodies, '\n' ∉ b ∧ b.length + 1 < max_len) :
    ∀ fuel, (lines_text bodies).length ≤ fuel →
      read_lines_fuel max_len fuel (lines_text bodies) = bodies.map (fun b => b ++ ['\n']) := by
  induction bodies with
  | nil =>
    intro fuel _
    cases fuel with
    | zero => simp [read_lines_fuel]
    | succ fuel => simp [read_lines_fuel, lines_text_nil, read_line_nil]
  | cons b bs ih =>
    intro fuel hfuel
    have hb := h b (List.mem_cons_self _ _)
    rw [lines_text_cons] at hfuel ⊢
    cases fuel with
    | zero => simp at hfuel
    | succ fuel =>
      have hrl := read_line_line max_len hmax b (lines_text bs) hb.1 hb.2
      have hlen : (lines_text bs).length ≤ fuel := by
        simp only [List.length_append, List.length_cons] at hfuel; omega
      simp only [read_lines_fuel, hrl, List.map_cons]
      rw [ih (fun b' hb' => h b' (List.mem_cons_of_mem _ hb')) fuel hlen]
      simp

theorem read_lines_bodies (max_len : Nat)
    (hmax : 1 ≤ max_len ∧ max_len < 18446744073709551616) (bodies : List (List Char))
    (h : ∀ b ∈ bodies, '\n' ∉ b ∧ b.length + 1 < max_len) :
    read_lines (lines_text bodies) max_len = bodies.map (fun b => b ++ ['\n']) :=
  read_lines_fuel_bodies max_len hmax bodies h _ (le_refl _)

theorem cut_at_line (reject body : List Char) (hb : Avoids reject body)
    (hnl : '\n' ∈ reject) : cut_at reject (body ++ ['\n']) = body := by
  unfold cut_at
  exact takeWhile_avoid_append reject body ['\n'] hb (StopAhead_cons _ _ _ hnl)

/-! ## Facts about `strtok` -/

theorem join_commas_cons_cons (a b : List Char) (l : List (List Char)) :
    join_commas (a :: b :: l) = a ++ ',' :: join_commas (b :: l) := rfl

theorem strtok_fuel_join (toks : List (List Char))
    (h : ∀ t ∈ toks, t ≠ [] ∧ Avoids [','] t) :
    ∀ fuel, (join_commas toks).length ≤ fuel →
      strtok_fuel [','] fuel (join_commas toks) = toks := by
  induction toks with
  | nil =>
    intro fuel _
    cases fuel <;> simp [strtok_fuel, join_commas]
  | cons t ts ih =>
    intro fuel hfuel
    obtain ⟨hne, hav⟩ := h t (List.mem_cons_self _ _)
    obtain ⟨c, t', rfl⟩ := List.exists_cons_of_ne_nil hne
    have hc : c ≠ ',' := by
      have := hav c (List.mem_cons_self _ _)
      simpa using this
    cases ts with
    | nil =>
      cases fuel with
      | zero => simp [join_commas] at hfuel
      | succ fuel =>
        have htake := takeWhile_avoid_append [','] (c :: t') [] hav (StopAhead_nil _)
        have hdrop := dropWhile_avoid_append [','] (c :: t') [] hav (StopAhead_nil _)
        simp only [List.append_nil] at htake hdrop
        have hlead : (c :: t').dropWhile (fun c => [','].contains c) = c :: t' := by
          simp [List.dropWhile_cons, hc]
        simp only [strtok_fuel, join_commas, hlead, htake, hdrop]
        cases fuel <;> simp [strtok_fuel]
    | cons t2 ts2 =>
      rw [join_commas_cons_cons] at hfuel ⊢
      cases fuel with
      | zero => simp at hfuel
      | succ fuel =>
        have hstop : StopAhead [','] (',' :: join_commas (t2 :: ts2)) :=
          StopAhead_cons _ _ _ (by decide)
        have htake := takeWhile_avoid_append [','] (c :: t') _ hav hstop
        have hdrop := dropWhile_avoid_append [','] (c :: t') _ hav hstop
        have hlead : ((c :: t') ++ ',' :: join_commas (t2 :: ts2)).dropWhile
            (fun c => [','].contains c) = (c :: t') ++ ',' :: join_commas (t2 :: ts2) := by
          simp [List.dropWhile_cons, hc]
        have hlen : (join_commas (t2 :: ts2)).length ≤ fuel := by
          simp only [List.length_append, List.length_cons] at hfuel; omega
        simp only [strtok_fuel, hlead, htake, hdrop, List.drop_one, List.tail_cons]
        rw [ih (fun t'' ht'' => h t'' (List.mem_cons_of_mem _ ht'')) fuel hlen]
        simp

theorem strtok_all_join (toks : List (List Char))
    (h : ∀ t ∈ toks, t ≠ [] ∧ Avoids [','] t) :
    strtok_all [','] (join_commas toks) = toks :=
  strtok_fuel_join toks h _ (le_refl _)

/-! ## Well-formed records and what the code reads from their lines -/

theorem Avoids_nil (stop : List Char) : Avoids stop [] := by intro c hc; simp at hc

theorem Avoids_cons (stop : List Char) (c : Char) (l : List Char) (hc : c ∉ stop)
    (hl : Avoids stop l) : Avoids stop (c :: l) := by
  intro d hd
  rcases List.mem_cons.mp hd with h | h
  · subst h; exact hc
  · exact hl d h

theorem Avoids_append (stop a b : List Char) (ha : Avoids stop a) (hb : Avoids stop b) :
    Avoids stop (a ++ b) := by
  intro d hd
  rcases List.mem_append.mp hd with h | h
  · exact ha d h
  · exact hb d h

theorem Avoids_mono (stop stop' f : List Char) (h : ∀ c ∈ stop', c ∈ stop)
    (hf : Avoids stop f) : Avoids stop' f := by
  intro c hc hin
  exact hf c hc (h c hin)

theorem Avoids_fmt_d (stop : List Char) (v : Int)
    (h : ∀ c ∈ stop, c ≠ '-' ∧ isdigit c = false) : Avoids stop (fmt_d v) := by
  intro c hc hin
  rcases fmt_d_chars v c hc with h1 | h1
  · exact (h c hin).1 h1
  · rw [(h c hin).2] at h1; exact absurd h1 (by decide)

theorem Avoids_join_commas (stop : List Char) (toks : List (List Char)) (hcomma : ',' ∉ stop)
    (h : ∀ t ∈ toks, Avoids stop t) : Avoids stop (join_commas toks) := by
  induction toks with
  | nil => exact Avoids_nil _
  | cons t ts ih =>
    cases ts with
    | nil => exact h t (List.mem_cons_self _ _)
    | cons t2 ts2 =>
      rw [join_commas_cons_cons]
      exact Avoids_append _ _ _ (h t (List.mem_cons_self _ _))
        (Avoids_cons _ _ _ hcomma (ih (fun t' ht' => h t' (List.mem_cons_of_mem _ ht'))))

theorem join_commas_ne_nil (toks : List (List Char)) (hne : toks ≠ [])
    (h : ∀ t ∈ toks, t ≠ []) : join_commas toks ≠ [] := by
  cases toks with
  | nil => exact absurd rfl hne
  | cons t ts =>
    cases ts with
    | nil => exact h t (List.mem_cons_self _ _)
    | cons t2 ts2 =>
      rw [join_commas_cons_cons]
      have := h t (List.mem_cons_self _ _)
      simp [this]

theorem join_commas_eq_nil_iff (toks : List (List Char)) (h : ∀ t ∈ toks, t ≠ []) :
    join_commas toks = [] ↔ toks = [] := by
  constructor
  · intro hj
    by_contra hne
    exact join_commas_ne_nil toks hne h hj
  · rintro rfl; rfl

theorem join_commas_snoc (toks : List (List Char)) (t : List Char) (hne : toks ≠ []) :
    join_commas (toks ++ [t]) = join_commas toks ++ ',' :: t := by
  induction toks with
  | nil => exact absurd rfl hne
  | cons a as ih =>
    cases as with
    | nil => simp [join_commas]
    | cons b bs =>
      have := ih (by simp)
      simp only [List.cons_append] at this ⊢
      rw [join_commas_cons_cons, join_commas_cons_cons, this]
      simp

theorem course_line_eq (c : Course) : c.line = c.body ++ ['\n'] := by
  simp [Course.line, Course.body, course_record]

theorem student_line_eq (s : Student) : s.line = s.body ++ ['\n'] := by
  simp [Student.line, Student.body, student_record]

theorem Field_avoids_comma (f : List Char) (h : Field f) : Avoids [','] f :=
  Avoids_mono _ _ _ (by simp) h.2

theorem Field_avoids_crlf (f : List Char) (h : Field f) : Avoids ['\r', '\n'] f :=
  Avoids_mono _ _ _ (by simp) h.2

theorem Field_avoids_nl (f : List Char) (h : Field f) : Avoids ['\n'] f :=
  Avoids_mono _ _ _ (by simp) h.2

theorem students_str_avoids (stop : List Char) (c : Course) (hcomma : ',' ∉ stop)
    (h : ∀ x ∈ stop, x ≠ '-' ∧ isdigit x = false) : Avoids stop c.students_str := by
  apply Avoids_join_commas _ _ hcomma
  intro t ht
  obtain ⟨i, _, rfl⟩ := List.mem_map.mp ht
  exact Avoids_fmt_d _ _ h

theorem students_str_eq_nil_iff (c : Course) : c.students_str = [] ↔ c.students = [] := by
  unfold Course.students_str
  rw [join_commas_eq_nil_iff]
  · simp
  · intro t ht
    obtain ⟨i, _, rfl⟩ := List.mem_map.mp ht
    exact fmt_d_ne_nil i

theorem courses_str_eq_nil_iff (s : Student) (h : ∀ t ∈ s.courses, Field t) :
    s.courses_str = [] ↔ s.courses = [] :=
  join_commas_eq_nil_iff _ (fun t ht => (h t ht).1)

theorem course_body_avoids_crlf (c : Course) (h : CourseOK c) : Avoids ['\r', '\n'] c.body := by
  obtain ⟨_, hcode, _, hname, _, _, _, _, _, _, _⟩ := h
  have hd : ∀ v, Avoids ['\r', '\n'] (fmt_d v) := fun v => Avoids_fmt_d _ v (by decide)
  unfold Course.body
  refine Avoids_append _ _ _ (hd _) (Avoids_cons _ _ _ (by decide) ?_)
  refine Avoids_append _ _ _ (Field_avoids_crlf _ hcode) (Avoids_cons _ _ _ (by decide) ?_)
  refine Avoids_append _ _ _ (Field_avoids_crlf _ hname) (Avoids_cons _ _ _ (by decide) ?_)
  refine Avoids_append _ _ _ (hd _) (Avoids_cons _ _ _ (by decide) ?_)
  refine Avoids_append _ _ _ (hd _) (Avoids_cons _ _ _ (by decide) ?_)
  refine Avoids_append _ _ _ (hd _) (Avoids_cons _ _ _ (by decide) ?_)
  refine Avoids_append _ _ _ (hd _) (Avoids_cons _ _ _ (by decide)
    (Avoids_cons _ _ _ (by decide) ?_))
  exact Avoids_append _ _ _ (students_str_avoids _ c (by decide) (by decide))
    (Avoids_cons _ _ _ (by decide) (Avoids_nil _))

theorem student_body_avoids_crlf (s : Student) (h : StudentOK s) :
    Avoids ['\r', '\n'] s.body := by
  obtain ⟨_, hname, hemail, hpass, _, hcs, _⟩ := h
  have hd : ∀ v, Avoids ['\r', '\n'] (fmt_d v) := fun v => Avoids_fmt_d _ v (by decide)
  unfold Student.body
  refine Avoids_append _ _ _ (hd _) (Avoids_cons _ _ _ (by decide) ?_)
  refine Avoids_append _ _ _ (Field_avoids_crlf _ hname) (Avoids_cons _ _ _ (by decide) ?_)
  refine Avoids_append _ _ _ (Field_avoids_crlf _ hemail) (Avoids_cons _ _ _ (by decide) ?_)
  refine Avoids_append _ _ _ (Field_avoids_crlf _ hpass) (Avoids_cons _ _ _ (by decide) ?_)
  refine Avoids_append _ _ _ (hd _) (Avoids_cons _ _ _ (by decide) ?_)
  exact Avoids_join_commas _ _ (by decide) (fun t ht => Field_avoids_crlf _ (hcs t ht))

theorem cut_course_line (c : Course) (h : CourseOK c) :
    cut_at ['\r', '\n'] c.line = c.body := by
  rw [course_line_eq]
  exact cut_at_line _ _ (course_body_avoids_crlf c h) (by decide)

theorem cut_student_line (s : Student) (h : StudentOK s) :
    cut_at ['\r', '\n'] s.line = s.body := by
  rw [student_line_eq]
  exact cut_at_line _ _ (student_body_avoids_crlf s h) (by decide)

theorem NoDigitAhead_comma (rest : List Char) : NoDigitAhead (',' :: rest) :=
  NoDigitAhead_cons _ _ (by decide)

theorem StopAhead_comma (rest : List Char) : StopAhead [','] (',' :: rest) :=
  StopAhead_cons _ _ _ (by decide)

theorem students_str_length (c : Course) : c.students_str.length ≤ c.line.length := by
  simp [Course.line, course_record]
  omega

theorem sscanf_course_body (c : Course) (h : CourseOK c) :
    sscanf course_fmt c.body = c.vals := by
  have h' := h
  obtain ⟨hid, hcode, hcl, hname, hnl, hcap, henr, hcred, hfid, hst, hlen⟩ := h'
  unfold course_fmt Course.body Course.vals
  rw [sscanf_d _ _ _ hid (NoDigitAhead_comma _), sscanf_lit,
    sscanf_set _ (some 63) _ _ _ hcode.1 (Field_avoids_comma _ hcode) hcl (StopAhead_comma _), sscanf_lit,
    sscanf_set _ (some 127) _ _ _ hname.1 (Field_avoids_comma _ hname) hnl (StopAhead_comma _), sscanf_lit,
    sscanf_d _ _ _ hcap (NoDigitAhead_comma _), sscanf_lit,
    sscanf_d _ _ _ henr (NoDigitAhead_comma _), sscanf_lit,
    sscanf_d _ _ _ hcred (NoDigitAhead_comma _), sscanf_lit,
    sscanf_d _ _ _ hfid (NoDigitAhead_comma _), sscanf_lit, sscanf_lit]
  by_cases hs : c.students = []
  · have : c.students_str = [] := (students_str_eq_nil_iff c).mpr hs
    rw [this, List.nil_append, sscanf_set_stop _ _ _ _ _ (StopAhead_cons _ _ _ (by decide))]
    simp [hs]
  · have hne : c.students_str ≠ [] := fun hh => hs ((students_str_eq_nil_iff c).mp hh)
    have hfit : Fits (some 511) c.students_str := by
      have := students_str_length c
      show c.students_str.length ≤ 511
      omega
    rw [sscanf_set _ (some 511) _ _ _ hne (students_str_avoids _ c (by decide) (by decide)) hfit
      (StopAhead_cons _ _ _ (by decide)), sscanf_lit, sscanf_nil]
    simp [hs]

theorem sscanf_id_course_body (c : Course) (h : CourseOK c) :
    sscanf [Conv.d true] c.body = [Val.int c.id] := by
  unfold Course.body
  rw [sscanf_d _ _ _ h.1 (NoDigitAhead_comma _), sscanf_nil]

theorem sscanf_student_body (s : Student) (h : StudentOK s) :
    sscanf student_fmt s.body = s.vals := by
  have h' := h
  obtain ⟨hid, hname, hemail, hpass, hact, hcs, hlen⟩ := h'
  unfold student_fmt Student.body Student.vals
  rw [sscanf_d _ _ _ hid (NoDigitAhead_comma _), sscanf_lit,
    sscanf_set _ none _ _ _ hname.1 (Field_avoids_comma _ hname) trivial (StopAhead_comma _),
    sscanf_lit,
    sscanf_set _ none _ _ _ hemail.1 (Field_avoids_comma _ hemail) trivial (StopAhead_comma _),
    sscanf_lit,
    sscanf_set _ none _ _ _ hpass.1 (Field_avoids_comma _ hpass) trivial (StopAhead_comma _),
    sscanf_lit,
    sscanf_d _ _ _ hact (NoDigitAhead_comma _), sscanf_lit]
  by_cases hs : s.courses = []
  · have : s.courses_str = [] := (courses_str_eq_nil_iff s hcs).mpr hs
    rw [this, sscanf_set_stop _ _ _ _ _ (StopAhead_nil _)]
    simp [hs]
  · have hne : s.courses_str ≠ [] := fun hh => hs ((courses_str_eq_nil_iff s hcs).mp hh)
    have hav : Avoids ['\n'] s.courses_str :=
      Avoids_join_commas _ _ (by decide) (fun t ht => Field_avoids_nl _ (hcs t ht))
    have := sscanf_set ['\n'] none [] s.courses_str [] hne hav trivial (StopAhead_nil _)
    rw [List.append_nil] at this
    rw [this, sscanf_nil]
    simp [hs]

theorem sscanf_probe_student_line (s : Student) (h : StudentOK s) :
    sscanf student_probe_fmt s.line = s.probe_vals := by
  have h' := h
  obtain ⟨hid, hname, hemail, hpass, hact, hcs, hlen⟩ := h'
  rw [student_line_eq]
  unfold student_probe_fmt Student.body Student.probe_vals
  simp only [List.append_assoc, List.cons_append]
  rw [sscanf_d _ _ _ hid (NoDigitAhead_comma _), sscanf_lit,
    sscanf_set_skip _ none _ _ _ hname.1 (Field_avoids_comma _ hname) trivial (StopAhead_comma _),
    sscanf_lit,
    sscanf_set_skip _ none _ _ _ hemail.1 (Field_avoids_comma _ hemail) trivial (StopAhead_comma _),
    sscanf_lit,
    sscanf_set_skip _ none _ _ _ hpass.1 (Field_avoids_comma _ hpass) trivial (StopAhead_comma _),
    sscanf_lit,
    sscanf_d_skip _ _ _ (NoDigitAhead_comma _), sscanf_lit]
  by_cases hs : s.courses = []
  · have : s.courses_str = [] := (courses_str_eq_nil_iff s hcs).mpr hs
    rw [this, List.nil_append, sscanf_set_stop _ _ _ _ _ (StopAhead_cons _ _ _ (by decide))]
    simp [hs]
  · have hne : s.courses_str ≠ [] := fun hh => hs ((courses_str_eq_nil_iff s hcs).mp hh)
    have hav : Avoids ['\n'] s.courses_str :=
      Avoids_join_commas _ _ (by decide) (fun t ht => Field_avoids_nl _ (hcs t ht))
    rw [sscanf_set _ none _ _ _ hne hav trivial (StopAhead_cons _ _ _ (by decide)), sscanf_nil]
    simp [hs]

/-! ## The tables as the line loops see them -/

theorem course_header_line : course_header = course_header_body ++ ['\n'] := by decide

theorem student_header_line : student_header = student_header_body ++ ['\n'] := by decide

theorem lines_text_course_bodies (cs : List Course) :
    lines_text (cs.map Course.body) = (cs.map Course.line).flatten := by
  induction cs with
  | nil => rfl
  | cons c cs ih =>
    rw [List.map_cons, lines_text_cons, ih, List.map_cons, List.flatten_cons, course_line_eq]
    simp

theorem lines_text_student_bodies (ss : List Student) :
    lines_text (ss.map Student.body) = (ss.map Student.line).flatten := by
  induction ss with
  | nil => rfl
  | cons s ss ih =>
    rw [List.map_cons, lines_text_cons, ih, List.map_cons, List.flatten_cons, student_line_eq]
    simp

theorem map_body_line_courses (cs : List Course) :
    (cs.map Course.body).map (fun b => b ++ ['\n']) = cs.map Course.line := by
  induction cs with
  | nil => rfl
  | cons c cs ih => simp only [List.map_cons, ih, course_line_eq]

theorem map_body_line_students (ss : List Student) :
    (ss.map Student.body).map (fun b => b ++ ['\n']) = ss.map Student.line := by
  induction ss with
  | nil => rfl
  | cons s ss ih => simp only [List.map_cons, ih, student_line_eq]

theorem courses_table_eq (cs : List Course) :
    courses_table cs = lines_text (course_header_body :: cs.map Course.body) := by
  unfold courses_table
  rw [lines_text_cons, lines_text_course_bodies, course_header_line]
  simp

theorem students_table_eq (ss : List Student) :
    students_table ss = lines_text (student_header_body :: ss.map Student.body) := by
  unfold students_table
  rw [lines_text_cons, lines_text_student_bodies, student_header_line]
  simp

theorem Avoids_crlf_nl (body : List Char) (h : Avoids ['\r', '\n'] body) : '\n' ∉ body := by
  intro hin
  exact h '\n' hin (by simp)

theorem course_body_length (c : Course) : c.body.length + 1 = c.line.length := by
  rw [course_line_eq]; simp

theorem student_body_length (s : Student) : s.body.length + 1 = s.line.length := by
  rw [student_line_eq]; simp

theorem read_lines_courses_table (cs : List Course) (hcs : ∀ c ∈ cs, CourseOK c) :
    read_lines (courses_table cs) MAX_LINE = course_header :: cs.map Course.line := by
  rw [courses_table_eq, read_lines_bodies MAX_LINE (by decide)]
  · rw [List.map_cons, ← course_header_line, map_body_line_courses]
  · intro b hb
    rcases List.mem_cons.mp hb with h | h
    · subst h; exact ⟨by decide, by decide⟩
    · obtain ⟨c, hc, rfl⟩ := List.mem_map.mp h
      refine ⟨Avoids_crlf_nl _ (course_body_avoids_crlf c (hcs c hc)), ?_⟩
      have h1 := course_body_length c
      have h2 := (hcs c hc).2.2.2.2.2.2.2.2.2.2
      unfold MAX_LINE
      omega

theorem read_lines_students_table (ss : List Student) (hss : ∀ s ∈ ss, StudentOK s) :
    read_lines (students_table ss) MAX_LINE = student_header :: ss.map Student.line := by
  rw [students_table_eq, read_lines_bodies MAX_LINE (by decide)]
  · rw [List.map_cons, ← student_header_line, map_body_line_students]
  · intro b hb
    rcases List.mem_cons.mp hb with h | h
    · subst h; exact ⟨by decide, by decide⟩
    · obtain ⟨s, hs, rfl⟩ := List.mem_map.mp h
      refine ⟨Avoids_crlf_nl _ (student_body_avoids_crlf s (hss s hs)), ?_⟩
      have h1 := student_body_length s
      have h2 := (hss s hs).2.2.2.2.2.2
      unfold MAX_LINE
      omega

theorem split_header_courses_table (cs : List Course) (hcs : ∀ c ∈ cs, CourseOK c) :
    split_header (courses_table cs) = (course_header, cs.map Course.line) := by
  unfold split_header
  rw [read_lines_courses_table cs hcs]
  have h1 : course_header.take 3 = ['i', 'd', ','] := by decide
  have h2 : course_header.getLast? = some '\n' := by decide
  simp only [h1, h2, if_true]

theorem split_header_students_table (ss : List Student) (hss : ∀ s ∈ ss, StudentOK s) :
    split_header (students_table ss) = (student_header, ss.map Student.line) := by
  unfold split_header
  rw [read_lines_students_table ss hss]
  have h1 : student_header.take 3 = ['i', 'd', ','] := by decide
  have h2 : student_header.getLast? = some '\n' := by decide
  simp only [h1, h2, if_true]

/-! ## `enroll_course` on well-formed tables -/

theorem arg_int_zero (v : Int) (rest : List Val) (old : Int) :
    arg_int (Val.int v :: rest) 0 old = v := rfl

theorem scan_course_body (c : Course) (h : CourseOK c) (v : CourseVars) :
    scan_course c.body { v with students_list := [] } = c.vars := by
  unfold scan_course
  rw [sscanf_course_body c h]
  unfold Course.vals Course.vars
  by_cases hs : c.students = []
  · have : c.students_str = [] := (students_str_eq_nil_iff c).mpr hs
    simp [arg_int, arg_str, hs, this]
  · simp [arg_int, arg_str, hs]

theorem course_vals_length (c : Course) : c.vals.length = 8 ↔ c.students ≠ [] := by
  unfold Course.vals
  by_cases hs : c.students = [] <;> simp [hs]

theorem any_atoi_fmt_d (ids : List Int) (h : ∀ i ∈ ids, InInt i) (sid : Int) :
    (ids.map fmt_d).any (fun tok => decide (atoi tok = sid)) = decide (sid ∈ ids) := by
  induction ids with
  | nil => simp
  | cons i is ih =>
    have hi := atoi_fmt_d i (h i (List.mem_cons_self _ _))
    have := ih (fun j hj => h j (List.mem_cons_of_mem _ hj))
    simp only [List.map_cons, List.any_cons, hi, this, List.mem_cons]
    by_cases h1 : i = sid
    · simp [h1]
    · have h2 : ¬ sid = i := fun hh => h1 hh.symm
      simp [h1, h2]

theorem fmt_d_tokens (ids : List Int) :
    ∀ t ∈ ids.map fmt_d, t ≠ [] ∧ Avoids [','] t := by
  intro t ht
  obtain ⟨i, _, rfl⟩ := List.mem_map.mp ht
  exact ⟨fmt_d_ne_nil i, Avoids_fmt_d _ _ (by decide)⟩

theorem list_has_id_students_str (c : Course) (h : ∀ i ∈ c.students, InInt i) (sid : Int) :
    list_has_id c.students_str sid = decide (sid ∈ c.students) := by
  unfold list_has_id Course.students_str
  rw [strtok_all_join _ (fmt_d_tokens _)]
  exact any_atoi_fmt_d c.students h sid

/-- The test `fields == 8 && strlen(students_list) && <the student is in the
list>` on the line of a well-formed course. -/
theorem enrolled_test (c : Course) (h : CourseOK c) (sid : Int) :
    (c.vals.length = 8 ∧ c.vars.students_list ≠ [] ∧ list_has_id c.vars.students_list sid = true)
      ↔ sid ∈ c.students := by
  have hst := h.2.2.2.2.2.2.2.2.2.1
  have e : c.vars.students_list = c.students_str := rfl
  rw [e, list_has_id_students_str c hst sid, course_vals_length]
  constructor
  · rintro ⟨_, _, h3⟩
    simpa using h3
  · intro hin
    have hne : c.students ≠ [] := List.ne_nil_of_mem hin
    refine ⟨hne, ?_, by simpa using hin⟩
    intro hh
    exact hne ((students_str_eq_nil_iff c).mp hh)

theorem enroll_lookup_course_cons (sid cid : Int) (c : Course) (h : CourseOK c)
    (rest : List (List Char)) (v : CourseVars) :
    enroll_lookup_course sid cid (c.line :: rest) v =
      if c.id = cid then
        if sid ∈ c.students then Lookup.ret ALREADY_ENROLLED else Lookup.done true c.vars
      else enroll_lookup_course sid cid rest c.vars := by
  rw [enroll_lookup_course]
  simp only [cut_course_line c h, scan_course_body c h, sscanf_course_body c h]
  have e : c.vars.cid = c.id := rfl
  rw [e]
  by_cases h1 : c.id = cid
  · simp only [h1, if_true]
    by_cases h2 : sid ∈ c.students
    · rw [if_pos ((enrolled_test c h sid).mpr h2), if_pos h2]
    · rw [if_neg (fun hh => h2 ((enrolled_test c h sid).mp hh)), if_neg h2]
  · simp only [h1, if_false]

theorem enroll_lookup_course_done (sid cid : Int) (cs : List Course)
    (hcs : ∀ c ∈ cs, CourseOK c) :
    ∀ v w, enroll_lookup_course sid cid (cs.map Course.line) v = Lookup.done true w →
      ∃ c ∈ cs, c.id = cid ∧ sid ∉ c.students ∧ w = c.vars := by
  induction cs with
  | nil =>
    intro v w h
    simp [enroll_lookup_course] at h
  | cons c cs ih =>
    intro v w h
    rw [List.map_cons, enroll_lookup_course_cons sid cid c (hcs c (List.mem_cons_self _ _))] at h
    by_cases h1 : c.id = cid
    · rw [if_pos h1] at h
      by_cases h2 : sid ∈ c.students
      · rw [if_pos h2] at h
        cases h
      · rw [if_neg h2] at h
        injection h with _ hw
        exact ⟨c, List.mem_cons_self _ _, h1, h2, hw.symm⟩
    · rw [if_neg h1] at h
      obtain ⟨c', hc', h3⟩ := ih (fun c' hc' => hcs c' (List.mem_cons_of_mem _ hc')) _ _ h
      exact ⟨c', List.mem_cons_of_mem _ hc', h3⟩

theorem eq_of_id_eq (cs : List Course) (hn : (cs.map (fun c => c.id)).Nodup) (a b : Course)
    (ha : a ∈ cs) (hb : b ∈ cs) (h : a.id = b.id) : a = b :=
  List.inj_on_of_nodup_map hn ha hb h

theorem enroll_lookup_course_enrolled (sid cid : Int) (cs : List Course)
    (hcs : ∀ c ∈ cs, CourseOK c) (hn : (cs.map (fun c => c.id)).Nodup) (c : Course)
    (hc : c ∈ cs) (hid : c.id = cid) (hin : sid ∈ c.students) :
    ∀ v, enroll_lookup_course sid cid (cs.map Course.line) v = Lookup.ret ALREADY_ENROLLED := by
  induction cs with
  | nil => simp at hc
  | cons c' cs ih =>
    intro v
    rw [List.map_cons, enroll_lookup_course_cons sid cid c' (hcs c' (List.mem_cons_self _ _))]
    by_cases h1 : c'.id = cid
    · have : c' = c := eq_of_id_eq _ hn c' c (List.mem_cons_self _ _) hc (by rw [h1, hid])
      subst this
      rw [if_pos h1, if_pos hin]
    · rw [if_neg h1]
      have hc2 : c ∈ cs := by
        rcases List.mem_cons.mp hc with h | h
        · subst h; exact absurd hid h1
        · exact h
      exact ih (fun c' hc' => hcs c' (List.mem_cons_of_mem _ hc'))
        (List.Nodup.of_cons (by simpa using hn)) hc2 _

theorem student_probe_vals_length (s : Student) : 1 ≤ s.probe_vals.length := by
  unfold Student.probe_vals
  simp

theorem enroll_lookup_student_done (sid : Int) (code : List Char) (ss : List Student)
    (hss : ∀ s ∈ ss, StudentOK s) :
    ∀ buf, enroll_lookup_student sid code (ss.map Student.line) buf = Lookup.done true () →
      ∃ s ∈ ss, s.id = sid := by
  induction ss with
  | nil =>
    intro buf h
    simp [enroll_lookup_student] at h
  | cons s ss ih =>
    intro buf h
    rw [List.map_cons, enroll_lookup_student] at h
    simp only [sscanf_probe_student_line s (hss s (List.mem_cons_self _ _))] at h
    have e : arg_int s.probe_vals 0 0 = s.id := rfl
    rw [e] at h
    by_cases h1 : s.id = sid
    · exact ⟨s, List.mem_cons_self _ _, h1⟩
    · rw [if_neg (fun hh => h1 hh.2)] at h
      obtain ⟨s', hs', h3⟩ := ih (fun s' hs' => hss s' (List.mem_cons_of_mem _ hs')) _ h
      exact ⟨s', List.mem_cons_of_mem _ hs', h3⟩

theorem sscanf_probe_student_header : sscanf student_probe_fmt student_header = [] := by
  decide

theorem enroll_lookup_student_table (sid : Int) (code : List Char) (ss : List Student)
    (hss : ∀ s ∈ ss, StudentOK s)
    (h : enroll_lookup_student sid code (read_lines (students_table ss) MAX_LINE) [] =
      Lookup.done true ()) : ∃ s ∈ ss, s.id = sid := by
  rw [read_lines_students_table ss hss, enroll_lookup_student] at h
  simp only [sscanf_probe_student_header, List.length_nil] at h
  rw [if_neg (by simp)] at h
  exact enroll_lookup_student_done sid code ss hss _ h

theorem append_then_ok (size : Nat) (acc piece : List Char) (k : List Char → Rewrite)
    (out : List Char) (h : append_then size acc piece k = Rewrite.ok out) :
    k (acc ++ piece) = Rewrite.ok out := by
  unfold append_then strcat at h
  split_ifs at h with h1
  exact h

theorem enroll_new_students_str (c : Course) (sid : Int) :
    enroll_new_students c.students_str sid = (c.enroll sid).students_str := by
  unfold enroll_new_students Course.enroll Course.students_str
  by_cases hs : c.students = []
  · simp [hs, join_commas]
  · have hne : join_commas (c.students.map fmt_d) ≠ [] := fun hh =>
      hs ((students_str_eq_nil_iff c).mp hh)
    rw [if_pos hne, List.map_append, List.map_singleton,
      join_commas_snoc _ _ (by simpa using hs)]
    simp

theorem enroll_course_line_vars (c : Course) (sid : Int) :
    enroll_course_line sid c.id c.vars = (c.enroll sid).line := by
  unfold enroll_course_line Course.line
  have e : c.vars.students_list = c.students_str := rfl
  rw [e, enroll_new_students_str]
  rfl

theorem enroll_rewrite_courses_ok (sid cid : Int) (v : CourseVars) (cs : List Course)
    (hcs : ∀ c ∈ cs, CourseOK c) :
    ∀ acc out, enroll_rewrite_courses sid cid v (cs.map Course.line) acc = Rewrite.ok out →
      out = acc ++ (cs.map (fun c =>
        if c.id = cid then enroll_course_line sid cid v else c.line)).flatten := by
  induction cs with
  | nil =>
    intro acc out h
    simp only [List.map_nil, enroll_rewrite_courses] at h
    injection h with h
    simp [h]
  | cons c cs ih =>
    intro acc out h
    have hc := hcs c (List.mem_cons_self _ _)
    have ih' := ih (fun c' hc' => hcs c' (List.mem_cons_of_mem _ hc'))
    rw [List.map_cons, enroll_rewrite_courses] at h
    simp only [cut_course_line c hc, sscanf_id_course_body c hc, List.length_singleton,
      if_true, arg_int_zero] at h
    by_cases h1 : c.id = cid
    · rw [if_pos h1] at h
      split_ifs at h with h2 h3
      have := ih' _ _ (append_then_ok _ _ _ _ _ h)
      rw [this, List.map_cons, List.flatten_cons, if_pos h1, List.append_assoc]
    · rw [if_neg h1] at h
      have h4 := append_then_ok _ _ _ _ _ (append_then_ok _ _ _ _ _ h)
      have := ih' _ _ h4
      rw [this, List.map_cons, List.flatten_cons, if_neg h1, course_line_eq]
      simp

theorem student_vals_length (s : Student) : 5 ≤ s.vals.length := by
  unfold Student.vals
  simp

theorem student_vals_courses (s : Student) (h : StudentOK s) :
    arg_str s.vals 5 [] = s.courses_str := by
  unfold Student.vals
  by_cases hs : s.courses = []
  · have : s.courses_str = [] := (courses_str_eq_nil_iff s h.2.2.2.2.2.1).mpr hs
    simp [arg_str, hs, this]
  · simp [arg_str, hs]

theorem enroll_new_ec_str (s : Student) (h : StudentOK s) (code : List Char) :
    enroll_new_ec s.courses_str code = (s.enroll code).courses_str := by
  unfold enroll_new_ec Student.enroll Student.courses_str
  by_cases hs : s.courses = []
  · simp [hs, join_commas]
  · have hne : join_commas s.courses ≠ [] := fun hh =>
      hs ((courses_str_eq_nil_iff s h.2.2.2.2.2.1).mp hh)
    rw [if_pos hne, join_commas_snoc _ _ hs]
    simp

theorem enroll_student_line_vals (s : Student) (h : StudentOK s) (code : List Char) :
    enroll_student_line s.id code s.vals = (s.enroll code).line := by
  unfold enroll_student_line
  rw [student_vals_courses s h, enroll_new_ec_str s h]
  rfl

theorem enroll_rewrite_students_ok (sid : Int) (code : List Char) (ss : List Student)
    (hss : ∀ s ∈ ss, StudentOK s) :
    ∀ acc out, enroll_rewrite_students sid code (ss.map Student.line) acc = Rewrite.ok out →
      out = acc ++ ((enroll_students ss sid code).map Student.line).flatten := by
  induction ss with
  | nil =>
    intro acc out h
    simp only [List.map_nil, enroll_rewrite_students] at h
    injection h with h
    simp [h, enroll_students]
  | cons s ss ih =>
    intro acc out h
    have hs := hss s (List.mem_cons_self _ _)
    have ih' := ih (fun s' hs' => hss s' (List.mem_cons_of_mem _ hs'))
    rw [List.map_cons, enroll_rewrite_students] at h
    simp only [cut_student_line s hs, sscanf_student_body s hs] at h
    split_ifs at h with h0 h5 h1 h2 h3
    · have e : arg_int s.vals 0 0 = s.id := rfl
      rw [e] at h1
      have := ih' _ _ (append_then_ok _ _ _ _ _ h)
      rw [this, ← h1, enroll_student_line_vals s hs]
      simp [enroll_students, List.append_assoc]
    · have e : arg_int s.vals 0 0 = s.id := rfl
      rw [e] at h1
      have h4 := append_then_ok _ _ _ _ _ (append_then_ok _ _ _ _ _ h)
      have := ih' _ _ h4
      rw [this]
      simp [enroll_students, h1, List.append_assoc, student_line_eq]
    · exact absurd (student_vals_length s) h5

theorem enroll_lookup_course_ret (sid cid : Int) (chunks : List (List Char)) :
    ∀ v status, enroll_lookup_course sid cid chunks v = Lookup.ret status →
      status = ALREADY_ENROLLED := by
  induction chunks with
  | nil => intro v status h; simp [enroll_lookup_course] at h
  | cons chunk rest ih =>
    intro v status h
    rw [enroll_lookup_course] at h
    split_ifs at h with h1 h2
    · injection h with h; exact h.symm
    · exact ih _ _ h

theorem enroll_lookup_student_ret (sid : Int) (code : List Char) (chunks : List (List Char)) :
    ∀ buf status, enroll_lookup_student sid code chunks buf = Lookup.ret status →
      status = ALREADY_ENROLLED := by
  induction chunks with
  | nil => intro buf status h; simp [enroll_lookup_student] at h
  | cons chunk rest ih =>
    intro buf status h
    rw [enroll_lookup_student] at h
    split_ifs at h with h1 h2
    · injection h with h; exact h.symm
    · exact ih _ _ h

theorem append_then_ret (size : Nat) (acc piece : List Char) (k : List Char → Rewrite)
    (status : Int) (h : append_then size acc piece k = Rewrite.ret status) :
    k (acc ++ piece) = Rewrite.ret status := by
  unfold append_then strcat at h
  split_ifs at h with h1
  exact h

theorem enroll_rewrite_courses_ret (sid cid : Int) (v : CourseVars)
    (chunks : List (List Char)) :
    ∀ acc status, enroll_rewrite_courses sid cid v chunks acc = Rewrite.ret status →
      status = FILE_ERROR := by
  induction chunks with
  | nil => intro acc status h; simp [enroll_rewrite_courses] at h
  | cons chunk rest ih =>
    intro acc status h
    rw [enroll_rewrite_courses] at h
    split_ifs at h with h1 h2 h3 h4
    · injection h with h; exact h.symm
    · injection h with h; exact h.symm
    · exact ih _ _ (append_then_ret _ _ _ _ _ h)
    · exact ih _ _ (append_then_ret _ _ _ _ _ (append_then_ret _ _ _ _ _ h))
    · exact ih _ _ h

theorem enroll_rewrite_students_ret (sid : Int) (code : List Char)
    (chunks : List (List Char)) :
    ∀ acc status, enroll_rewrite_students sid code chunks acc = Rewrite.ret status →
      status = FILE_ERROR := by
  induction chunks with
  | nil => intro acc status h; simp [enroll_rewrite_students] at h
  | cons chunk rest ih =>
    intro acc status h
    rw [enroll_rewrite_students] at h
    split_ifs at h with h0 h1 h2 h3 h4
    · injection h with h; exact h.symm
    · injection h with h; exact h.symm
    · exact ih _ _ (append_then_ret _ _ _ _ _ h)
    · exact ih _ _ (append_then_ret _ _ _ _ _ (append_then_ret _ _ _ _ _ h))
    · exact ih _ _ h

theorem enroll_courses_lines (cs : List Course) (hn : (cs.map (fun c => c.id)).Nodup)
    (c : Course) (hc : c ∈ cs) (sid : Int) :
    cs.map (fun c' => if c'.id = c.id then enroll_course_line sid c.id c.vars else c'.line) =
      (enroll_courses cs sid c.id).map Course.line := by
  unfold enroll_courses
  rw [List.map_map]
  apply List.map_congr_left
  intro c' hc'
  by_cases h1 : c'.id = c.id
  · have : c' = c := eq_of_id_eq cs hn c' c hc' hc h1
    subst this
    simp [enroll_course_line_vars]
  · simp [h1]

/-- On well-formed tables, `enroll_course` returns `SUCCESS` only for a course
and a student that exist, the student not yet in the list of the course, and
then the new tables are the old ones with the enrollment recorded. -/
theorem enroll_course_success (cs : List Course) (ss : List Student)
    (fac adm : Option (List Char)) (hcs : ∀ c ∈ cs, CourseOK c) (hss : ∀ s ∈ ss, StudentOK s)
    (hn : (cs.map (fun c => c.id)).Nodup) (sid cid cid0 : Int) (st' : Store)
    (h : enroll_course (store_of cs ss fac adm) sid cid cid0 = some (SUCCESS, st')) :
    ∃ c ∈ cs, c.id = cid ∧ sid ∉ c.students ∧ (∃ s ∈ ss, s.id = sid) ∧
      st' = store_of (enroll_courses cs sid cid) (enroll_students ss sid c.code) fac adm := by
  unfold enroll_course store_of at h
  simp only [split_header_courses_table cs hcs, split_header_students_table ss hss] at h
  cases hL : enroll_lookup_course sid cid (cs.map Course.line) (enroll_vars0 cid0) with
  | ret status =>
    rw [hL] at h
    have := enroll_lookup_course_ret _ _ _ _ _ hL
    subst this
    simp [ALREADY_ENROLLED, SUCCESS] at h
  | done found v =>
    rw [hL] at h
    cases found with
    | false => simp [COURSE_NOT_FOUND, SUCCESS] at h
    | true =>
      obtain ⟨c, hc, hid, hnot, hv⟩ := enroll_lookup_course_done sid cid cs hcs _ _ hL
      subst hv
      simp only at h
      cases hS : enroll_lookup_student sid c.vars.course_code
          (read_lines (students_table ss) MAX_LINE) [] with
      | ret status =>
        rw [hS] at h
        have := enroll_lookup_student_ret _ _ _ _ _ hS
        subst this
        simp [ALREADY_ENROLLED, SUCCESS] at h
      | done found u =>
        rw [hS] at h
        cases found with
        | false => simp [USER_NOT_FOUND, SUCCESS] at h
        | true =>
          have hex := enroll_lookup_student_table sid _ ss hss hS
          simp only at h
          cases hC : enroll_rewrite_courses sid cid c.vars (cs.map Course.line) course_header with
          | undefined => rw [hC] at h; simp at h
          | ret status =>
            rw [hC] at h
            have := enroll_rewrite_courses_ret _ _ _ _ _ _ hC
            subst this
            simp [FILE_ERROR, SUCCESS] at h
          | ok out_c =>
            rw [hC] at h
            simp only at h
            cases hR : enroll_rewrite_students sid c.vars.course_code (ss.map Student.line)
                student_header with
            | undefined => rw [hR] at h; simp at h
            | ret status =>
              rw [hR] at h
              have := enroll_rewrite_students_ret _ _ _ _ _ hR
              subst this
              simp [FILE_ERROR, SUCCESS] at h
            | ok out_s =>
              rw [hR] at h
              simp only [Option.some.injEq, Prod.mk.injEq, true_and] at h
              refine ⟨c, hc, hid, hnot, hex, ?_⟩
              have h1 := enroll_rewrite_courses_ok sid cid c.vars cs hcs _ _ hC
              have h2 := enroll_rewrite_students_ok sid c.vars.course_code ss hss _ _ hR
              subst hid
              rw [enroll_courses_lines cs hn c hc sid] at h1
              rw [← h, h1, h2]
              rfl

/-! ## `unenroll_course` on well-formed tables -/

theorem InInt_wrap32 (v : Int) : InInt (wrap32 v) := by
  unfold InInt wrap32
  omega

theorem enroll_keeps_CourseOK (c : Course) (h : CourseOK c) (sid : Int) (hsid : InInt sid)
    (hfit : (c.enroll sid).line.length ≤ 255) : CourseOK (c.enroll sid) := by
  obtain ⟨h1, h2, h3, h4, h5, h6, _, h8, h9, h10, _⟩ := h
  refine ⟨h1, h2, h3, h4, h5, h6, InInt_wrap32 _, h8, h9, ?_, hfit⟩
  intro i hi
  simp only [Course.enroll, List.mem_append, List.mem_singleton] at hi
  rcases hi with hi | hi
  · exact h10 i hi
  · subst hi; exact hsid

theorem enroll_courses_ids (cs : List Course) (sid cid : Int) :
    (enroll_courses cs sid cid).map (fun c => c.id) = cs.map (fun c => c.id) := by
  unfold enroll_courses
  rw [List.map_map]
  apply List.map_congr_left
  intro c _
  by_cases h : c.id = cid <;> simp [h, Course.enroll]

/-- The guard against a second enrollment, within the width of the line
buffer: on a well-formed store, when `enroll_course(s, c)` returns SUCCESS and
the rewritten line of the course still fits the line buffer, an immediately
following `enroll_course(s, c)` returns ALREADY_ENROLLED and leaves the store
as the first call left it. -/
theorem enroll_twice_within_line_width (cs : List Course) (ss : List Student)
    (fac adm : Option (List Char)) (hwf : WellFormed cs ss) (sid cid : Int) (hsid : InInt sid)
    (hfit : ∀ c ∈ cs, c.id = cid → (c.enroll sid).line.length ≤ 255)
    (cid0 : Int) (st' : Store)
    (h : enroll_course (store_of cs ss fac adm) sid cid cid0 = some (SUCCESS, st')) :
    ∀ cid1, enroll_course st' sid cid cid1 = some (ALREADY_ENROLLED, st') := by
  obtain ⟨hcs, hss, hid, _, _⟩ := hwf
  obtain ⟨c, hc, hcid, _, _, hst⟩ :=
    enroll_course_success cs ss fac adm hcs hss hid sid cid cid0 st' h
  intro cid1
  have hcs' : ∀ c' ∈ enroll_courses cs sid cid, CourseOK c' := by
    intro c' hc'
    obtain ⟨c0, hc0, rfl⟩ := List.mem_map.mp hc'
    by_cases h1 : c0.id = cid
    · simp only [h1, if_true]
      exact enroll_keeps_CourseOK c0 (hcs c0 hc0) sid hsid (hfit c0 hc0 h1)
    · simp only [h1, if_false]
      exact hcs c0 hc0
  have hid' : ((enroll_courses cs sid cid).map (fun c => c.id)).Nodup := by
    rw [enroll_courses_ids]; exact hid
  have hmem : c.enroll sid ∈ enroll_courses cs sid cid :=
    List.mem_map.mpr ⟨c, hc, by simp [hcid]⟩
  have hL := enroll_lookup_course_enrolled sid cid (enroll_courses cs sid cid) hcs' hid'
    (c.enroll sid) hmem hcid (by simp [Course.enroll]) (enroll_vars0 cid1)
  rw [hst]
  unfold enroll_course store_of
  simp only [split_header_courses_table _ hcs', hL]

theorem enroll_twice_within_line_width_demo :
    WellFormed demo_courses demo_students ∧ InInt 9 ∧
    (∀ c ∈ demo_courses, c.id = 41 → (c.enroll 9).line.length ≤ 255) ∧
    enroll_course (store_of demo_courses demo_students none none) 9 41 0 =
      some (SUCCESS, store_of (enroll_courses demo_courses 9 41)
        (enroll_students demo_students 9 "CS101".toList) none none) ∧
    ∀ cid1, enroll_course (store_of (enroll_courses demo_courses 9 41)
        (enroll_students demo_students 9 "CS101".toList) none none) 9 41 cid1 =
      some (ALREADY_ENROLLED, store_of (enroll_courses demo_courses 9 41)
        (enroll_students demo_students 9 "CS101".toList) none none) :=
  ⟨by decide, by decide, by decide, by decide,
   enroll_twice_within_line_width demo_courses demo_students none none (by decide) 9 41
     (by decide) (by decide) 0 _ (by decide)⟩

/-! ## The defects: the code evaluated at failing inputs -/

theorem sscanf_d_head (fmt : List Conv) (s : List Char)
    (h : sscanf (Conv.d true :: fmt) s ≠ []) :
    ∃ v tl, sscanf (Conv.d true :: fmt) s = Val.int v :: tl := by
  unfold sscanf at h ⊢
  cases hs : strtol s with
  | none => rw [hs] at h; exact absurd rfl h
  | some p => exact ⟨wrap32 p.1, sscanf fmt p.2, by simp⟩

theorem scan_course_cid0 (line : List Char) (h : sscanf course_fmt line ≠ []) (a b : Int) :
    scan_course line { enroll_vars0 a with students_list := [] } =
      scan_course line { enroll_vars0 b with students_list := [] } := by
  obtain ⟨v, tl, hv⟩ := sscanf_d_head _ line h
  unfold scan_course
  have e : sscanf course_fmt line = Val.int v :: tl := hv
  rw [e]
  rfl

/-- The result of `enroll_course` does not depend on the first content of
`cid` when the first course line starts with a number. -/
theorem enroll_course_cid0 (st : Store) (sid cid : Int) (h : first_course_line_numbered st = true)
    (a b : Int) : enroll_course st sid cid a = enroll_course st sid cid b := by
  unfold first_course_line_numbered at h
  unfold enroll_course
  cases hc : st.courses with
  | none => rfl
  | some cfile =>
    rw [hc] at h
    simp only at h ⊢
    cases hl : (split_header cfile).2 with
    | nil => rfl
    | cons chunk rest =>
      rw [hl] at h
      simp only [decide_eq_true_eq] at h
      have e : enroll_lookup_course sid cid (chunk :: rest) (enroll_vars0 a) =
          enroll_lookup_course sid cid (chunk :: rest) (enroll_vars0 b) := by
        rw [enroll_lookup_course, enroll_lookup_course, scan_course_cid0 _ h a b]
      rw [e]

/-- C1 (defect of the code): `full_store` is well-formed and referentially
symmetric, course 41 is full (`enrolled = capacity = 1`) and student 9 is not
enrolled in it, yet `enroll_course(9, 41)` returns SUCCESS and rewrites both
tables; nothing in `enroll_course` reads the capacity. -/
theorem enroll_course_ignores_capacity :
    full_store.courses = some (courses_table full_courses) ∧
    full_store.students = some (students_table full_students) ∧
    WellFormed full_courses full_students ∧ Symmetric full_courses full_students ∧
    ∀ cid0, enroll_course full_store 9 41 cid0 = some (SUCCESS, full_store_after) := by
  refine ⟨by decide, by decide, by decide, by decide, ?_⟩
  intro cid0
  rw [enroll_course_cid0 full_store 9 41 (by decide) cid0 0]
  decide

theorem arg_str_of_get (vals : List Val) (i : Nat) (s : List Char)
    (h : vals.get? i = some (Val.str s)) (old : List Char) : arg_str vals i old = s := by
  unfold arg_str
  rw [h]

theorem arg_str_of_get_none (vals : List Val) (i : Nat) (h : vals.get? i = none)
    (old : List Char) : arg_str vals i old = old := by
  unfold arg_str
  rw [h]

theorem arg_str_of_get_int (vals : List Val) (i : Nat) (n : Int)
    (h : vals.get? i = some (Val.int n)) (old : List Char) : arg_str vals i old = old := by
  unfold arg_str
  rw [h]

/-- The result of the loop of `change_student_password` does not depend on
the first content of `courses` when a line stores it before it is read. -/
theorem change_student_password_loop_courses0 (sid : Int) (pw file : List Char) :
    ∀ fuel offset, courses_written_first sid file fuel offset = true → ∀ a b,
      change_student_password_loop sid pw file fuel offset a =
        change_student_password_loop sid pw file fuel offset b := by
  intro fuel
  induction fuel with
  | zero => intro offset _ a b; rfl
  | succ fuel ih =>
    intro offset h a b
    unfold courses_written_first at h
    unfold change_student_password_loop
    by_cases hl : (file.drop offset).take (MAX_BUFFER - 1) = []
    · simp only [hl, if_true]
    · simp only [hl, if_false] at h ⊢
      cases h5 : (sscanf student_fmt ((file.drop offset).take (MAX_BUFFER - 1))).get? 5 with
      | none =>
        rw [h5] at h
        simp only at h
        split_ifs at h with hid
        have ea : ∀ c, arg_str (sscanf student_fmt ((file.drop offset).take (MAX_BUFFER - 1))) 5 c
            = c := arg_str_of_get_none _ 5 h5
        simp only [hid, if_false, ea]
        split_ifs
        · rfl
        · exact ih _ h a b
      | some v =>
        cases v with
        | str s =>
          simp only [arg_str_of_get _ 5 s h5]
        | int n =>
          rw [h5] at h
          simp only at h
          split_ifs at h with hid
          have ea : ∀ c, arg_str (sscanf student_fmt ((file.drop offset).take (MAX_BUFFER - 1)))
              5 c = c := arg_str_of_get_int _ 5 n h5
          simp only [hid, if_false, ea]
          split_ifs
          · rfl
          · exact ih _ h a b

/-- The result of `change_student_password` does not depend on the first
content of `courses` when a line stores it before it is read. -/
theorem change_student_password_courses0 (st : Store) (sid : Int) (pw : List Char)
    (h : ∀ file, st.students = some file →
      courses_written_first sid file (file.length + 1) 0 = true) (a b : List Char) :
    change_student_password st sid pw a = change_student_password st sid pw b := by
  unfold change_student_password
  cases hs : st.students with
  | none => rfl
  | some file =>
    simp only
    rw [change_student_password_loop_courses0 sid pw file _ 0 (h file hs) a b]

/-- The result of `remove_course` does not depend on the first content of
`enrolled_courses` when the first student row stores its sixth field. -/
theorem remove_course_enrolled0 (st : Store) (id fid : Int)
    (h : first_student_row_lists_courses st = true) (a b : List Char) :
    remove_course st id fid a = remove_course st id fid b := by
  have e : ∀ code list, remove_cascade st.students code list a =
      remove_cascade st.students code list b := by
    intro code list
    unfold remove_cascade
    unfold first_student_row_lists_courses at h
    cases hs : st.students with
    | none => rfl
    | some file =>
      rw [hs] at h
      simp only at h ⊢
      cases hl : (read_lines file MAX_LINE_LEN).tail with
      | nil => rfl
      | cons chunk rest =>
        rw [hl] at h
        simp only at h
        cases h5 : (sscanf student_fmt (cut_at ['\n'] chunk)).get? 5 with
        | none => rw [h5] at h; simp at h
        | some v =>
          cases v with
          | int n => rw [h5] at h; simp at h
          | str s =>
            have el : remove_cascade_loop code (chunk :: rest) a =
                remove_cascade_loop code (chunk :: rest) b := by
              unfold remove_cascade_loop
              simp only [arg_str_of_get _ 5 s h5]
            rw [el]
  unfold remove_course
  simp only [e]

/-- C2 (defect of the code): `password_store` is the well-formed table of
the scenario with one more row. A new password of another length is written in
place at the offset of the record: a longer one overwrites the head of the next
record, a shorter one leaves the tail of the old record behind as a line of
its own. -/
theorem change_student_password_corrupts_next_row :
    password_store.students = some (students_table password_students) ∧
    (∀ s ∈ password_students, StudentOK s) ∧
    (∀ courses0, change_student_password password_store 7 "longerpassword".toList courses0 =
      some (SUCCESS, password_store_after)) ∧
    (∀ courses0, change_student_password password_store 7 "p".toList courses0 =
      some (SUCCESS, password_store_after_short)) := by
  have h : ∀ file, password_store.students = some file →
      courses_written_first 7 file (file.length + 1) 0 = true := by
    intro file hf
    cases hf
    decide
  refine ⟨by decide, by decide, ?_, ?_⟩
  · intro courses0
    rw [change_student_password_courses0 password_store 7 _ h courses0 []]
    decide
  · intro courses0
    rw [change_student_password_courses0 password_store 7 _ h courses0 []]
    decide

/-- C3 (defect of the code): `stale_store` is well-formed and the record of
student 7 has an empty `enrolled_courses` field; `sscanf` stores five values
and leaves the buffer `courses` as the row before left it, so the line written
is `7,Amy,amy@x.com,new,1,CS101` and not `7,Amy,amy@x.com,new,1,`. -/
theorem change_student_password_stale_courses :
    stale_store.students = some (students_table stale_students) ∧
    (∀ s ∈ stale_students, StudentOK s) ∧
    ∀ courses0, change_student_password stale_store 7 "new".toList courses0 =
      some (SUCCESS, stale_store_after) := by
  refine ⟨by decide, by decide, ?_⟩
  intro courses0
  have h : ∀ file, stale_store.students = some file →
      courses_written_first 7 file (file.length + 1) 0 = true := by
    intro file hf
    cases hf
    decide
  rw [change_student_password_courses0 stale_store 7 _ h courses0 []]
  decide

set_option maxRecDepth 1000000 in
/-- C6 (defect of the code): `guard_store` is well-formed and
`enroll_course(777, 41)` returns SUCCESS on it, but the two lines it writes are
longer than the 255 bytes `read_line` returns for a buffer of `MAX_LINE` bytes.
An immediately following `enroll_course(777, 41)` reads the list of course 41
up to `...,1043,7` and the list of student 777 up to `...,MA108,CS1`, finds
neither 777 nor CS101, returns SUCCESS again and rewrites both tables. -/
theorem enroll_course_twice_enrolls_twice :
    WellFormed guard_courses guard_students ∧
    (∀ cid0, enroll_course guard_store 777 41 cid0 = some (SUCCESS, guard_store_once)) ∧
    (∀ cid1, enroll_course guard_store_once 777 41 cid1 = some (SUCCESS, guard_store_twice)) := by
  refine ⟨by decide, ?_, ?_⟩
  · intro cid0
    rw [enroll_course_cid0 guard_store 777 41 (by decide) cid0 0]
    decide
  · intro cid1
    rw [enroll_course_cid0 guard_store_once 777 41 (by decide) cid1 0]
    decide

/-- C7 (defect of the code): both stores are well-formed and referentially
symmetric, and `enroll_course` returns ALREADY_ENROLLED for a student who is
not enrolled. On `stale_store` student 7 has no course and is not in the list
of course 41 (the buffer `student_enrolled` still holds the list of the row
before); on `substring_store` student 3 is enrolled in CS101 only and asks for
course 40, CS10 (`strstr` finds CS10 inside CS101). -/
theorem enroll_course_false_already_enrolled :
    (stale_store.courses = some (courses_table stale_courses) ∧
      stale_store.students = some (students_table stale_students) ∧
      WellFormed stale_courses stale_students ∧ Symmetric stale_courses stale_students ∧
      ∀ cid0, enroll_course stale_store 7 41 cid0 = some (ALREADY_ENROLLED, stale_store)) ∧
    (substring_store.courses = some (courses_table substring_courses) ∧
      substring_store.students = some (students_table substring_students) ∧
      WellFormed substring_courses substring_students ∧
      Symmetric substring_courses substring_students ∧
      ∀ cid0, enroll_course substring_store 3 40 cid0 =
        some (ALREADY_ENROLLED, substring_store)) := by
  refine ⟨⟨by decide, by decide, by decide, by decide, ?_⟩,
    ⟨by decide, by decide, by decide, by decide, ?_⟩⟩
  · intro cid0
    rw [enroll_course_cid0 stale_store 7 41 (by decide) cid0 0]
    decide
  · intro cid0
    rw [enroll_course_cid0 substring_store 3 40 (by decide) cid0 0]
    decide

/-- C8 (defect of the code): both stores are well-formed and referentially
symmetric, and `remove_course(41, 5)` by the owning faculty returns SUCCESS.
On `cascade_store` student 9, who held no course, is written back with CS10:
for a row with an empty list `sscanf` leaves the uninitialised buffer
`enrolled_courses` as `strtok` left it on the row before, and `strstr` finds
CS1 in it. On `long_code_store` the code of the course is read with `%31[^,]`
and cut after 31 bytes, no token equals the cut code, and student 3 and
faculty 5 keep the code of the removed course. -/
theorem remove_course_cascade_defects :
    (cascade_store.courses = some (courses_table cascade_courses) ∧
      cascade_store.students = some (students_table cascade_students) ∧
      WellFormed cascade_courses cascade_students ∧
      Symmetric cascade_courses cascade_students ∧
      ∀ enrolled0, remove_course cascade_store 41 5 enrolled0 =
        some (SUCCESS, cascade_store_after)) ∧
    (long_code_store.courses = some (courses_table long_code_courses) ∧
      long_code_store.students = some (students_table long_code_students) ∧
      WellFormed long_code_courses long_code_students ∧
      Symmetric long_code_courses long_code_students ∧
      ∀ enrolled0, remove_course long_code_store 41 5 enrolled0 =
        some (SUCCESS, long_code_store_after)) := by
  refine ⟨⟨by decide, by decide, by decide, by decide, ?_⟩,
    ⟨by decide, by decide, by decide, by decide, ?_⟩⟩
  · intro enrolled0
    rw [remove_course_enrolled0 cascade_store 41 5 (by decide) enrolled0 []]
    decide
  · intro enrolled0
    rw [remove_course_enrolled0 long_code_store 41 5 (by decide) enrolled0 []]
    decide

/-! ## `add_student`, `add_faculty`, `add_course`: ids stay distinct -/

theorem read_line_loop_prefix (p q : List Char) (hp : '\n' ∉ p) :
    ∀ n, p.length ≤ n →
      (read_line_loop n (p ++ q)).1 = p ++ (read_line_loop (n - p.length) q).1 := by
  induction p with
  | nil => intro n _; simp
  | cons c cs ih =>
    intro n hn
    cases n with
    | zero => simp at hn
    | succ n =>
      have hc : c ≠ '\n' := fun h => hp (by simp [h])
      have hcs : '\n' ∉ cs := fun h => hp (by simp [h])
      have hlen : cs.length ≤ n := by simp at hn; omega
      simp only [List.cons_append, read_line_loop, hc, if_false, List.append_eq, ih hcs n hlen,
        List.length_cons, Nat.add_sub_add_right]

theorem read_line_loop_ne_nil (n : Nat) (hn : 1 ≤ n) (c : Char) (cs : List Char) :
    (read_line_loop n (c :: cs)).1 ≠ [] := by
  cases n with
  | zero => omega
  | succ n =>
    simp only [read_line_loop]
    split_ifs <;> simp

/-- Reading a chunk inside a text that ends with a newline does not look
beyond that text. -/
theorem read_line_loop_within (X : List Char) :
    ∀ (p : List Char) (n : Nat), 1 ≤ n →
      (read_line_loop n (p ++ '\n' :: X)).1 = (read_line_loop n (p ++ ['\n'])).1 ∧
      (read_line_loop n (p ++ '\n' :: X)).2 = (read_line_loop n (p ++ ['\n'])).2 ++ X ∧
      (read_line_loop n (p ++ ['\n'])).1 ≠ [] ∧
      EndsLines (read_line_loop n (p ++ ['\n'])).2 ∧
      (read_line_loop n (p ++ ['\n'])).2.length < (p ++ ['\n']).length := by
  intro p
  induction p with
  | nil =>
    intro n hn
    cases n with
    | zero => omega
    | succ n => simp [read_line_loop, EndsLines]
  | cons c cs ih =>
    intro n hn
    cases n with
    | zero => omega
    | succ n =>
      by_cases hc : c = '\n'
      · subst hc
        simp only [List.cons_append, read_line_loop, if_true, List.length_cons, List.append_eq]
        refine ⟨trivial, ?_, by simp, Or.inr ⟨cs, rfl⟩, by omega⟩
        simp
      · cases n with
        | zero =>
          simp only [List.cons_append, read_line_loop, hc, if_false, List.length_cons,
            List.append_eq]
          refine ⟨trivial, ?_, by simp, Or.inr ⟨cs, rfl⟩, by omega⟩
          simp
        | succ n =>
          obtain ⟨h1, h2, _, h4, h5⟩ := ih (n + 1) (by omega)
          simp only [List.cons_append, read_line_loop, hc, if_false, List.length_cons,
            List.append_eq]
          refine ⟨by rw [h1], h2, by simp, h4, by omega⟩

theorem read_line_loop_length (n : Nat) : ∀ inp,
    (read_line_loop n inp).2.length ≤ inp.length := by
  induction n with
  | zero => intro inp; simp [read_line_loop]
  | succ n ih =>
    intro inp
    cases inp with
    | nil => simp [read_line_loop]
    | cons c cs =>
      simp only [read_line_loop]
      split_ifs
      · simp
      · have := ih cs
        simp only [List.length_cons]
        omega

/-- A loop over the chunks of a file sees the chunk that starts at every
line start. -/
theorem chunk_at_line_start (max_len : Nat)
    (hmax : 2 ≤ max_len ∧ max_len < 18446744073709551616) (X : List Char) (hX : X ≠ []) :
    ∀ fuel pre, EndsLines pre → (pre ++ X).length ≤ fuel →
      (read_line X max_len).1 ∈ read_lines_fuel max_len fuel (pre ++ X) := by
  have hn : (max_len + 18446744073709551616 - 1) % 18446744073709551616 = max_len - 1 := by
    omega
  obtain ⟨x, xs, rfl⟩ := List.exists_cons_of_ne_nil hX
  intro fuel
  induction fuel with
  | zero => intro pre _ hlen; simp at hlen
  | succ fuel ih =>
    intro pre hpre hlen
    rcases hpre with rfl | ⟨p, rfl⟩
    · simp only [List.nil_append, read_lines_fuel]
      have hne : (read_line (x :: xs) max_len).1 ≠ [] := by
        unfold read_line
        rw [hn]
        exact read_line_loop_ne_nil _ (by omega) x xs
      rw [if_neg hne]
      exact List.mem_cons_self _ _
    · have hw := read_line_loop_within (x :: xs) p (max_len - 1) (by omega)
      obtain ⟨h1, h2, h3, h4, h5⟩ := hw
      have e : p ++ ['\n'] ++ x :: xs = p ++ '\n' :: (x :: xs) := by simp
      rw [e] at hlen ⊢
      simp only [read_lines_fuel]
      have hne : (read_line (p ++ '\n' :: (x :: xs)) max_len).1 ≠ [] := by
        unfold read_line
        rw [hn, h1]
        exact h3
      rw [if_neg hne]
      apply List.mem_cons_of_mem
      have e2 : (read_line (p ++ '\n' :: (x :: xs)) max_len).2 =
          (read_line_loop (max_len - 1) (p ++ ['\n'])).2 ++ x :: xs := by
        unfold read_line
        rw [hn, h2]
      rw [e2]
      apply ih _ h4
      simp only [List.length_append, List.length_cons, List.length_nil] at hlen h5 ⊢
      omega

theorem fmt_nat_fuel_length (fuel : Nat) : ∀ n k, 1 ≤ k → n < 10 ^ k →
    (fmt_nat_fuel fuel n).length ≤ k := by
  induction fuel with
  | zero => intro n k _ _; simp [fmt_nat_fuel]
  | succ fuel ih =>
    intro n k hk hn
    unfold fmt_nat_fuel
    by_cases h10 : n < 10
    · simp [h10]; omega
    · simp only [h10, if_false, List.length_append, List.length_singleton]
      have hk2 : 2 ≤ k := by
        by_contra hlt
        have : k = 1 := by omega
        subst this
        simp at hn
        omega
      have : n / 10 < 10 ^ (k - 1) := by
        have e : 10 ^ k = 10 ^ (k - 1) * 10 := by
          rw [← pow_succ]
          congr 1
          omega
        rw [e] at hn
        exact Nat.div_lt_of_lt_mul (by omega)
      have := ih (n / 10) (k - 1) (by omega) this
      omega

theorem fmt_d_length (v : Int) (h : InInt v) : (fmt_d v).length ≤ 11 := by
  unfold InInt at h
  have hlt : v.natAbs < 10 ^ 10 := by
    have : v.natAbs ≤ 2147483648 := by omega
    norm_num
    omega
  have := fmt_nat_fuel_length (v.natAbs + 1) v.natAbs 10 (by omega) hlt
  unfold fmt_d fmt_nat
  split_ifs
  · simp only [List.length_cons]; omega
  · omega

theorem fmt_d_no_newline (v : Int) : '\n' ∉ fmt_d v := by
  intro h
  exact Avoids_fmt_d ['\n'] v (by decide) '\n' h (by simp)

/-- The chunk read at the start of a record line starts with the id and the
comma. -/
theorem sscanf_id_first_chunk (max_len : Nat)
    (hmax : 14 ≤ max_len ∧ max_len < 18446744073709551616) (id : Int) (hid : InInt id)
    (tail : List Char) :
    sscanf [Conv.d true, Conv.lit ','] (read_line (fmt_d id ++ ',' :: tail) max_len).1 =
      [Val.int id] := by
  have hn : (max_len + 18446744073709551616 - 1) % 18446744073709551616 = max_len - 1 := by
    omega
  have hl := fmt_d_length id hid
  have e : fmt_d id ++ ',' :: tail = (fmt_d id ++ [',']) ++ tail := by simp
  unfold read_line
  rw [hn, e, read_line_loop_prefix _ _ (by
    intro h
    rcases List.mem_append.mp h with h | h
    · exact fmt_d_no_newline id h
    · simp at h) _ (by simp; omega)]
  simp only [List.append_assoc, List.singleton_append]
  rw [sscanf_d _ _ _ hid (NoDigitAhead_comma _), sscanf_lit, sscanf_nil]

theorem id_in_chunks_of_record (max_len : Nat)
    (hmax : 14 ≤ max_len ∧ max_len < 18446744073709551616) (file : List Char) (id : Int)
    (hid : InInt id) (h : HasRecord file id) :
    id_in_chunks id (read_lines file max_len) = true := by
  obtain ⟨pre, tail, rfl, hpre⟩ := h
  have hne : fmt_d id ++ ',' :: tail ≠ [] := by simp
  have hmem := chunk_at_line_start max_len ⟨by omega, hmax.2⟩ _ hne _ pre hpre (le_refl _)
  unfold id_in_chunks read_lines
  rw [List.any_eq_true]
  refine ⟨_, hmem, ?_⟩
  rw [sscanf_id_first_chunk max_len hmax id hid tail]
  simp [arg_int]

theorem rows_text_append (a b : List Row) : rows_text (a ++ b) = rows_text a ++ rows_text b := by
  simp [rows_text]

theorem rows_text_cons (r : Row) (rows : List Row) :
    rows_text (r :: rows) = r.line ++ rows_text rows := by
  simp [rows_text]

theorem rows_text_eq_nil (rows : List Row) (h : rows_text rows = []) : rows = [] := by
  cases rows with
  | nil => rfl
  | cons r rs =>
    rw [rows_text_cons] at h
    simp [Row.line] at h

theorem EndsLines_rows_text (rows : List Row) : EndsLines (rows_text rows) := by
  induction rows using List.reverseRecOn with
  | nil => exact Or.inl rfl
  | append_singleton rs r _ =>
    right
    refine ⟨rows_text rs ++ (fmt_d r.id ++ ',' :: r.rest), ?_⟩
    rw [rows_text_append, rows_text_cons]
    simp [rows_text, Row.line]

theorem EndsLines_append (a b : List Char) (ha : EndsLines a) (hb : EndsLines b) :
    EndsLines (a ++ b) := by
  rcases hb with rfl | ⟨p, rfl⟩
  · simpa using ha
  · exact Or.inr ⟨a ++ p, by simp⟩

theorem hasRecord_of_row (hdr : List Char) (hh : EndsLines hdr) (rows : List Row) (r : Row)
    (hr : r ∈ rows) : HasRecord (hdr ++ rows_text rows) r.id := by
  obtain ⟨before, after, rfl⟩ := List.append_of_mem hr
  refine ⟨hdr ++ rows_text before, r.rest ++ '\n' :: rows_text after, ?_,
    EndsLines_append _ _ hh (EndsLines_rows_text _)⟩
  rw [rows_text_append, rows_text_cons]
  simp [Row.line]

/-- A new row appended to a table whose chunks do not show its id keeps the
ids of the table distinct. -/
theorem append_row_distinct (header : List Char) (hh : EndsLines header) (max_len : Nat)
    (hmax : 14 ≤ max_len ∧ max_len < 18446744073709551616) (rows : List Row)
    (content : List Char)
    (hc : content = rows_text rows ∨ content = header ++ rows_text rows)
    (hok : RowsOK rows) (hnd : (rows.map (fun r => r.id)).Nodup) (new : Row)
    (hnew : InInt new.id ∧ '\n' ∉ new.rest)
    (hcheck : id_in_chunks new.id (read_lines content max_len) = false) :
    ∃ rows', IsTable header rows' (some (append_record (some content) header new.line)) ∧
      RowsOK rows' ∧ (rows'.map (fun r => r.id)).Nodup := by
  have hfresh : new.id ∉ rows.map (fun r => r.id) := by
    intro hin
    obtain ⟨r, hr, hid⟩ := List.mem_map.mp hin
    have hrec : HasRecord content new.id := by
      rw [← hid]
      rcases hc with rfl | rfl
      · have := hasRecord_of_row [] (Or.inl rfl) rows r hr
        simpa using this
      · exact hasRecord_of_row header hh rows r hr
    have := id_in_chunks_of_record max_len hmax content new.id hnew.1 hrec
    rw [this] at hcheck
    cases hcheck
  have hok' : RowsOK (rows ++ [new]) := by
    intro r hr
    rcases List.mem_append.mp hr with h | h
    · exact hok r h
    · simp only [List.mem_singleton] at h
      subst h; exact hnew
  have hnd' : ((rows ++ [new]).map (fun r => r.id)).Nodup := by
    rw [List.map_append, List.map_singleton]
    exact List.Nodup.append hnd (List.nodup_singleton _) (by
      intro x hx hx'
      simp only [List.mem_singleton] at hx'
      subst hx'
      exact hfresh hx)
  unfold append_record
  by_cases he : content = []
  · have hrows : rows = [] := by
      rcases hc with h | h
      · exact rows_text_eq_nil rows (by rw [← h, he])
      · rw [he] at h
        have h2 := (List.append_eq_nil.mp h.symm).2
        exact rows_text_eq_nil rows h2
    subst hrows
    refine ⟨[new], Or.inr (Or.inr ?_), by simpa using hok', by simp⟩
    simp [he, rows_text]
  · refine ⟨rows ++ [new], ?_, hok', hnd'⟩
    simp only [he, if_false]
    rcases hc with rfl | rfl
    · exact Or.inr (Or.inl (by rw [rows_text_append]; simp [rows_text]))
    · exact Or.inr (Or.inr (by rw [rows_text_append]; simp [rows_text]))

theorem EndsLines_student_header : EndsLines student_header :=
  Or.inr ⟨student_header_body, student_header_line⟩

theorem EndsLines_course_header : EndsLines course_header :=
  Or.inr ⟨course_header_body, course_header_line⟩

theorem EndsLines_faculty_header : EndsLines faculty_header :=
  Or.inr ⟨"id,name,email,password,offered_courses".toList, by decide⟩

theorem PlainField_no_newline (f : List Char) (h : PlainField f) : '\n' ∉ f := by
  intro hin
  exact h '\n' hin (by simp)

theorem student_row_line (a : StudentArgs) :
    fmt_d a.id ++ [','] ++ a.name ++ [','] ++ a.email ++ [','] ++ a.password ++ [','] ++
      fmt_d a.active ++ [',', '\n'] = a.row.line := by
  simp [StudentArgs.row, Row.line]

theorem faculty_row_line (a : FacultyArgs) :
    fmt_d a.id ++ [','] ++ a.name ++ [','] ++ a.email ++ [','] ++ a.password ++ [',', '\n'] =
      a.row.line := by
  simp [FacultyArgs.row, Row.line]

theorem course_row_line (a : CourseArgs) :
    new_course_record a.id a.code a.name a.capacity a.credits a.faculty_id = a.row.line := by
  simp [new_course_record, CourseArgs.row, Row.line]

theorem student_row_ok (a : StudentArgs) (h : StudentArgsOK a) :
    InInt a.row.id ∧ '\n' ∉ a.row.rest := by
  obtain ⟨h1, h2, h3, h4⟩ := h
  refine ⟨h1, ?_⟩
  have := PlainField_no_newline _ h2
  have := PlainField_no_newline _ h3
  have := PlainField_no_newline _ h4
  have := fmt_d_no_newline a.active
  simp [StudentArgs.row, *]

theorem faculty_row_ok (a : FacultyArgs) (h : FacultyArgsOK a) :
    InInt a.row.id ∧ '\n' ∉ a.row.rest := by
  obtain ⟨h1, h2, h3, h4⟩ := h
  refine ⟨h1, ?_⟩
  have := PlainField_no_newline _ h2
  have := PlainField_no_newline _ h3
  have := PlainField_no_newline _ h4
  simp [FacultyArgs.row, *]

theorem course_row_ok (a : CourseArgs) (h : CourseArgsOK a) :
    InInt a.row.id ∧ '\n' ∉ a.row.rest := by
  obtain ⟨h1, h2, h3⟩ := h
  refine ⟨h1, ?_⟩
  have := PlainField_no_newline _ h2
  have := PlainField_no_newline _ h3
  have := fmt_d_no_newline a.capacity
  have := fmt_d_no_newline a.credits
  have := fmt_d_no_newline a.faculty_id
  simp [CourseArgs.row, *]

theorem add_student_step (rows : List Row) (file : Option (List Char)) (a : StudentArgs)
    (ht : IsTable student_header rows file) (hok : RowsOK rows)
    (hnd : (rows.map (fun r => r.id)).Nodup) (ha : StudentArgsOK a) :
    ∃ rows', IsTable student_header rows'
        (add_student file a.id a.name a.email a.password a.active).2 ∧
      RowsOK rows' ∧ (rows'.map (fun r => r.id)).Nodup := by
  unfold add_student
  rcases ht with ⟨rfl, rfl⟩ | hc
  · refine ⟨[], ?_, hok, hnd⟩
    simp [check_user_id_exists, FILE_ERROR, IsTable]
  · obtain ⟨content, rfl, hc'⟩ : ∃ content, file = some content ∧
        (content = rows_text rows ∨ content = student_header ++ rows_text rows) := by
      rcases hc with h | h
      · exact ⟨_, h, Or.inl rfl⟩
      · exact ⟨_, h, Or.inr rfl⟩
    by_cases hchk : id_in_chunks a.id (read_lines content MAX_LINE) = true
    · refine ⟨rows, ?_, hok, hnd⟩
      simp only [check_user_id_exists, hchk, if_true]
      rcases hc' with h | h
      · exact Or.inr (Or.inl (by simp [h]))
      · exact Or.inr (Or.inr (by simp [h]))
    · have hf : id_in_chunks a.id (read_lines content MAX_LINE) = false := by
        simpa using hchk
      simp only [check_user_id_exists, hf, student_row_line]
      simpa using append_row_distinct student_header EndsLines_student_header MAX_LINE
        (by decide) rows content hc' hok hnd a.row (student_row_ok a ha) hf

theorem add_faculty_step (rows : List Row) (file : Option (List Char)) (a : FacultyArgs)
    (ht : IsTable faculty_header rows file) (hok : RowsOK rows)
    (hnd : (rows.map (fun r => r.id)).Nodup) (ha : FacultyArgsOK a) :
    ∃ rows', IsTable faculty_header rows' (add_faculty file a.id a.name a.email a.password).2 ∧
      RowsOK rows' ∧ (rows'.map (fun r => r.id)).Nodup := by
  unfold add_faculty
  rcases ht with ⟨rfl, rfl⟩ | hc
  · refine ⟨[], ?_, hok, hnd⟩
    simp [check_user_id_exists, FILE_ERROR, IsTable]
  · obtain ⟨content, rfl, hc'⟩ : ∃ content, file = some content ∧
        (content = rows_text rows ∨ content = faculty_header ++ rows_text rows) := by
      rcases hc with h | h
      · exact ⟨_, h, Or.inl rfl⟩
      · exact ⟨_, h, Or.inr rfl⟩
    by_cases hchk : id_in_chunks a.id (read_lines content MAX_LINE) = true
    · refine ⟨rows, ?_, hok, hnd⟩
      simp only [check_user_id_exists, hchk, if_true]
      rcases hc' with h | h
      · exact Or.inr (Or.inl (by simp [h]))
      · exact Or.inr (Or.inr (by simp [h]))
    · have hf : id_in_chunks a.id (read_lines content MAX_LINE) = false := by
        simpa using hchk
      simp only [check_user_id_exists, hf, faculty_row_line]
      simpa using append_row_distinct faculty_header EndsLines_faculty_header MAX_LINE
        (by decide) rows content hc' hok hnd a.row (faculty_row_ok a ha) hf

theorem add_course_step (rows : List Row) (st : Store) (a : CourseArgs)
    (ht : IsTable course_header rows st.courses) (hok : RowsOK rows)
    (hnd : (rows.map (fun r => r.id)).Nodup) (ha : CourseArgsOK a) :
    ∃ rows', IsTable course_header rows'
        (add_course st a.id a.code a.name a.capacity a.credits a.faculty_id).2.courses ∧
      RowsOK rows' ∧ (rows'.map (fun r => r.id)).Nodup := by
  unfold add_course
  rcases ht with ⟨hnone, rfl⟩ | hc
  · refine ⟨[a.row], ?_, ?_, by simp⟩
    · simp only [hnone, check_course_id_exists, ne_eq, not_true_eq_false, if_false,
        append_record, course_row_line]
      exact Or.inr (Or.inr (by simp [rows_text]))
    · intro r hr
      simp only [List.mem_singleton] at hr
      subst hr
      exact course_row_ok a ha
  · obtain ⟨content, hsome, hc'⟩ : ∃ content, st.courses = some content ∧
        (content = rows_text rows ∨ content = course_header ++ rows_text rows) := by
      rcases hc with h | h
      · exact ⟨_, h, Or.inl rfl⟩
      · exact ⟨_, h, Or.inr rfl⟩
    by_cases hchk : id_in_chunks a.id (read_lines content MAX_LINE_LEN) = true
    · refine ⟨rows, ?_, hok, hnd⟩
      simp only [hsome, check_course_id_exists, hchk, if_true]
      rcases hc' with h | h
      · exact Or.inr (Or.inl (by simp [h, hsome]))
      · exact Or.inr (Or.inr (by simp [h, hsome]))
    · have hf : id_in_chunks a.id (read_lines content MAX_LINE_LEN) = false := by
        simpa using hchk
      simp only [hsome, check_course_id_exists, hf, course_row_line]
      simpa using append_row_distinct course_header EndsLines_course_header MAX_LINE_LEN
        (by decide) rows content hc' hok hnd a.row (course_row_ok a ha) hf

theorem add_students_distinct (calls : List StudentArgs) :
    ∀ (rows : List Row) (file : Option (List Char)), IsTable student_header rows file →
      RowsOK rows → (rows.map (fun r => r.id)).Nodup → (∀ a ∈ calls, StudentArgsOK a) →
      ∃ rows', IsTable student_header rows' (add_students file calls) ∧ RowsOK rows' ∧
        (rows'.map (fun r => r.id)).Nodup := by
  induction calls with
  | nil => intro rows file ht hok hnd _; exact ⟨rows, ht, hok, hnd⟩
  | cons a rest ih =>
    intro rows file ht hok hnd hargs
    obtain ⟨rows1, h1, h2, h3⟩ :=
      add_student_step rows file a ht hok hnd (hargs a (List.mem_cons_self _ _))
    exact ih rows1 _ h1 h2 h3 (fun b hb => hargs b (List.mem_cons_of_mem _ hb))

theorem add_faculties_distinct (calls : List FacultyArgs) :
    ∀ (rows : List Row) (file : Option (List Char)), IsTable faculty_header rows file →
      RowsOK rows → (rows.map (fun r => r.id)).Nodup → (∀ a ∈ calls, FacultyArgsOK a) →
      ∃ rows', IsTable faculty_header rows' (add_faculties file calls) ∧ RowsOK rows' ∧
        (rows'.map (fun r => r.id)).Nodup := by
  induction calls with
  | nil => intro rows file ht hok hnd _; exact ⟨rows, ht, hok, hnd⟩
  | cons a rest ih =>
    intro rows file ht hok hnd hargs
    obtain ⟨rows1, h1, h2, h3⟩ :=
      add_faculty_step rows file a ht hok hnd (hargs a (List.mem_cons_self _ _))
    exact ih rows1 _ h1 h2 h3 (fun b hb => hargs b (List.mem_cons_of_mem _ hb))

theorem add_courses_distinct (calls : List CourseArgs) :
    ∀ (rows : List Row) (st : Store), IsTable course_header rows st.courses →
      RowsOK rows → (rows.map (fun r => r.id)).Nodup → (∀ a ∈ calls, CourseArgsOK a) →
      ∃ rows', IsTable course_header rows' (add_courses st calls).courses ∧ RowsOK rows' ∧
        (rows'.map (fun r => r.id)).Nodup := by
  induction calls with
  | nil => intro rows st ht hok hnd _; exact ⟨rows, ht, hok, hnd⟩
  | cons a rest ih =>
    intro rows st ht hok hnd hargs
    obtain ⟨rows1, h1, h2, h3⟩ :=
      add_course_step rows st a ht hok hnd (hargs a (List.mem_cons_self _ _))
    exact ih rows1 _ h1 h2 h3 (fun b hb => hargs b (List.mem_cons_of_mem _ hb))

/-- C9: each of `add_student`, `add_faculty` and `add_course` returns
DUPLICATE_ID and leaves the table unchanged when a line of the table starts
with the given id; starting from a table whose rows have pairwise distinct
ids, after any sequence of calls (field values without comma or newline) the
table is again made of rows with pairwise distinct ids. -/
theorem add_keeps_ids_distinct :
    (∀ (file : List Char) (a : StudentArgs), InInt a.id → HasRecord file a.id →
      add_student (some file) a.id a.name a.email a.password a.active =
        (DUPLICATE_ID, some file)) ∧
    (∀ (file : List Char) (a : FacultyArgs), InInt a.id → HasRecord file a.id →
      add_faculty (some file) a.id a.name a.email a.password = (DUPLICATE_ID, some file)) ∧
    (∀ (st : Store) (cfile : List Char) (a : CourseArgs), st.courses = some cfile →
      InInt a.id → HasRecord cfile a.id →
      add_course st a.id a.code a.name a.capacity a.credits a.faculty_id = (DUPLICATE_ID, st)) ∧
    (∀ (rows : List Row) (file : Option (List Char)) (calls : List StudentArgs),
      IsTable student_header rows file → RowsOK rows → (rows.map (fun r => r.id)).Nodup →
      (∀ a ∈ calls, StudentArgsOK a) →
      ∃ rows', IsTable student_header rows' (add_students file calls) ∧ RowsOK rows' ∧
        (rows'.map (fun r => r.id)).Nodup) ∧
    (∀ (rows : List Row) (file : Option (List Char)) (calls : List FacultyArgs),
      IsTable faculty_header rows file → RowsOK rows → (rows.map (fun r => r.id)).Nodup →
      (∀ a ∈ calls, FacultyArgsOK a) →
      ∃ rows', IsTable faculty_header rows' (add_faculties file calls) ∧ RowsOK rows' ∧
        (rows'.map (fun r => r.id)).Nodup) ∧
    (∀ (rows : List Row) (st : Store) (calls : List CourseArgs),
      IsTable course_header rows st.courses → RowsOK rows →
      (rows.map (fun r => r.id)).Nodup → (∀ a ∈ calls, CourseArgsOK a) →
      ∃ rows', IsTable course_header rows' (add_courses st calls).courses ∧ RowsOK rows' ∧
        (rows'.map (fun r => r.id)).Nodup) := by
  refine ⟨?_, ?_, ?_, ?_, ?_, ?_⟩
  · intro file a hid hrec
    have := id_in_chunks_of_record MAX_LINE (by decide) file a.id hid hrec
    simp [add_student, check_user_id_exists, this]
  · intro file a hid hrec
    have := id_in_chunks_of_record MAX_LINE (by decide) file a.id hid hrec
    simp [add_faculty, check_user_id_exists, this]
  · intro st cfile a hc hid hrec
    have := id_in_chunks_of_record MAX_LINE_LEN (by decide) cfile a.id hid hrec
    simp [add_course, check_course_id_exists, hc, this]
  · intro rows file calls
    exact add_students_distinct calls rows file
  · intro rows file calls
    exact add_faculties_distinct calls rows file
  · intro rows st calls
    exact add_courses_distinct calls rows st

theorem add_keeps_ids_distinct_witness :
    add_student (some "id,name,email,password,active,enrolled_courses\n7,Amy,amy@x.com,pw1,1,\n".toList)
        7 "Al".toList "al@x.com".toList "pw".toList 1 =
      (DUPLICATE_ID,
        some "id,name,email,password,active,enrolled_courses\n7,Amy,amy@x.com,pw1,1,\n".toList) ∧
    (∃ rows', IsTable student_header rows'
        (add_students (some [])
          [{ id := 7, name := "Amy".toList, email := "amy@x.com".toList,
             password := "pw1".toList, active := 1 },
           { id := 7, name := "Al".toList, email := "al@x.com".toList,
             password := "pw".toList, active := 1 },
           { id := 8, name := "Bob".toList, email := "bob@x.com".toList,
             password := "pw2".toList, active := 0 }]) ∧
      RowsOK rows' ∧ (rows'.map (fun r => r.id)).Nodup) ∧
    add_students (some [])
        [{ id := 7, name := "Amy".toList, email := "amy@x.com".toList,
           password := "pw1".toList, active := 1 },
         { id := 7, name := "Al".toList, email := "al@x.com".toList,
           password := "pw".toList, active := 1 },
         { id := 8, name := "Bob".toList, email := "bob@x.com".toList,
           password := "pw2".toList, active := 0 }] =
      some ("id,name,email,password,active,enrolled_courses\n" ++
        "7,Amy,amy@x.com,pw1,1,\n8,Bob,bob@x.com,pw2,0,\n").toList :=
  ⟨add_keeps_ids_distinct.1
      "id,name,email,password,active,enrolled_courses\n7,Amy,amy@x.com,pw1,1,\n".toList
      { id := 7, name := "Al".toList, email := "al@x.com".toList, password := "pw".toList,
        active := 1 }
      (by decide)
      ⟨"id,name,email,password,active,enrolled_courses\n".toList, "Amy,amy@x.com,pw1,1,\n".toList,
        by decide, Or.inr ⟨"id,name,email,password,active,enrolled_courses".toList, by decide⟩⟩,
   add_keeps_ids_distinct.2.2.2.1 [] (some []) _ (by decide) (by decide) (by decide) (by decide),
   by decide⟩

/-! ## `authenticate_user` on well-formed tables -/

theorem user_line_student (u : User) :
    user_line STUDENT u = fmt_d u.id ++ ',' :: (u.name ++ ',' :: (u.email ++ ',' ::
      (u.password ++ ',' :: (fmt_d u.active ++ ',' :: (u.extra ++ ['\n']))))) := by
  simp [user_line, student_record]

theorem user_line_faculty (u : User) :
    user_line FACULTY u = fmt_d u.id ++ ',' :: (u.name ++ ',' :: (u.email ++ ',' ::
      (u.password ++ ',' :: (u.extra ++ ['\n'])))) := by
  have : FACULTY ≠ STUDENT := by decide
  simp [user_line, faculty_record, this]

theorem user_line_admin (u : User) :
    user_line ADMIN u = fmt_d u.id ++ ',' :: (u.name ++ ',' :: (u.email ++ ',' ::
      (u.password ++ ['\n']))) := by
  have h1 : ADMIN ≠ STUDENT := by decide
  have h2 : ADMIN ≠ FACULTY := by decide
  simp [user_line, h1, h2]

theorem read_lines_lines (max_len : Nat)
    (hmax : 1 ≤ max_len ∧ max_len < 18446744073709551616) (lines : List (List Char))
    (h : ∀ l ∈ lines, ∃ b, l = b ++ ['\n'] ∧ '\n' ∉ b ∧ b.length + 1 < max_len) :
    read_lines lines.flatten max_len = lines := by
  have e : lines = (lines.map List.dropLast).map (fun b => b ++ ['\n']) := by
    rw [List.map_map]
    conv_lhs => rw [← List.map_id lines]
    apply List.map_congr_left
    intro l hl
    obtain ⟨b, rfl, _, _⟩ := h l hl
    simp
  have hb : ∀ b ∈ lines.map List.dropLast, '\n' ∉ b ∧ b.length + 1 < max_len := by
    intro b hb
    obtain ⟨l, hl, rfl⟩ := List.mem_map.mp hb
    obtain ⟨b', rfl, h1, h2⟩ := h l hl
    simpa using ⟨h1, h2⟩
  have := read_lines_bodies max_len hmax (lines.map List.dropLast) hb
  unfold lines_text at this
  rw [← e] at this
  exact this

theorem user_line_is_line (role : Int) (hrole : role = ADMIN ∨ role = STUDENT ∨ role = FACULTY)
    (u : User) (h : UserOK role u) :
    ∃ b, user_line role u = b ++ ['\n'] ∧ '\n' ∉ b ∧ b.length + 1 < 256 := by
  have hlen := h.2.2.2.2.2.2.2.2.2
  obtain ⟨_, hname, _, hemail, _, hpass, _, _, hextra, _⟩ := h
  have n1 := Avoids_crlf_nl _ (Field_avoids_crlf _ hname)
  have n2 := Avoids_crlf_nl _ (Field_avoids_crlf _ hemail)
  have n3 := Avoids_crlf_nl _ (Field_avoids_crlf _ hpass)
  have n4 := fmt_d_no_newline u.id
  have n5 := fmt_d_no_newline u.active
  rcases hrole with hr | hr | hr
  · subst hr
    rw [user_line_admin] at hlen ⊢
    refine ⟨fmt_d u.id ++ ',' :: (u.name ++ ',' :: (u.email ++ ',' :: u.password)), by simp,
      by simp [n1, n2, n3, n4], ?_⟩
    simp only [List.length_append, List.length_cons, List.length_nil] at hlen ⊢
    omega
  · subst hr
    rw [user_line_student] at hlen ⊢
    refine ⟨fmt_d u.id ++ ',' :: (u.name ++ ',' :: (u.email ++ ',' ::
      (u.password ++ ',' :: (fmt_d u.active ++ ',' :: u.extra)))), by simp,
      by simp [n1, n2, n3, n4, n5, hextra], ?_⟩
    simp only [List.length_append, List.length_cons, List.length_nil] at hlen ⊢
    omega
  · subst hr
    rw [user_line_faculty] at hlen ⊢
    refine ⟨fmt_d u.id ++ ',' :: (u.name ++ ',' :: (u.email ++ ',' ::
      (u.password ++ ',' :: u.extra))), by simp, by simp [n1, n2, n3, n4, hextra], ?_⟩
    simp only [List.length_append, List.length_cons, List.length_nil] at hlen ⊢
    omega

theorem user_line_head (role : Int) (u : User) :
    ∃ d rest, user_line role u = d :: rest ∧ (d = '-' ∨ isdigit d = true) := by
  obtain ⟨d, ds, hd⟩ := List.exists_cons_of_ne_nil (fmt_d_ne_nil u.id)
  have hch := fmt_d_chars u.id d (by rw [hd]; exact List.mem_cons_self _ _)
  unfold user_line student_record faculty_record
  split_ifs
  · exact ⟨d, _, by simp only [hd, List.append_assoc, List.cons_append]; rfl, hch⟩
  · exact ⟨d, _, by simp only [hd, List.append_assoc, List.cons_append]; rfl, hch⟩
  · exact ⟨d, _, by simp only [hd, List.append_assoc, List.cons_append]; rfl, hch⟩

/-- The value `authenticate_user` returns is never positive: it is 0 after
the scan of the table, WRONG_USER or INCORRECT_ROLE before it. -/
theorem authenticate_user_not_positive (st : Store) (role : Int)
    (email_in password_in : List Char) (r : Int) (sent : List Sent)
    (h : authenticate_user st role email_in password_in = some (r, sent)) : r ≤ 0 := by
  unfold authenticate_user at h
  by_cases h1 : email_in.take (MAX_EMAIL_LEN - 1) = []
  · rw [if_pos h1] at h; cases h; decide
  rw [if_neg h1] at h
  by_cases h2 : password_in.take (MAX_PASS_LEN - 1) = []
  · rw [if_pos h2] at h; cases h; decide
  rw [if_neg h2] at h
  cases ht : role_table st role with
  | none => rw [ht] at h; cases h; decide
  | some tab =>
    cases tab with
    | none => rw [ht] at h; cases h; decide
    | some file =>
      rw [ht] at h
      simp only at h
      generalize (if role = STUDENT then
          auth_student_loop (read_credential MAX_EMAIL_LEN email_in)
            (read_credential MAX_PASS_LEN password_in) (split_header file).2
        else
          auth_user_loop role (read_credential MAX_EMAIL_LEN email_in)
            (read_credential MAX_PASS_LEN password_in) (split_header file).2) = res at h
      cases res with
      | none => cases h
      | some s => cases h; decide

/-- The idle loop of `handle_client` is never reached: the function does not
end by `return 0`. -/
theorem handle_client_never_idle (st : Store) (role_in : Option Int)
    (email_in password_in : List Char) (idle_in : List (List Char)) (e : Ending)
    (events : List Event)
    (h : handle_client st role_in email_in password_in idle_in = some (e, events)) :
    e ≠ Ending.returned 0 := by
  unfold handle_client at h
  cases role_in with
  | none => cases h; decide
  | some role =>
    simp only at h
    split_ifs at h with hr
    · cases h; decide
    · cases ha : authenticate_user st role email_in password_in with
      | none => rw [ha] at h; cases h
      | some p =>
        obtain ⟨r, sent⟩ := p
        rw [ha] at h
        simp only at h
        have := authenticate_user_not_positive st role email_in password_in r sent ha
        rw [if_pos this] at h
        cases h; decide

/-- C11: for every role selector outside {1, 2, 3}, whatever the store and
whatever the client would send next, `handle_client` writes the role prompt and
the status INCORRECT_ROLE, closes the socket and ends the process with
`exit(EXIT_FAILURE)`: neither credential prompt is written and no table is
read. -/
theorem handle_client_incorrect_role (st : Store) (role : Int)
    (email_in password_in : List Char) (idle_in : List (List Char))
    (h : role < 1 ∨ 3 < role) :
    handle_client st (some role) email_in password_in idle_in =
      some (Ending.exited EXIT_FAILURE,
        [Event.write (Sent.bytes role_prompt), Event.write (Sent.int INCORRECT_ROLE),
         Event.close]) ∧
    INCORRECT_ROLE = -4 := by
  refine ⟨?_, rfl⟩
  unfold handle_client
  have h' : role < 1 ∨ role > 3 := h
  simp only [h', if_true]

theorem handle_client_incorrect_role_witness :
    handle_client login_store (some 9) "bob@x.com".toList "pw".toList [] =
      some (Ending.exited EXIT_FAILURE,
        [Event.write (Sent.bytes role_prompt), Event.write (Sent.int INCORRECT_ROLE),
         Event.close]) ∧
    INCORRECT_ROLE = -4 :=
  handle_client_incorrect_role login_store 9 _ _ [] (by decide)

/-- C12 (defect of the code): whatever the outcome of the login, the value
`authenticate_user` returns after the scan of the table is 0. On `login_store`
it writes LOGIN_SUCCESS, WRONG_PASS, WRONG_USER and DEACTIVATED to the client
for the four logins and returns 0 each time, never LOGIN_SUCCESS, WRONG_PASS,
WRONG_USER or DEACTIVATED. -/
theorem authenticate_user_returns_zero :
    authenticate_user login_store STUDENT "bob@x.com".toList "pw".toList =
      some (0, auth_prompts ++ [Sent.int LOGIN_SUCCESS, Sent.int 3,
        Sent.bytes (welcome_msg "Bob".toList "Student".toList)]) ∧
    authenticate_user login_store STUDENT "bob@x.com".toList "wrong".toList =
      some (0, auth_prompts ++ [Sent.int WRONG_PASS]) ∧
    authenticate_user login_store STUDENT "zed@x.com".toList "pw".toList =
      some (0, auth_prompts ++ [Sent.int WRONG_USER]) ∧
    authenticate_user login_store STUDENT "amy@x.com".toList "pw1".toList =
      some (0, auth_prompts ++ [Sent.int DEACTIVATED]) := by
  refine ⟨by decide, by decide, by decide, by decide⟩

/-- C13 (defect of the code): student 3 logs in with the right email and
password; `authenticate_user` writes LOGIN_SUCCESS, the id and the welcome line
and returns 0, `handle_client` takes `auth_result <= 0` for a failure, closes
the socket and returns -1 without a single `read` of the idle loop, although
the client goes on sending. -/
theorem handle_client_closes_after_login :
    handle_client login_store (some STUDENT) "bob@x.com".toList "pw".toList
        ["hello".toList, "again".toList] =
      some (Ending.returned (-1),
        [Event.write (Sent.bytes role_prompt),
         Event.write (Sent.bytes "Enter email: \x00".toList),
         Event.write (Sent.bytes "Enter password: \x00".toList),
         Event.write (Sent.int LOGIN_SUCCESS), Event.write (Sent.int 3),
         Event.write (Sent.bytes (welcome_msg "Bob".toList "Student".toList)),
         Event.close]) := by
  decide

/-! ## `update_user_details`: the write in place -/

/-- C14 (defect of the code): `update_user_details` writes the new line at
the offset of the record whatever its length. On the well-formed table
`plain_students` the longer name `Amanda` for student 7 overwrites `8,B` of the
record of student 8, and the shorter name `Al` leaves the old newline behind as
an empty line; on `plain_faculty` the longer password of faculty 5 overwrites
the head of the record of faculty 6. Each call returns SUCCESS. -/
theorem update_user_details_corrupts_next_row :
    plain_students = students_table plain_student_records ∧
    (∀ s ∈ plain_student_records, StudentOK s) ∧
    update_user_details (some plain_students) 7 1 "Amanda".toList =
      some (SUCCESS, some ("id,name,email,password,active,enrolled_courses\n" ++
        "7,Amanda,amy@x.com,pw1,1,\n" ++
        "ob,bob@x.com,pw2,1,\n").toList) ∧
    update_user_details (some plain_students) 7 1 "Al".toList =
      some (SUCCESS, some ("id,name,email,password,active,enrolled_courses\n" ++
        "7,Al,amy@x.com,pw1,1,\n" ++
        "\n" ++
        "8,Bob,bob@x.com,pw2,1,\n").toList) ∧
    update_user_details (some plain_faculty) 5 3 "longerpassword".toList =
      some (SUCCESS, some ("id,name,email,password,offered_courses\n" ++
        "5,Eve,eve@x.com,longerpassword\n" ++
        "an@x.com,pw6,CS101\n").toList) := by
  refine ⟨by decide, by decide, by decide, by decide, by decide⟩

/-! ## `remove_course`: the caller who does not own the course -/

theorem read_lines_courses_table_fgets (cs : List Course) (hcs : ∀ c ∈ cs, CourseOK c) :
    read_lines (courses_table cs) MAX_LINE_LEN = course_header :: cs.map Course.line := by
  rw [courses_table_eq, read_lines_bodies MAX_LINE_LEN (by decide)]
  · rw [List.map_cons, ← course_header_line, map_body_line_courses]
  · intro b hb
    rcases List.mem_cons.mp hb with h | h
    · subst h; exact ⟨by decide, by decide⟩
    · obtain ⟨c, hc, rfl⟩ := List.mem_map.mp h
      refine ⟨Avoids_crlf_nl _ (course_body_avoids_crlf c (hcs c hc)), ?_⟩
      have h1 := course_body_length c
      have h2 := (hcs c hc).2.2.2.2.2.2.2.2.2.2
      unfold MAX_LINE_LEN
      omega

theorem sscanf_one_lit (c : Char) (s : List Char) : sscanf [Conv.lit c] s = [] := by
  cases s with
  | nil => exact sscanf_lit_nil c []
  | cons x rest =>
    by_cases h : x = c
    · subst h; rw [sscanf_lit, sscanf_nil]
    · exact sscanf_lit_ne c x [] rest h

/-- The first `sscanf` of `remove_course` on the line of a course: the id and
the first 31 bytes of the code. -/
theorem sscanf_remove_course_line (c : Course) (h : CourseOK c) :
    sscanf [Conv.d true, Conv.lit ',', Conv.set [','] (some 31) true, Conv.lit ','] c.line =
      [Val.int c.id, Val.str (c.code.take 31)] := by
  obtain ⟨hid, hcode, _, _⟩ := h
  rw [course_line_eq]
  unfold Course.body
  simp only [List.append_assoc, List.cons_append]
  rw [sscanf_d _ _ _ hid (NoDigitAhead_comma _), sscanf_lit]
  have hs : scan_set [','] (some 31) (c.code ++ ',' :: (c.name ++ ',' :: (fmt_d c.capacity ++
      ',' :: (fmt_d c.enrolled ++ ',' :: (fmt_d c.credits ++ ',' :: (fmt_d c.faculty_id ++
      ',' :: '"' :: (c.students_str ++ ('"' :: ([] ++ ['\n']))))))))) = c.code.take 31 := by
    unfold scan_set
    simp only [takeWhile_avoid_append [','] c.code _ (Field_avoids_comma _ hcode)
      (StopAhead_comma _)]
  have hne : c.code.take 31 ≠ [] := by
    obtain ⟨x, xs, hx⟩ := List.exists_cons_of_ne_nil hcode.1
    rw [hx]; simp
  rw [sscanf]
  simp only [hs, hne, if_false, if_true, sscanf_one_lit]

/-- The second `sscanf` of `remove_course` on the line of a course: the id of
the owning faculty. -/
theorem sscanf_owner_course_line (c : Course) (h : CourseOK c) :
    sscanf [Conv.d false, Conv.lit ',', Conv.set [','] none false, Conv.lit ',',
        Conv.set [','] none false, Conv.lit ',', Conv.d false, Conv.lit ',', Conv.d false,
        Conv.lit ',', Conv.d false, Conv.lit ',', Conv.d true] c.line =
      [Val.int c.faculty_id] := by
  obtain ⟨hid, hcode, hcl, hname, hnl, hcap, henr, hcred, hfid, hst, hlen⟩ := h
  rw [course_line_eq]
  unfold Course.body
  simp only [List.append_assoc, List.cons_append]
  rw [sscanf_d_skip _ _ _ (NoDigitAhead_comma _), sscanf_lit,
    sscanf_set_skip _ none _ _ _ hcode.1 (Field_avoids_comma _ hcode) trivial (StopAhead_comma _),
    sscanf_lit,
    sscanf_set_skip _ none _ _ _ hname.1 (Field_avoids_comma _ hname) trivial (StopAhead_comma _),
    sscanf_lit,
    sscanf_d_skip _ _ _ (NoDigitAhead_comma _), sscanf_lit,
    sscanf_d_skip _ _ _ (NoDigitAhead_comma _), sscanf_lit,
    sscanf_d_skip _ _ _ (NoDigitAhead_comma _), sscanf_lit,
    sscanf_d _ _ _ hfid (NoDigitAhead_comma _), sscanf_nil]

/-- The course scan of `remove_course` ends with `return NOT_FOUND` at the
line of the course when the caller is not its owner. -/
theorem remove_lookup_course_not_owner (fid : Int) (cs : List Course)
    (hcs : ∀ c ∈ cs, CourseOK c) (hn : (cs.map (fun c => c.id)).Nodup) (c : Course)
    (hc : c ∈ cs) (hf : fid ≠ c.faculty_id) :
    ∀ code0, remove_lookup_course c.id fid (cs.map Course.line) code0 = Lookup.ret NOT_FOUND := by
  induction cs with
  | nil => cases hc
  | cons c' rest ih =>
    intro code0
    have hc' : CourseOK c' := hcs c' (List.mem_cons_self _ _)
    have a1 : arg_int [Val.int c'.id, Val.str (c'.code.take 31)] 0 0 = c'.id := rfl
    have a2 : arg_int [Val.int c'.faculty_id] 0 0 = c'.faculty_id := rfl
    have l1 : [Val.int c'.id, Val.str (c'.code.take 31)].length = 2 := rfl
    have l2 : [Val.int c'.faculty_id].length = 1 := rfl
    rw [List.map_cons, remove_lookup_course, sscanf_remove_course_line c' hc',
      sscanf_owner_course_line c' hc', a1, a2, l1, l2]
    by_cases hid : c'.id = c.id
    · have e : c' = c := eq_of_id_eq _ hn c' c (List.mem_cons_self _ _) hc hid
      subst e
      have hf' : c'.faculty_id ≠ fid := fun h => hf h.symm
      rw [if_pos ⟨rfl, rfl⟩, if_pos ⟨rfl, hf'⟩]
    · have hmem : c ∈ rest := by
        rcases List.mem_cons.mp hc with h | h
        · exact absurd h.symm (fun e => hid (by rw [e]))
        · exact h
      rw [if_neg (fun h => hid h.2)]
      exact ih (fun x hx => hcs x (List.mem_cons_of_mem _ hx))
        (List.nodup_cons.mp (by simpa using hn)).2 hmem _

/-- The course scan of `remove_course` finds nothing when no course has the id. -/
theorem remove_lookup_course_absent (cid fid : Int) (cs : List Course)
    (hcs : ∀ c ∈ cs, CourseOK c) (hno : cid ∉ cs.map (fun c => c.id)) :
    ∀ code0, ∃ code, remove_lookup_course cid fid (cs.map Course.line) code0 =
      Lookup.done false (code, []) := by
  induction cs with
  | nil => intro code0; exact ⟨code0, rfl⟩
  | cons c' rest ih =>
    intro code0
    have hc' : CourseOK c' := hcs c' (List.mem_cons_self _ _)
    have hid : c'.id ≠ cid := fun h => hno (by simp [h])
    have a1 : arg_int [Val.int c'.id, Val.str (c'.code.take 31)] 0 0 = c'.id := rfl
    rw [List.map_cons, remove_lookup_course, sscanf_remove_course_line c' hc', a1,
      if_neg (fun h => hid h.2)]
    exact ih (fun x hx => hcs x (List.mem_cons_of_mem _ hx))
      (fun h => hno (by simp only [List.map_cons, List.mem_cons]; exact Or.inr h)) _

/-- On a well-formed courses table `remove_course` returns NOT_FOUND and
changes nothing when the caller does not own the course. -/
theorem remove_course_of_not_owner (cs : List Course) (st : Store)
    (hst : st.courses = some (courses_table cs)) (hcs : ∀ c ∈ cs, CourseOK c)
    (hn : (cs.map (fun c => c.id)).Nodup) (c : Course) (hc : c ∈ cs) (fid : Int)
    (hf : fid ≠ c.faculty_id) (enrolled0 : List Char) :
    remove_course st c.id fid enrolled0 = some (NOT_FOUND, st) := by
  unfold remove_course
  rw [hst]
  simp only [read_lines_courses_table_fgets cs hcs, List.tail_cons,
    remove_lookup_course_not_owner fid cs hcs hn c hc hf []]

/-- On a well-formed courses table `remove_course` returns NOT_FOUND and
changes nothing when no course has the id. -/
theorem remove_course_of_absent (cs : List Course) (st : Store)
    (hst : st.courses = some (courses_table cs)) (hcs : ∀ c ∈ cs, CourseOK c)
    (cid fid : Int) (hno : cid ∉ cs.map (fun c => c.id)) (enrolled0 : List Char) :
    remove_course st cid fid enrolled0 = some (NOT_FOUND, st) := by
  obtain ⟨code, h⟩ := remove_lookup_course_absent cid fid cs hcs hno []
  unfold remove_course
  rw [hst]
  simp only [read_lines_courses_table_fgets cs hcs, List.tail_cons, h]

/-- C15: on a store with a well-formed courses table, `remove_course(c, f)`
by a faculty `f` that is not the faculty recorded on course `c` returns
NOT_FOUND, a failure status, and leaves the store (the courses, students and
faculty tables) as it was. -/
theorem remove_course_not_owner_unchanged (cs : List Course) (st : Store)
    (hst : st.courses = some (courses_table cs)) (hcs : ∀ c ∈ cs, CourseOK c)
    (hn : (cs.map (fun c => c.id)).Nodup) (c : Course) (hc : c ∈ cs) (f : Int)
    (hf : f ≠ c.faculty_id) (enrolled0 : List Char) :
    remove_course st c.id f enrolled0 = some (NOT_FOUND, st) ∧ NOT_FOUND ≠ SUCCESS :=
  ⟨remove_course_of_not_owner cs st hst hcs hn c hc f hf enrolled0, by decide⟩

theorem remove_course_not_owner_unchanged_witness :
    cascade_store.courses = some (courses_table cascade_courses) ∧
    (∀ c ∈ cascade_courses, CourseOK c) ∧
    remove_course cascade_store 41 6 [] = some (NOT_FOUND, cascade_store) ∧
    NOT_FOUND ≠ SUCCESS :=
  ⟨by decide, by decide,
   remove_course_not_owner_unchanged cascade_courses cascade_store (by decide) (by decide)
     (by decide)
     { id := 41, code := "CS1".toList, name := "Algo".toList, capacity := 5, enrolled := 1,
       credits := 4, faculty_id := 5, students := [3] }
     (by decide) 6 (by decide) []⟩

/-- C16, as stated (refuted): on `cascade_store`, where faculty 5 owns
course 41 and no course has the id 99, `remove_course(41, 6)` by a faculty that
does not own the course and `remove_course(99, 5)` return the same status,
NOT_FOUND. -/
theorem remove_course_unauthorized_same_status :
    remove_course cascade_store 41 6 [] = some (NOT_FOUND, cascade_store) ∧
    remove_course cascade_store 99 5 [] = some (NOT_FOUND, cascade_store) ∧
    ¬ ((remove_course cascade_store 41 6 []).map Prod.fst ≠
        (remove_course cascade_store 99 5 []).map Prod.fst) := by
  refine ⟨by decide, by decide, by decide⟩

/-- C16, as amended: on a store with a well-formed courses table,
`remove_course` returns NOT_FOUND both when the caller is not the owning
faculty of the course and when no course has the given id, and changes no
table in either case. -/
theorem remove_course_not_found_both (cs : List Course) (st : Store)
    (hst : st.courses = some (courses_table cs)) (hcs : ∀ c ∈ cs, CourseOK c)
    (hn : (cs.map (fun c => c.id)).Nodup) (enrolled0 : List Char) :
    (∀ c ∈ cs, ∀ f, f ≠ c.faculty_id →
      remove_course st c.id f enrolled0 = some (NOT_FOUND, st)) ∧
    (∀ cid f, cid ∉ cs.map (fun c => c.id) →
      remove_course st cid f enrolled0 = some (NOT_FOUND, st)) :=
  ⟨fun c hc f hf => remove_course_of_not_owner cs st hst hcs hn c hc f hf enrolled0,
   fun cid f hno => remove_course_of_absent cs st hst hcs cid f hno enrolled0⟩

theorem remove_course_not_found_both_witness :
    cascade_store.courses = some (courses_table cascade_courses) ∧
    (∀ c ∈ cascade_courses, CourseOK c) ∧
    (cascade_courses.map (fun c => c.id)).Nodup ∧
    remove_course cascade_store 42 7 [] = some (NOT_FOUND, cascade_store) ∧
    remove_course cascade_store 43 5 [] = some (NOT_FOUND, cascade_store) :=
  ⟨by decide, by decide, by decide,
   (remove_course_not_found_both cascade_courses cascade_store (by decide) (by decide)
     (by decide) []).1
     { id := 42, code := "CS10".toList, name := "Calc".toList, capacity := 10, enrolled := 1,
       credits := 3, faculty_id := 5, students := [3] }
     (by decide) 7 (by decide),
   (remove_course_not_found_both cascade_courses cascade_store (by decide) (by decide)
     (by decide) []).2 43 5 (by decide)⟩

/-! ## `add_student`, `add_faculty`: the file that cannot be opened, the record appended -/

/-- C17 (defect of the code): when the file cannot be opened,
`check_student_id_exists` and `check_faculty_id_exists` return FILE_ERROR, which
`add_student` and `add_faculty` test as a truth value: both return DUPLICATE_ID,
not FILE_ERROR, whatever the arguments, and no file is created. -/
theorem add_user_unopened_file_duplicate_id :
    (∀ (id : Int) (name email password : List Char) (active : Int),
      add_student none id name email password active = (DUPLICATE_ID, none)) ∧
    (∀ (id : Int) (name email password : List Char),
      add_faculty none id name email password = (DUPLICATE_ID, none)) ∧
    DUPLICATE_ID ≠ FILE_ERROR := by
  refine ⟨?_, ?_, by decide⟩
  · intro id name email password active
    simp [add_student, check_user_id_exists, FILE_ERROR]
  · intro id name email password
    simp [add_faculty, check_user_id_exists, FILE_ERROR]

theorem row_line_is_line (r : Row) (h : InInt r.id ∧ '\n' ∉ r.rest) (max_len : Nat)
    (hfit : r.line.length < max_len) :
    ∃ b, r.line = b ++ ['\n'] ∧ '\n' ∉ b ∧ b.length + 1 < max_len := by
  refine ⟨fmt_d r.id ++ ',' :: r.rest, by simp [Row.line], ?_, ?_⟩
  · intro hin
    rcases List.mem_append.mp hin with h1 | h1
    · exact fmt_d_no_newline r.id h1
    · rcases List.mem_cons.mp h1 with h2 | h2
      · cases h2
      · exact h.2 h2
  · have : r.line.length = (fmt_d r.id ++ ',' :: r.rest).length + 1 := by
      simp [Row.line]
      omega
    omega

theorem sscanf_id_row_line (r : Row) (h : InInt r.id) :
    sscanf [Conv.d true, Conv.lit ','] r.line = [Val.int r.id] := by
  unfold Row.line
  rw [sscanf_d _ _ _ h (NoDigitAhead_comma _), sscanf_lit, sscanf_nil]

theorem id_in_chunks_rows (id : Int) (rows : List Row) (hok : RowsOK rows)
    (hfresh : id ∉ rows.map (fun r => r.id)) :
    id_in_chunks id (rows.map Row.line) = false := by
  unfold id_in_chunks
  rw [List.any_eq_false]
  intro line hl
  obtain ⟨r, hr, rfl⟩ := List.mem_map.mp hl
  rw [sscanf_id_row_line r (hok r hr).1]
  have hne : r.id ≠ id := fun h => hfresh (List.mem_map.mpr ⟨r, hr, h⟩)
  simp [arg_int, hne]

/-- The id check finds nothing in a table of rows that fit the line buffer
when no row has the id; `hdr` is the header line, or nothing. -/
theorem id_in_chunks_fresh (max_len : Nat)
    (hmax : 1 ≤ max_len ∧ max_len < 18446744073709551616) (hdr : List Char)
    (hhdr : hdr = [] ∨ ((∃ b, hdr = b ++ ['\n'] ∧ '\n' ∉ b ∧ b.length + 1 < max_len) ∧
      sscanf [Conv.d true, Conv.lit ','] hdr = []))
    (rows : List Row) (hok : RowsOK rows) (hfit : ∀ r ∈ rows, r.line.length < max_len)
    (id : Int) (hfresh : id ∉ rows.map (fun r => r.id)) :
    id_in_chunks id (read_lines (hdr ++ rows_text rows) max_len) = false := by
  have hrows : ∀ l ∈ rows.map Row.line,
      ∃ b, l = b ++ ['\n'] ∧ '\n' ∉ b ∧ b.length + 1 < max_len := by
    intro l hl
    obtain ⟨r, hr, rfl⟩ := List.mem_map.mp hl
    exact row_line_is_line r (hok r hr) max_len (hfit r hr)
  rcases hhdr with rfl | ⟨hline, hscan⟩
  · have e : [] ++ rows_text rows = (rows.map Row.line).flatten := rfl
    rw [e, read_lines_lines max_len hmax _ hrows]
    exact id_in_chunks_rows id rows hok hfresh
  · have e : hdr ++ rows_text rows = (hdr :: rows.map Row.line).flatten := rfl
    rw [e, read_lines_lines max_len hmax _ (by
      intro l hl
      rcases List.mem_cons.mp hl with h | h
      · subst h; exact hline
      · exact hrows l h)]
    have := id_in_chunks_rows id rows hok hfresh
    unfold id_in_chunks at this ⊢
    rw [List.any_cons, this, hscan]
    rfl

theorem course_header_no_id :
    (∃ b, course_header = b ++ ['\n'] ∧ '\n' ∉ b ∧ b.length + 1 < MAX_LINE_LEN) ∧
      sscanf [Conv.d true, Conv.lit ','] course_header = [] :=
  ⟨⟨course_header_body, course_header_line, by decide, by decide⟩, by decide⟩

/-- C19, as stated (refuted): the codes of `full_store` are pairwise
distinct and no course has the id 43; `add_course(43, "CS101", ...)` returns
SUCCESS and appends a second record with the code CS101. -/
theorem add_course_repeats_code :
    full_store.courses = some (courses_table full_courses) ∧
    (full_courses.map (fun c => c.code)).Nodup ∧
    add_course full_store 43 "CS101".toList "Algo2".toList 30 4 5 =
      (SUCCESS, full_store_second_code) ∧
    full_store_second_code.courses = some (courses_table full_courses_second_code) ∧
    ¬ (full_courses_second_code.map (fun c => c.code)).Nodup := by
  refine ⟨by decide, by decide, by decide, by decide, by decide⟩

/-- C19, as amended: `add_course` checks the id only. Called with an id that
no row of the courses table has (rows that fit the line buffer, with or without
the header line in front), it appends the record
`id,code,name,capacity,0,credits,faculty_id,""` whatever the code is, also when
a row already has that code. -/
theorem add_course_appends_any_code (rows : List Row) (hok : RowsOK rows)
    (hfit : ∀ r ∈ rows, r.line.length < MAX_LINE_LEN) (st : Store) (hdr : List Char)
    (hh : hdr = [] ∨ hdr = course_header) (hst : st.courses = some (hdr ++ rows_text rows))
    (id : Int) (hfresh : id ∉ rows.map (fun r => r.id)) (code name : List Char)
    (capacity credits faculty_id : Int) :
    (add_course st id code name capacity credits faculty_id).2.courses =
      some (
        if hdr ++ rows_text rows = [] then
          course_header ++ new_course_record id code name capacity credits faculty_id
        else
          (hdr ++ rows_text rows) ++
            new_course_record id code name capacity credits faculty_id) := by
  have hchk := id_in_chunks_fresh MAX_LINE_LEN (by decide) hdr
    (hh.imp (fun h => h) (fun h => by rw [h]; exact course_header_no_id)) rows hok hfit id hfresh
  unfold add_course check_course_id_exists append_record
  rw [hst]
  simp only [hchk, Bool.false_eq_true, if_false, ne_eq, not_true_eq_false]

theorem add_course_appends_any_code_witness :
    (add_course full_store 43 "CS101".toList "Algo2".toList 30 4 5).2.courses =
      some ("id,code,course_name,capacity,enrolled,credits,f_id,students\n" ++
        "41,CS101,Algo,1,1,4,5,\"3\"\n" ++
        "42,MA1,Calc,10,1,3,5,\"9\"\n" ++
        "43,CS101,Algo2,30,0,4,5,\"\"\n").toList :=
  add_course_appends_any_code
    [{ id := 41, rest := "CS101,Algo,1,1,4,5,\"3\"".toList },
     { id := 42, rest := "MA1,Calc,10,1,3,5,\"9\"".toList }]
    (by decide) (by decide) full_store course_header (Or.inr rfl) (by decide) 43 (by decide)
    "CS101".toList "Algo2".toList 30 4 5

/-- C20 (defect of the code): the faculty table of `full_store` has no
record with the id 9 and no course has the id 43. `add_course(43, "PH1",
"Physics", 20, 3, 9)` returns USER_NOT_FOUND, yet the record of course 43 is in
the courses table afterwards, with a `faculty_id` that no faculty has: the
record is appended before `update_faculty_courses` looks for the faculty. With
a faculty table that cannot be opened the call returns FILE_ERROR and the
record is appended as well. -/
theorem add_course_unknown_faculty_appends :
    add_course full_store 43 "PH1".toList "Physics".toList 20 3 9 =
      (USER_NOT_FOUND, full_store_orphan) ∧
    add_course { full_store with faculty := none } 43 "PH1".toList "Physics".toList 20 3 9 =
      (FILE_ERROR, { full_store_orphan with faculty := none }) ∧
    full_store_orphan.courses ≠ full_store.courses := by
  refine ⟨by decide, by decide, by decide⟩

/-! ## The toggle, the long record, the missing header and the round trip -/

theorem scan_course_complete (line : List Char)
    (h : course_vals_complete (sscanf course_fmt line) = true) (v w : CourseVars) :
    scan_course line v = scan_course line w := by
  unfold scan_course
  generalize sscanf course_fmt line = vals at h
  unfold course_vals_complete at h
  split at h
  · rfl
  · cases h

/-- The result of `unenroll_course` does not depend on the first content of
its locals when the first course line fills all of them. -/
theorem unenroll_course_stack (st : Store) (sid cid : Int)
    (h : first_course_line_complete st = true) (a b : CourseVars) :
    unenroll_course st sid cid a = unenroll_course st sid cid b := by
  unfold first_course_line_complete at h
  unfold unenroll_course
  cases hc : st.courses with
  | none => rfl
  | some cfile =>
    rw [hc] at h
    simp only at h ⊢
    cases hl : (split_header cfile).2 with
    | nil => rfl
    | cons chunk rest =>
      rw [hl] at h
      simp only at h
      have e : unenroll_lookup_course sid cid (chunk :: rest) (unenroll_vars0 a) =
          unenroll_lookup_course sid cid (chunk :: rest) (unenroll_vars0 b) := by
        rw [unenroll_lookup_course, unenroll_lookup_course,
          scan_course_complete _ h (unenroll_vars0 a) (unenroll_vars0 b)]
      rw [e]

/-- C25 (defect of the code): on the well-formed table of `password_store`,
`update_user_details` with `field_choice` 4 and the empty value the client
sends returns SUCCESS and flips the flag, but the line it writes in place
ends after the flag (`"%d,%s,%s,%s,%d,\n"`), one byte longer than the head of
the old record: the first byte of the course list is overwritten by the
newline and the rest of the list stays behind as a line of its own (`S101`
for student 7, `A1` for student 8). -/
theorem update_user_details_toggle_cuts_courses :
    password_store.students = some (students_table password_students) ∧
    (∀ s ∈ password_students, StudentOK s) ∧
    update_user_details password_store.students 7 4 [] =
      some (SUCCESS, some ("id,name,email,password,active,enrolled_courses\n" ++
        "7,Amy,amy@x.com,pw1,0,\n" ++
        "S101\n" ++
        "8,Bob,bob@x.com,pw2,1,MA1\n").toList) ∧
    update_user_details password_store.students 8 4 [] =
      some (SUCCESS, some ("id,name,email,password,active,enrolled_courses\n" ++
        "7,Amy,amy@x.com,pw1,1,CS101\n" ++
        "8,Bob,bob@x.com,pw2,0,\n" ++
        "A1\n").toList) := by
  refine ⟨by decide, by decide, by decide, by decide⟩

set_option maxRecDepth 1000000 in
/-- C27 (defect of the code): the courses table of `long_store` holds one
record per line, the record of course 40 being 279 bytes long because of its
50 students. `enroll_course(9, 41)` returns SUCCESS and writes the record of
course 40 back as two lines: `read_line` hands it over in chunks of 255 and
24 bytes and the rewrite ends each chunk with a newline. -/
theorem enroll_course_splits_long_record :
    long_store.courses = some (courses_table long_courses) ∧
    long_courses.map (fun c => c.line.length) = [279, 26] ∧
    (∀ cid0, enroll_course long_store 9 41 cid0 = some (SUCCESS, long_store_after)) ∧
    long_store_after.courses ≠ some (courses_table (enroll_courses long_courses 9 41)) := by
  refine ⟨by decide, by decide, ?_, by decide⟩
  intro cid0
  rw [enroll_course_cid0 long_store 9 41 (by decide) cid0 0]
  decide

/-- C28 (defect of the code): `remove_course` drops the first line of the
courses table without looking at it. On `headerless_store`, whose first line
is the record of course 41 owned by faculty 5, `remove_course(41, 5)` returns
NOT_FOUND and changes nothing; the same call for course 42, on the second
line, returns SUCCESS. -/
theorem remove_course_headerless_first_record :
    (∀ enrolled0, remove_course headerless_store 41 5 enrolled0 =
      some (NOT_FOUND, headerless_store)) ∧
    (∀ enrolled0, remove_course headerless_store 42 5 enrolled0 =
      some (SUCCESS, headerless_store_after)) := by
  refine ⟨?_, ?_⟩
  · intro enrolled0
    rw [remove_course_enrolled0 headerless_store 41 5 (by decide) enrolled0 []]
    decide
  · intro enrolled0
    rw [remove_course_enrolled0 headerless_store 42 5 (by decide) enrolled0 []]
    decide

set_option maxRecDepth 1000000 in
/-- C29 (defect of the code): `guard_store` is well-formed, its records are
rendered in the format of `add_course` and `add_student`, and
`enroll_course(777, 41)` returns SUCCESS on it. The line it writes for course
41 has 259 bytes; the following `unenroll_course(777, 41)` reads its list up to
`...,1043,7`, does not find 777, returns NOT_ENROLLED and leaves both tables as
the enrollment wrote them. -/
theorem unenroll_after_enroll_not_enrolled :
    WellFormed guard_courses guard_students ∧
    guard_store = store_of guard_courses guard_students none none ∧
    (∀ cid0, enroll_course guard_store 777 41 cid0 = some (SUCCESS, guard_store_once)) ∧
    (∀ stack, unenroll_course guard_store_once 777 41 stack =
      some (NOT_ENROLLED, guard_store_once)) ∧
    guard_store_once ≠ guard_store := by
  refine ⟨by decide, rfl, ?_, ?_, by decide⟩
  · intro cid0
    rw [enroll_course_cid0 guard_store 777 41 (by decide) cid0 0]
    decide
  · intro stack
    rw [unenroll_course_stack guard_store_once 777 41 (by decide) stack (enroll_vars0 0)]
    decide

/-! ## `read_line`: the chunks of a file -/

theorem read_line_loop_longest : ∀ (n : Nat) (inp : List Char),
    (read_line_loop n inp).1 = longest_line_prefix inp n := by
  intro n
  induction n with
  | zero => intro inp; simp [read_line_loop, longest_line_prefix]
  | succ n ih =>
    intro inp
    cases inp with
    | nil => simp [read_line_loop, longest_line_prefix]
    | cons c cs =>
      by_cases hc : c = '\n'
      · subst hc
        simp [read_line_loop, longest_line_prefix]
      · have hc' : ¬ '\n' = c := fun h => hc h.symm
        simp only [read_line_loop, if_neg hc]
        rw [ih cs]
        unfold longest_line_prefix
        simp only [List.take_succ_cons, List.mem_cons, hc', false_or]
        split_ifs
        · simp [List.takeWhile_cons, hc]
        · rfl

theorem read_line_loop_append : ∀ (n : Nat) (inp : List Char),
    (read_line_loop n inp).1 ++ (read_line_loop n inp).2 = inp := by
  intro n
  induction n with
  | zero => intro inp; simp [read_line_loop]
  | succ n ih =>
    intro inp
    cases inp with
    | nil => simp [read_line_loop]
    | cons c cs =>
      by_cases hc : c = '\n'
      · simp [read_line_loop, hc]
      · simp [read_line_loop, hc, ih cs]

theorem read_line_loop_chunk_length : ∀ (n : Nat) (inp : List Char),
    (read_line_loop n inp).1.length ≤ n := by
  intro n
  induction n with
  | zero => intro inp; simp [read_line_loop]
  | succ n ih =>
    intro inp
    cases inp with
    | nil => simp [read_line_loop]
    | cons c cs =>
      by_cases hc : c = '\n'
      · simp [read_line_loop, hc]
      · simp [read_line_loop, hc, ih cs]

theorem read_line_loop_newline_last : ∀ (n : Nat) (inp : List Char),
    '\n' ∉ (read_line_loop n inp).1.dropLast := by
  intro n
  induction n with
  | zero => intro inp; simp [read_line_loop]
  | succ n ih =>
    intro inp
    cases inp with
    | nil => simp [read_line_loop]
    | cons c cs =>
      by_cases hc : c = '\n'
      · simp [read_line_loop, hc]
      · simp only [read_line_loop, if_neg hc]
        cases hr : (read_line_loop n cs).1 with
        | nil => simp
        | cons x xs =>
          have h := ih cs
          rw [hr] at h
          rw [List.dropLast_cons₂, List.mem_cons]
          rintro (h1 | h1)
          · exact hc h1.symm
          · exact h h1

theorem read_lines_fuel_chunks (max_len : Nat)
    (hmax : 2 ≤ max_len ∧ max_len < 18446744073709551616) :
    ∀ (fuel : Nat) (inp : List Char), inp.length ≤ fuel →
      (∀ chunk ∈ read_lines_fuel max_len fuel inp,
        chunk ≠ [] ∧ chunk.length ≤ max_len - 1 ∧ '\n' ∉ chunk.dropLast) ∧
      (read_lines_fuel max_len fuel inp).flatten = inp := by
  have hn : (max_len + 18446744073709551616 - 1) % 18446744073709551616 = max_len - 1 := by
    omega
  intro fuel
  induction fuel with
  | zero =>
    intro inp h
    have : inp = [] := List.length_eq_zero.mp (Nat.le_zero.mp h)
    subst this
    simp [read_lines_fuel]
  | succ fuel ih =>
    intro inp h
    cases inp with
    | nil => simp [read_lines_fuel, read_line_nil]
    | cons c cs =>
      have hne : (read_line (c :: cs) max_len).1 ≠ [] := by
        unfold read_line
        rw [hn]
        exact read_line_loop_ne_nil _ (by omega) c cs
      have happ : (read_line (c :: cs) max_len).1 ++ (read_line (c :: cs) max_len).2 = c :: cs :=
        read_line_loop_append _ _
      have hlen : (read_line (c :: cs) max_len).2.length ≤ fuel := by
        have h1 := congrArg List.length happ
        rw [List.length_append] at h1
        have h2 : 0 < (read_line (c :: cs) max_len).1.length := List.length_pos.mpr hne
        omega
      obtain ⟨ih1, ih2⟩ := ih _ hlen
      simp only [read_lines_fuel, if_neg hne]
      refine ⟨?_, ?_⟩
      · intro chunk hchunk
        rcases List.mem_cons.mp hchunk with h1 | h1
        · rw [h1]
          refine ⟨hne, ?_, read_line_loop_newline_last _ _⟩
          unfold read_line
          rw [hn]
          exact read_line_loop_chunk_length _ _
        · exact ih1 chunk h1
      · rw [List.flatten_cons, ih2, happ]

/-- C30: for every input and every `max_len` of at least 2 (a `size_t`),
`read_line` stores the longest prefix of the unread input of at most
`max_len - 1` bytes that stops at and includes the first newline, the stored
bytes and the unread rest make up the input, and the length returned is 0
exactly when the input is exhausted. The chunks of repeated calls are not
empty, have at most `max_len - 1` bytes, hold a newline only as last byte, and
their concatenation is the input; the call after the last chunk returns 0. -/
theorem read_line_chunks (inp : List Char) (max_len : Nat)
    (hmax : 2 ≤ max_len ∧ max_len < 18446744073709551616) :
    (read_line inp max_len).1 = longest_line_prefix inp (max_len - 1) ∧
    (read_line inp max_len).1 ++ (read_line inp max_len).2 = inp ∧
    ((read_line inp max_len).1.length = 0 ↔ inp = []) ∧
    (∀ chunk ∈ read_lines inp max_len,
      chunk ≠ [] ∧ chunk.length ≤ max_len - 1 ∧ '\n' ∉ chunk.dropLast) ∧
    (read_lines inp max_len).flatten = inp ∧
    (read_line [] max_len).1.length = 0 := by
  have hn : (max_len + 18446744073709551616 - 1) % 18446744073709551616 = max_len - 1 := by
    omega
  refine ⟨?_, read_line_loop_append _ _, ?_,
    (read_lines_fuel_chunks max_len hmax _ inp (le_refl _)).1,
    (read_lines_fuel_chunks max_len hmax _ inp (le_refl _)).2, ?_⟩
  · unfold read_line
    rw [hn]
    exact read_line_loop_longest _ _
  · constructor
    · intro h
      cases inp with
      | nil => rfl
      | cons c cs =>
        exfalso
        have hne : (read_line (c :: cs) max_len).1 ≠ [] := by
          unfold read_line
          rw [hn]
          exact read_line_loop_ne_nil _ (by omega) c cs
        exact hne (List.length_eq_zero.mp h)
    · intro h
      subst h
      rw [read_line_nil]
      rfl
  · rw [read_line_nil]
    rfl

/-- Witness of C30: a file of three lines read with a buffer of 8 bytes. -/
theorem read_line_chunks_witness :
    (2 ≤ 8 ∧ 8 < 18446744073709551616) ∧
    (read_line "id,name\n7,Amy\n8".toList 8).1 = longest_line_prefix "id,name\n7,Amy\n8".toList 7 ∧
    (read_lines "id,name\n7,Amy\n8".toList 8).flatten = "id,name\n7,Amy\n8".toList :=
  ⟨by omega, (read_line_chunks "id,name\n7,Amy\n8".toList 8 (by omega)).1,
    (read_line_chunks "id,name\n7,Amy\n8".toList 8 (by omega)).2.2.2.2.1⟩

/-! ## The business statuses of `enroll_course` and `unenroll_course` -/

theorem strtok_step_field (delims f rest : List Char) (hne : f ≠ []) (hf : Avoids delims f)
    (d : Char) (hd : d ∈ delims) :
    strtok_step delims (f ++ d :: rest) = (some f, rest) := by
  obtain ⟨c, f', rfl⟩ := List.exists_cons_of_ne_nil hne
  have hc : c ∉ delims := hf c (List.mem_cons_self _ _)
  have hstop : StopAhead delims (d :: rest) := StopAhead_cons _ _ _ hd
  have hlead : ((c :: f') ++ d :: rest).dropWhile (fun c => delims.contains c) =
      (c :: f') ++ d :: rest := by
    simp [List.dropWhile_cons, hc]
  unfold strtok_step
  rw [hlead, takeWhile_avoid_append delims (c :: f') _ hf hstop,
    dropWhile_avoid_append delims (c :: f') _ hf hstop]
  simp

theorem change_password_line_user (u : User) (hu : UserOK FACULTY u) (id : Int)
    (p : List Char) :
    change_password_line id p (user_line FACULTY u) =
      if u.id = id then (change_password_bytes (password_line u p)).map (fun data => (data, true))
      else some (user_line FACULTY u, false) := by
  obtain ⟨hid, hname, _, hemail, _, hpass, _, _, hextra, _⟩ := hu
  have a0 : Avoids [','] (fmt_d u.id) := Avoids_fmt_d [','] u.id (by decide)
  have s1 := strtok_step_field [','] (fmt_d u.id)
    (u.name ++ ',' :: (u.email ++ ',' :: (u.password ++ ',' :: (u.extra ++ ['\n']))))
    (fmt_d_ne_nil u.id) a0 ',' (by simp)
  have s2 := strtok_step_field [','] u.name
    (u.email ++ ',' :: (u.password ++ ',' :: (u.extra ++ ['\n'])))
    hname.1 (Field_avoids_comma _ hname) ',' (by simp)
  have s3 := strtok_step_field [','] u.email (u.password ++ ',' :: (u.extra ++ ['\n']))
    hemail.1 (Field_avoids_comma _ hemail) ',' (by simp)
  have s4 := strtok_step_field [','] u.password (u.extra ++ ['\n'])
    hpass.1 (Field_avoids_comma _ hpass) ',' (by simp)
  unfold change_password_line
  rw [user_line_faculty, s1]
  simp only [s2, s3, s4, atoi_fmt_d u.id hid]
  by_cases h : u.id = id
  · rw [if_pos h, if_pos h]
    by_cases he : u.extra = []
    · have s5 : strtok_step ['\n'] (u.extra ++ ['\n']) = (none, []) := by
        rw [he]; decide
      rw [s5]
      simp [change_password_record, password_line, he]
    · have s5 := strtok_step_field ['\n'] u.extra [] he
        (by intro c hc hm; simp at hm; subst hm; exact hextra hc) '\n' (by simp)
      rw [s5]
      simp [change_password_record, password_line, he, faculty_record]
  · rw [if_neg h, if_neg h]

theorem user_line_not_header (role : Int) (u : User) :
    (user_line role u).take 3 ≠ ['i', 'd', ','] := by
  obtain ⟨d, tl, hd, hch⟩ := user_line_head role u
  rw [hd]
  intro hh
  have : d = 'i' := by
    simp only [List.take_succ_cons, List.cons.injEq] at hh
    exact hh.1
  subst this
  rcases hch with h | h
  · exact absurd h (by decide)
  · exact absurd h (by decide)

theorem change_password_loop_users (id : Int) (p : List Char) (users : List User)
    (hu : ∀ u ∈ users, UserOK FACULTY u)
    (hfit : ∀ u ∈ users, u.id = id → (password_line u p).length < MAX_LINE_LEN) :
    change_password_loop id p (users.map (user_line FACULTY)) =
      some ((users.map
          (fun u => if u.id = id then password_line u p else user_line FACULTY u)).flatten,
        decide (∃ u ∈ users, u.id = id)) := by
  induction users with
  | nil => simp [change_password_loop]
  | cons u rest ih =>
    have ih' := ih (fun u' hu' => hu u' (List.mem_cons_of_mem _ hu'))
      (fun u' hu' => hfit u' (List.mem_cons_of_mem _ hu'))
    rw [List.map_cons, change_password_loop, if_neg (user_line_not_header FACULTY u),
      change_password_line_user u (hu u (List.mem_cons_self _ _)), ih']
    by_cases h : u.id = id
    · have hlen := hfit u (List.mem_cons_self _ _) h
      simp [h, change_password_bytes, hlen]
    · simp [h]

theorem read_lines_users_table (hdr : List Char) (hh : HeaderOK hdr) (users : List User)
    (hu : ∀ u ∈ users, UserOK FACULTY u) :
    read_lines (users_table FACULTY hdr users) MAX_LINE_LEN =
      (if hdr = [] then [] else [hdr]) ++ users.map (user_line FACULTY) := by
  have hlines : ∀ l ∈ users.map (user_line FACULTY),
      ∃ b, l = b ++ ['\n'] ∧ '\n' ∉ b ∧ b.length + 1 < MAX_LINE_LEN := by
    intro l hl
    obtain ⟨u, hu', rfl⟩ := List.mem_map.mp hl
    obtain ⟨b, h1, h2, h3⟩ := user_line_is_line FACULTY (Or.inr (Or.inr rfl)) u (hu u hu')
    exact ⟨b, h1, h2, by unfold MAX_LINE_LEN; omega⟩
  unfold users_table
  rcases hh with rfl | ⟨⟨body, hb, hnl⟩, h3, hlen⟩
  · rw [List.nil_append, read_lines_lines MAX_LINE_LEN (by decide) _ hlines]
    simp
  · have hne : hdr ≠ [] := by rw [hb]; simp
    have hall : ∀ l ∈ hdr :: users.map (user_line FACULTY),
        ∃ b, l = b ++ ['\n'] ∧ '\n' ∉ b ∧ b.length + 1 < MAX_LINE_LEN := by
      intro l hl
      rcases List.mem_cons.mp hl with h | h
      · rw [h]
        refine ⟨body, hb, hnl, ?_⟩
        rw [hb] at hlen
        simp only [List.length_append, List.length_cons, List.length_nil] at hlen
        unfold MAX_LINE_LEN
        omega
      · exact hlines l h
    have := read_lines_lines MAX_LINE_LEN (by decide) _ hall
    rw [List.flatten_cons] at this
    rw [this, if_neg hne]
    rfl

set_option maxRecDepth 1000000 in
/-- C21, as stated (refuted): `plain_faculty` is a well-formed
faculty table and `long_password` is a non-empty password of 491 bytes `x`.
With it the record of faculty 5 takes 512 bytes, one more than `snprintf`
stores in `new_line`; `change_password` returns SUCCESS and writes the 511
bytes stored and the terminating NUL, so the record loses its newline and the
record of faculty 6 is no longer a line of its own. -/
theorem change_password_long_password_merges_lines :
    plain_faculty = users_table FACULTY faculty_header plain_faculty_records ∧
    HeaderOK faculty_header ∧ (∀ u ∈ plain_faculty_records, UserOK FACULTY u) ∧
    (long_password ≠ [] ∧ PlainField long_password) ∧
    change_password (some plain_faculty) 5 long_password =
      some (SUCCESS, some plain_faculty_long) ∧
    plain_faculty_long ≠ faculty_header ++ (plain_faculty_records.map (fun u =>
      if u.id = 5 then password_line u long_password else user_line FACULTY u)).flatten := by
  refine ⟨by decide, Or.inr ⟨⟨"id,name,email,password,offered_courses".toList, by decide,
    by decide⟩, by decide, by decide⟩, by decide, by decide, by decide, by decide⟩

/-- C21 (amended): on a well-formed faculty table, for a new password `p` with
which the record of `id` still fits the 511 bytes of the line buffer,
`change_password` returns SUCCESS when a record has the id and yields the
header and the lines of the table in their order, the record of `id` now with
the password `p` and its id, name, email and list of courses, every other line
as it was (for a record without courses the line ends after the password);
when no record has the id it returns NOT_FOUND and the table is unchanged. -/
theorem change_password_rewrites_record (hdr : List Char) (users : List User)
    (hh : HeaderOK hdr) (hu : ∀ u ∈ users, UserOK FACULTY u) (id : Int) (p : List Char)
    (hfit : ∀ u ∈ users, u.id = id → (password_line u p).length < MAX_LINE_LEN) :
    ((∃ u ∈ users, u.id = id) →
      change_password (some (users_table FACULTY hdr users)) id p =
        some (SUCCESS, some (hdr ++ (users.map (fun u =>
          if u.id = id then password_line u p else user_line FACULTY u)).flatten))) ∧
    ((∀ u ∈ users, u.id ≠ id) →
      change_password (some (users_table FACULTY hdr users)) id p =
        some (NOT_FOUND, some (users_table FACULTY hdr users))) ∧
    (∀ u : User, u.extra ≠ [] →
      password_line u p = user_line FACULTY { u with password := p }) ∧
    (∀ u : User, u.extra = [] →
      password_line u p = user_line ADMIN { u with password := p }) := by
  have hloop := change_password_loop_users id p users hu hfit
  have hchunks := read_lines_users_table hdr hh users hu
  have hrun : change_password_loop id p (read_lines (users_table FACULTY hdr users)
      MAX_LINE_LEN) = some (hdr ++ (users.map (fun u =>
        if u.id = id then password_line u p else user_line FACULTY u)).flatten,
        decide (∃ u ∈ users, u.id = id)) := by
    rw [hchunks]
    rcases hh with rfl | ⟨_, h3, _⟩
    · simp only [if_true, List.nil_append]
      exact hloop
    · have hne : hdr ≠ [] := by
        intro h
        rw [h] at h3
        exact absurd h3 (by decide)
      rw [if_neg hne, List.singleton_append, change_password_loop, if_pos h3, hloop]
      rfl
  refine ⟨?_, ?_, ?_, ?_⟩
  · intro hex
    unfold change_password
    simp only [hrun, decide_eq_true hex, if_true]
  · intro hno
    have hnot : ¬ ∃ u ∈ users, u.id = id := by
      rintro ⟨u, hu', h⟩
      exact hno u hu' h
    unfold change_password
    simp only [hrun, decide_eq_false hnot]
    rfl
  · intro u he
    have h1 : FACULTY ≠ STUDENT := by decide
    simp [password_line, user_line, he, h1]
  · intro u he
    have h1 : ADMIN ≠ STUDENT := by decide
    have h2 : ADMIN ≠ FACULTY := by decide
    simp [password_line, user_line, he, h1, h2]

/-- Witness of C21 (amended): the password of faculty 5 of `plain_faculty`
becomes `newpw`. -/
theorem change_password_rewrites_record_witness :
    HeaderOK faculty_header ∧ (∀ u ∈ plain_faculty_records, UserOK FACULTY u) ∧
    (∀ u ∈ plain_faculty_records, u.id = 5 →
      (password_line u "newpw".toList).length < MAX_LINE_LEN) ∧
    ((∃ u ∈ plain_faculty_records, u.id = 5) →
      change_password (some (users_table FACULTY faculty_header plain_faculty_records)) 5
          "newpw".toList =
        some (SUCCESS, some (faculty_header ++ (plain_faculty_records.map (fun u =>
          if u.id = 5 then password_line u "newpw".toList
          else user_line FACULTY u)).flatten))) :=
  ⟨Or.inr ⟨⟨"id,name,email,password,offered_courses".toList, by decide, by decide⟩,
      by decide, by decide⟩, by decide, by decide,
    (change_password_rewrites_record faculty_header plain_faculty_records
      (Or.inr ⟨⟨"id,name,email,password,offered_courses".toList, by decide, by decide⟩,
        by decide, by decide⟩) (by decide) 5 "newpw".toList (by decide)).1⟩

/-! ## The calls on the table files -/

theorem replay_append (st : Store) (a b : List Call) :
    replay st (a ++ b) = replay (replay st a) b := by
  unfold replay
  rw [List.foldl_append]

theorem replay_nil (st : Store) : replay st [] = st := rfl

theorem replay_scan_calls (st : Store) (t : Table) : replay st (scan_calls t) = st := rfl

theorem replay_write_back_calls (st : Store) (t : Table) (data : List Char) :
    replay st (write_back_calls t data) = set_table st t (some data) := by
  cases t <;> rfl

/-- The files after the calls of `enroll_course` are the store the function
leaves. -/
theorem enroll_course_replay (st : Store) (sid cid cid0 status : Int) (st' : Store)
    (h : enroll_course st sid cid cid0 = some (status, st')) :
    replay st (enroll_course_calls st sid cid cid0) = st' := by
  unfold enroll_course at h
  unfold enroll_course_calls
  cases hc : st.courses with
  | none =>
    rw [hc] at h
    simp only [Option.some.injEq, Prod.mk.injEq] at h
    exact h.2
  | some cfile =>
    rw [hc] at h
    simp only at h ⊢
    rw [replay_append, replay_scan_calls]
    cases hL : enroll_lookup_course sid cid (split_header cfile).2 (enroll_vars0 cid0) with
    | ret s =>
      rw [hL] at h
      simp only [Option.some.injEq, Prod.mk.injEq] at h
      exact h.2
    | done found v =>
      rw [hL] at h
      cases found with
      | false =>
        simp only [Option.some.injEq, Prod.mk.injEq] at h
        exact h.2
      | true =>
        simp only at h ⊢
        cases hs : st.students with
        | none =>
          rw [hs] at h
          simp only [Option.some.injEq, Prod.mk.injEq] at h
          exact h.2
        | some sfile =>
          rw [hs] at h
          simp only at h ⊢
          rw [replay_append, replay_scan_calls]
          cases hS : enroll_lookup_student sid v.course_code (read_lines sfile MAX_LINE) [] with
          | ret s =>
            rw [hS] at h
            simp only [Option.some.injEq, Prod.mk.injEq] at h
            exact h.2
          | done found u =>
            rw [hS] at h
            cases found with
            | false =>
              simp only [Option.some.injEq, Prod.mk.injEq] at h
              exact h.2
            | true =>
              simp only at h ⊢
              cases hC : enroll_rewrite_courses sid cid v (split_header cfile).2
                  (split_header cfile).1 with
              | undefined => rw [hC] at h; cases h
              | ret s =>
                rw [hC] at h
                simp only [Option.some.injEq, Prod.mk.injEq] at h
                exact h.2
              | ok out_c =>
                rw [hC] at h
                simp only at h ⊢
                cases hR : enroll_rewrite_students sid v.course_code (split_header sfile).2
                    (split_header sfile).1 with
                | undefined => rw [hR] at h; cases h
                | ret s =>
                  rw [hR] at h
                  simp only [Option.some.injEq, Prod.mk.injEq] at h
                  rw [← h.2]
                  simp [replay, apply_call, write_back_calls, set_table, table_of, hs]
                | ok out_s =>
                  rw [hR] at h
                  simp only [Option.some.injEq, Prod.mk.injEq] at h
                  rw [← h.2]
                  simp [replay, apply_call, write_back_calls, set_table, table_of, hs]

/-- The files after the calls of `unenroll_course` are the store the function
leaves. -/
theorem unenroll_course_replay (st : Store) (sid cid : Int) (stack : CourseVars)
    (status : Int) (st' : Store)
    (h : unenroll_course st sid cid stack = some (status, st')) :
    replay st (unenroll_course_calls st sid cid stack) = st' := by
  unfold unenroll_course at h
  unfold unenroll_course_calls
  cases hc : st.courses with
  | none =>
    rw [hc] at h
    simp only [Option.some.injEq, Prod.mk.injEq] at h
    exact h.2
  | some cfile =>
    rw [hc] at h
    simp only at h ⊢
    rw [replay_append, replay_scan_calls]
    cases hL : unenroll_lookup_course sid cid (split_header cfile).2 (unenroll_vars0 stack) with
    | ret s =>
      rw [hL] at h
      simp only [Option.some.injEq, Prod.mk.injEq] at h
      exact h.2
    | done found v =>
      rw [hL] at h
      cases found with
      | false =>
        simp only [Option.some.injEq, Prod.mk.injEq] at h
        exact h.2
      | true =>
        simp only at h ⊢
        cases hs : st.students with
        | none =>
          rw [hs] at h
          simp only [Option.some.injEq, Prod.mk.injEq] at h
          exact h.2
        | some sfile =>
          rw [hs] at h
          simp only at h ⊢
          rw [replay_append, replay_scan_calls]
          cases hS : unenroll_lookup_student sid v.course_code (read_lines sfile MAX_LINE) [] with
          | ret s =>
            rw [hS] at h
            simp only [Option.some.injEq, Prod.mk.injEq] at h
            exact h.2
          | done found u =>
            rw [hS] at h
            cases found with
            | false =>
              simp only [Option.some.injEq, Prod.mk.injEq] at h
              exact h.2
            | true =>
              simp only at h ⊢
              cases hC : unenroll_rewrite_courses sid cid v (split_header cfile).2
                  (split_header cfile).1 with
              | undefined => rw [hC] at h; cases h
              | ret s =>
                rw [hC] at h
                simp only [Option.some.injEq, Prod.mk.injEq] at h
                exact h.2
              | ok out_c =>
                rw [hC] at h
                simp only at h ⊢
                cases hR : unenroll_rewrite_students sid v.course_code (split_header sfile).2
                    (split_header sfile).1 with
                | undefined => rw [hR] at h; cases h
                | ret s =>
                  rw [hR] at h
                  simp only [Option.some.injEq, Prod.mk.injEq] at h
                  rw [← h.2]
                  simp [replay, apply_call, write_back_calls, set_table, table_of, hs]
                | ok out_s =>
                  rw [hR] at h
                  simp only [Option.some.injEq, Prod.mk.injEq] at h
                  rw [← h.2]
                  simp [replay, apply_call, write_back_calls, set_table, table_of, hs]

/-- The files after the calls of `update_faculty_courses` hold the faculty
table the function leaves. -/
theorem update_faculty_courses_replay (st : Store) (fid : Int) (code : List Char) (add : Bool) :
    replay st (update_faculty_courses_calls st.faculty fid code add) =
      { st with faculty := (update_faculty_courses st.faculty fid code add).2 } := by
  unfold update_faculty_courses_calls update_faculty_courses
  cases hf : st.faculty with
  | none =>
    cases st
    simp only at hf
    simp [replay, hf]
  | some file =>
    simp only
    split_ifs with hu
    · simp [replay, apply_call, set_table]
    · cases st
      simp only at hf
      simp [replay, apply_call, hf]

/-- The files after the calls of `add_course` are the store the function
leaves. -/
theorem add_course_replay (st : Store) (id : Int) (code name : List Char)
    (capacity credits fid : Int) :
    replay st (add_course_calls st id code name capacity credits fid) =
      (add_course st id code name capacity credits fid).2 := by
  have hscan : replay st (match st.courses with
      | none => []
      | some _ => scan_calls Table.courses) = st := by
    cases st.courses <;> rfl
  unfold add_course_calls add_course
  rw [replay_append, hscan]
  by_cases hd : check_course_id_exists st.courses id ≠ 0
  · rw [if_pos hd, if_pos hd]
    rfl
  · rw [if_neg hd, if_neg hd, replay_append]
    have hw : replay st [Call.open_rdwr Table.courses, Call.lock_exclusive Table.courses,
        Call.unlock Table.courses,
        Call.write Table.courses
          (if st.courses.getD [] = [] then
            course_header ++ new_course_record id code name capacity credits fid
          else new_course_record id code name capacity credits fid),
        Call.close Table.courses] =
        { st with courses := some (append_record st.courses course_header
          (new_course_record id code name capacity credits fid)) } := by
      cases hc : st.courses with
      | none => simp [replay, apply_call, set_table, table_of, append_record, hc]
      | some content =>
        by_cases he : content = []
        · simp [replay, apply_call, set_table, table_of, append_record, hc, he]
        · simp [replay, apply_call, set_table, table_of, append_record, hc, he]
    rw [hw]
    exact update_faculty_courses_replay _ fid code true

/-- The files after the calls of `remove_course` are the store the function
leaves. -/
theorem remove_course_replay (st : Store) (id fid : Int) (enrolled0 : List Char)
    (status : Int) (st' : Store) (h : remove_course st id fid enrolled0 = some (status, st')) :
    replay st (remove_course_calls st id fid enrolled0) = st' := by
  unfold remove_course at h
  unfold remove_course_calls
  cases hc : st.courses with
  | none =>
    rw [hc] at h
    simp only [Option.some.injEq, Prod.mk.injEq] at h
    exact h.2
  | some cfile =>
    rw [hc] at h
    simp only at h ⊢
    cases hL : remove_lookup_course id fid (read_lines cfile MAX_LINE_LEN).tail [] with
    | ret s =>
      rw [hL] at h
      simp only [Option.some.injEq, Prod.mk.injEq] at h
      exact h.2
    | done found v =>
      rw [hL] at h
      obtain ⟨course_code, students_list⟩ := v
      cases found with
      | false =>
        simp only [Option.some.injEq, Prod.mk.injEq] at h
        exact h.2
      | true =>
        simp only at h ⊢
        cases hK : remove_cascade st.students course_code students_list enrolled0 with
        | none => rw [hK] at h; cases h
        | some students1 =>
          rw [hK] at h
          simp only [Option.some.injEq, Prod.mk.injEq] at h
          rw [← h.2]
          have hcas : (remove_cascade_calls st.students course_code students_list enrolled0).2
                = true ∧
              replay st ([Call.open_rdwr Table.courses, Call.lock_exclusive Table.courses] ++
                (remove_cascade_calls st.students course_code students_list enrolled0).1) =
                { st with students := students1 } := by
            unfold remove_cascade at hK
            unfold remove_cascade_calls
            split_ifs at hK ⊢ with h0
            · simp only [Option.some.injEq] at hK
              refine ⟨rfl, ?_⟩
              cases st
              simp only at hK
              simp [replay, apply_call, hK]
            · cases hst : st.students with
              | none =>
                rw [hst] at hK
                simp only [Option.some.injEq] at hK
                refine ⟨rfl, ?_⟩
                cases st
                simp only at hst
                simp [replay, apply_call, hst, ← hK]
              | some file =>
                rw [hst] at hK
                simp only at hK ⊢
                cases hloop : remove_cascade_loop course_code
                    (read_lines file MAX_LINE_LEN).tail enrolled0 with
                | none => rw [hloop] at hK; simp at hK
                | some out =>
                  rw [hloop] at hK
                  simp only [Option.map_some', Option.some.injEq] at hK
                  refine ⟨rfl, ?_⟩
                  simp [replay, apply_call, set_table, ← hK]
          rw [if_pos hcas.1, ← List.append_assoc, replay_append, hcas.2, replay_append]
          have hr : replay { st with students := students1 }
              [Call.close Table.courses, Call.rename Table.courses (remove_course_lines id cfile)]
              = { st with students := students1,
                          courses := some (remove_course_lines id cfile) } := by
            simp [replay, apply_call, set_table]
          rw [hr]
          have := update_faculty_courses_replay
            { st with students := students1, courses := some (remove_course_lines id cfile) }
            fid course_code false
          simp only at this
          rw [this]

/-- The files after the calls of `change_password` hold the faculty table the
function leaves. -/
theorem change_password_replay (st : Store) (id : Int) (p : List Char) (status : Int)
    (file' : Option (List Char)) (h : change_password st.faculty id p = some (status, file')) :
    replay st (change_password_calls st.faculty id p) = { st with faculty := file' } := by
  unfold change_password at h
  unfold change_password_calls
  cases hf : st.faculty with
  | none =>
    rw [hf] at h
    simp only [Option.some.injEq, Prod.mk.injEq] at h
    cases st
    simp only at hf
    simp [replay, hf, ← h.2]
  | some content =>
    rw [hf] at h
    simp only at h ⊢
    cases hl : change_password_loop id p (read_lines content MAX_LINE_LEN) with
    | none => rw [hl] at h; cases h
    | some r =>
      obtain ⟨out, found⟩ := r
      rw [hl] at h
      simp only at h ⊢
      cases found with
      | true =>
        simp only [if_true, Option.some.injEq, Prod.mk.injEq] at h
        simp [replay, apply_call, set_table, ← h.2]
      | false =>
        simp only [Bool.false_eq_true, if_false, Option.some.injEq, Prod.mk.injEq] at h
        cases st
        simp only at hf
        simp [replay, apply_call, hf, ← h.2]

/-! ## The order of the rewrites, the locks and the states between the calls -/

/-- The calls of `enroll_course` do not depend on the first content of `cid`
when the first course line starts with a number. -/
theorem enroll_course_calls_cid0 (st : Store) (sid cid : Int)
    (h : first_course_line_numbered st = true) (a b : Int) :
    enroll_course_calls st sid cid a = enroll_course_calls st sid cid b := by
  unfold first_course_line_numbered at h
  unfold enroll_course_calls
  cases hc : st.courses with
  | none => rfl
  | some cfile =>
    rw [hc] at h
    simp only at h ⊢
    cases hl : (split_header cfile).2 with
    | nil => rfl
    | cons chunk rest =>
      rw [hl] at h
      simp only [decide_eq_true_eq] at h
      have e : enroll_lookup_course sid cid (chunk :: rest) (enroll_vars0 a) =
          enroll_lookup_course sid cid (chunk :: rest) (enroll_vars0 b) := by
        rw [enroll_lookup_course, enroll_lookup_course, scan_course_cid0 _ h a b]
      rw [e]

/-- The calls of `unenroll_course` do not depend on the first content of its
locals when the first course line fills all of them. -/
theorem unenroll_course_calls_stack (st : Store) (sid cid : Int)
    (h : first_course_line_complete st = true) (a b : CourseVars) :
    unenroll_course_calls st sid cid a = unenroll_course_calls st sid cid b := by
  unfold first_course_line_complete at h
  unfold unenroll_course_calls
  cases hc : st.courses with
  | none => rfl
  | some cfile =>
    rw [hc] at h
    simp only at h ⊢
    cases hl : (split_header cfile).2 with
    | nil => rfl
    | cons chunk rest =>
      rw [hl] at h
      simp only at h
      have e : unenroll_lookup_course sid cid (chunk :: rest) (unenroll_vars0 a) =
          unenroll_lookup_course sid cid (chunk :: rest) (unenroll_vars0 b) := by
        rw [unenroll_lookup_course, unenroll_lookup_course,
          scan_course_complete _ h (unenroll_vars0 a) (unenroll_vars0 b)]
      rw [e]

/-- The calls of `remove_course` do not depend on the first content of
`enrolled_courses` when the first student row stores its sixth field. -/
theorem remove_course_calls_enrolled0 (st : Store) (id fid : Int)
    (h : first_student_row_lists_courses st = true) (a b : List Char) :
    remove_course_calls st id fid a = remove_course_calls st id fid b := by
  have e : ∀ code list, remove_cascade_calls st.students code list a =
      remove_cascade_calls st.students code list b := by
    intro code list
    unfold remove_cascade_calls
    unfold first_student_row_lists_courses at h
    cases hs : st.students with
    | none => rfl
    | some file =>
      rw [hs] at h
      simp only at h ⊢
      cases hl : (read_lines file MAX_LINE_LEN).tail with
      | nil => rfl
      | cons chunk rest =>
        rw [hl] at h
        simp only at h
        cases h5 : (sscanf student_fmt (cut_at ['\n'] chunk)).get? 5 with
        | none => rw [h5] at h; simp at h
        | some v =>
          cases v with
          | int n => rw [h5] at h; simp at h
          | str s =>
            have el : remove_cascade_loop code (chunk :: rest) a =
                remove_cascade_loop code (chunk :: rest) b := by
              unfold remove_cascade_loop
              simp only [arg_str_of_get _ 5 s h5]
            rw [el]
  unfold remove_course_calls
  simp only [e]

theorem commits_append (a b : List Call) : commits (a ++ b) = commits a ++ commits b := by
  unfold commits
  rw [List.filterMap_append]

theorem enroll_course_commits (st : Store) (sid cid cid0 : Int) :
    commits (enroll_course_calls st sid cid cid0) ∈
      [[], [Table.courses], [Table.courses, Table.students]] := by
  unfold enroll_course_calls
  repeat' split
  all_goals simp [commits, committed, scan_calls, write_back_calls, List.filterMap_append]

theorem unenroll_course_commits (st : Store) (sid cid : Int) (stack : CourseVars) :
    commits (unenroll_course_calls st sid cid stack) ∈
      [[], [Table.courses], [Table.courses, Table.students]] := by
  unfold unenroll_course_calls
  repeat' split
  all_goals simp [commits, committed, scan_calls, write_back_calls, List.filterMap_append]

theorem update_faculty_courses_commits (faculty : Option (List Char)) (fid : Int)
    (code : List Char) (add : Bool) :
    commits (update_faculty_courses_calls faculty fid code add) ∈ [[], [Table.faculty]] := by
  unfold update_faculty_courses_calls
  repeat' split
  all_goals simp [commits, committed, List.filterMap_append]

theorem add_course_commits (st : Store) (id : Int) (code name : List Char)
    (capacity credits fid : Int) :
    commits (add_course_calls st id code name capacity credits fid) ∈
      [[], [Table.courses], [Table.courses, Table.faculty]] := by
  have hscan : commits (match st.courses with
      | none => []
      | some _ => scan_calls Table.courses) = [] := by
    cases st.courses <;> rfl
  have hf := update_faculty_courses_commits st.faculty fid code true
  unfold add_course_calls
  rw [commits_append, hscan]
  by_cases hd : check_course_id_exists st.courses id ≠ 0
  · rw [if_pos hd]
    simp [commits]
  · rw [if_neg hd, commits_append]
    simp only [List.mem_cons, List.mem_singleton, List.not_mem_nil, or_false] at hf
    rcases hf with hf | hf
    · rw [hf]; simp [commits, committed]
    · rw [hf]; simp [commits, committed]

theorem remove_cascade_commits (students : Option (List Char)) (code list enrolled0 : List Char) :
    commits (remove_cascade_calls students code list enrolled0).1 ∈ [[], [Table.students]] := by
  unfold remove_cascade_calls
  repeat' split
  all_goals simp [commits, committed]

theorem remove_course_commits (st : Store) (id fid : Int) (enrolled0 : List Char) :
    commits (remove_course_calls st id fid enrolled0) ∈
      [[], [Table.courses], [Table.courses, Table.faculty], [Table.students],
        [Table.students, Table.courses], [Table.students, Table.courses, Table.faculty]] := by
  unfold remove_course_calls
  cases st.courses with
  | none => simp [commits]
  | some cfile =>
    simp only
    cases remove_lookup_course id fid (read_lines cfile MAX_LINE_LEN).tail [] with
    | ret s => simp [commits, committed]
    | done found v =>
      obtain ⟨course_code, students_list⟩ := v
      cases found with
      | false => simp [commits, committed]
      | true =>
        simp only
        have hk := remove_cascade_commits st.students course_code students_list enrolled0
        have hf := update_faculty_courses_commits st.faculty fid course_code false
        simp only [List.mem_cons, List.mem_singleton, List.not_mem_nil, or_false] at hk hf
        rw [commits_append, commits_append]
        split_ifs
        · rw [commits_append]
          rcases hk with hk | hk <;> rcases hf with hf | hf <;> rw [hk, hf] <;>
            simp [commits, committed]
        · rcases hk with hk | hk <;> rw [hk] <;> simp [commits, committed]

/-- C22, as stated (refuted): on `cascade_store`, where
`remove_course(41, 5)` returns SUCCESS, the students table is renamed into
place first, then the courses table, then the faculty table. -/
theorem remove_course_rewrites_students_first :
    remove_course cascade_store 41 5 [] = some (SUCCESS, cascade_store_after) ∧
    commits (remove_course_calls cascade_store 41 5 []) =
      [Table.students, Table.courses, Table.faculty] ∧
    ¬ List.Sublist (commits (remove_course_calls cascade_store 41 5 []))
      [Table.courses, Table.faculty, Table.students] := by
  refine ⟨by decide, by decide, by decide⟩

/-- C22 (amended): whatever the store and the arguments, `enroll_course`,
`unenroll_course` and `add_course` rewrite their tables in the order courses,
faculty, students (courses then students, courses then faculty), and
`remove_course` rewrites its tables in the order students, courses, faculty. -/
theorem workflows_commit_order (st : Store) :
    (∀ sid cid cid0, List.Sublist (commits (enroll_course_calls st sid cid cid0))
      [Table.courses, Table.faculty, Table.students]) ∧
    (∀ sid cid stack, List.Sublist (commits (unenroll_course_calls st sid cid stack))
      [Table.courses, Table.faculty, Table.students]) ∧
    (∀ id code name capacity credits fid,
      List.Sublist (commits (add_course_calls st id code name capacity credits fid))
        [Table.courses, Table.faculty, Table.students]) ∧
    (∀ id fid enrolled0, List.Sublist (commits (remove_course_calls st id fid enrolled0))
      [Table.students, Table.courses, Table.faculty]) := by
  refine ⟨?_, ?_, ?_, ?_⟩
  · intro sid cid cid0
    have h := enroll_course_commits st sid cid cid0
    revert h
    generalize commits (enroll_course_calls st sid cid cid0) = l
    revert l
    decide
  · intro sid cid stack
    have h := unenroll_course_commits st sid cid stack
    revert h
    generalize commits (unenroll_course_calls st sid cid stack) = l
    revert l
    decide
  · intro id code name capacity credits fid
    have h := add_course_commits st id code name capacity credits fid
    revert h
    generalize commits (add_course_calls st id code name capacity credits fid) = l
    revert l
    decide
  · intro id fid enrolled0
    have h := remove_course_commits st id fid enrolled0
    revert h
    generalize commits (remove_course_calls st id fid enrolled0) = l
    revert l
    decide

/-! ## The locks around the rewrites and the states a reader can meet -/

/-- C23 (defect of the code): no whole-table rewrite keeps an exclusive lock
from the read to the replacement of the table. `enroll_course` and
`unenroll_course` read each table in a pass under a shared lock that is
released and closed, then empty the file by `open(O_WRONLY | O_TRUNC)` before
they ask for the exclusive lock; `update_faculty_courses` and `remove_course`
close the locked stream before `rename`; `change_password` holds a shared lock
only and releases it before `unlink` and `rename`. The lists are the calls
that change a table while no exclusive lock on it is held. -/
theorem rewrites_change_tables_unlocked :
    (∀ cid0, enroll_course_calls full_store 9 41 cid0 =
      scan_calls Table.courses ++ scan_calls Table.students ++ scan_calls Table.courses ++
        write_back_calls Table.courses (full_store_after.courses.getD []) ++
        scan_calls Table.students ++
        write_back_calls Table.students (full_store_after.students.getD [])) ∧
    (∀ cid0, unlocked_changes (enroll_course_calls full_store 9 41 cid0) =
      [Call.open_trunc Table.courses, Call.open_trunc Table.students]) ∧
    (∀ stack, unlocked_changes (unenroll_course_calls full_store_after 9 41 stack) =
      [Call.open_trunc Table.courses, Call.open_trunc Table.students]) ∧
    unlocked_changes (update_faculty_courses_calls cascade_store.faculty 5 "CS1".toList false) =
      [Call.rename Table.faculty (cascade_store_after.faculty.getD [])] ∧
    (∀ enrolled0, unlocked_changes (remove_course_calls cascade_store 41 5 enrolled0) =
      [Call.rename Table.students (cascade_store_after.students.getD []),
        Call.rename Table.courses (cascade_store_after.courses.getD []),
        Call.rename Table.faculty (cascade_store_after.faculty.getD [])]) ∧
    unlocked_changes (change_password_calls (some plain_faculty) 5 "newpw".toList) =
      [Call.unlink Table.faculty,
        Call.rename Table.faculty ("id,name,email,password,offered_courses\n" ++
          "5,Eve,eve@x.com,newpw,MA1\n" ++
          "6,Dan,dan@x.com,pw6,CS101\n").toList] := by
  refine ⟨?_, ?_, ?_, by decide, ?_, by decide⟩
  · intro cid0
    rw [enroll_course_calls_cid0 full_store 9 41 (by decide) cid0 0]
    decide
  · intro cid0
    rw [enroll_course_calls_cid0 full_store 9 41 (by decide) cid0 0]
    decide
  · intro stack
    rw [unenroll_course_calls_stack full_store_after 9 41 (by decide) stack (enroll_vars0 0)]
    decide
  · intro enrolled0
    rw [remove_course_calls_enrolled0 cascade_store 41 5 (by decide) enrolled0 []]
    decide

/-- C24 (defect of the code): `enroll_course(9, 41)` returns SUCCESS on
`full_store` and `unenroll_course(9, 41)` returns SUCCESS on the store it
leaves. Between `open(O_WRONLY | O_TRUNC)` and the exclusive lock each of the
two tables is empty and unlocked: a process that opens the table at that moment
finds neither the old nor the new content. The lists are the distinct contents
a reader can find, in order. -/
theorem enroll_unenroll_reader_finds_empty_table :
    (∀ cid0, enroll_course full_store 9 41 cid0 = some (SUCCESS, full_store_after)) ∧
    (∀ cid0, (reader_views full_store (enroll_course_calls full_store 9 41 cid0)
      Table.courses).dedup = [full_store.courses, some [], full_store_after.courses]) ∧
    (∀ cid0, (reader_views full_store (enroll_course_calls full_store 9 41 cid0)
      Table.students).dedup = [full_store.students, some [], full_store_after.students]) ∧
    (∀ stack, unenroll_course full_store_after 9 41 stack = some (SUCCESS, full_store)) ∧
    (∀ stack, (reader_views full_store_after (unenroll_course_calls full_store_after 9 41 stack)
      Table.courses).dedup = [full_store_after.courses, some [], full_store.courses]) ∧
    (∀ stack, (reader_views full_store_after (unenroll_course_calls full_store_after 9 41 stack)
      Table.students).dedup = [full_store_after.students, some [], full_store.students]) := by
  refine ⟨?_, ?_, ?_, ?_, ?_, ?_⟩
  · intro cid0
    rw [enroll_course_cid0 full_store 9 41 (by decide) cid0 0]
    decide
  · intro cid0
    rw [enroll_course_calls_cid0 full_store 9 41 (by decide) cid0 0]
    decide
  · intro cid0
    rw [enroll_course_calls_cid0 full_store 9 41 (by decide) cid0 0]
    decide
  · intro stack
    rw [unenroll_course_stack full_store_after 9 41 (by decide) stack (enroll_vars0 0)]
    decide
  · intro stack
    rw [unenroll_course_calls_stack full_store_after 9 41 (by decide) stack (enroll_vars0 0)]
    decide
  · intro stack
    rw [unenroll_course_calls_stack full_store_after 9 41 (by decide) stack (enroll_vars0 0)]
    decide

end Academia
